import Mathlib

/-!
A verification development for the `blend` crate: a lazy, read-only runtime
for Blender `.blend` files.  The Rust sources are shallowly embedded: pure
functions become Lean functions, machine integers become `Nat` (multi-byte
values are decoded as their endianness-dependent bit patterns), byte slices
become `List Nat`, and every fallible or panicking operation returns an
`Option`/`Except` where `none`/`.error` marks a panic or parse failure.
Unbounded loops in the source are modelled with an explicit fuel parameter.
-/

set_option autoImplicit false
set_option maxRecDepth 8000
set_option maxHeartbeats 1000000
set_option linter.unusedVariables false
set_option linter.unnecessarySimpa false

namespace Blend

/-! ## Data model (from `parsers/mod.rs`, `parsers/blend.rs`, `parsers/dna.rs`) -/

/-- Size of a pointer on the machine used to create the .blend file. -/
inductive PointerSize
| bits32
| bits64
deriving DecidableEq

/-- Pointer size in bytes (`PointerSize::bytes_num`). -/
def PointerSize.bytes_num : PointerSize → Nat
| .bits32 => 4
| .bits64 => 8

/-- Endianness of the machine used to create the .blend file. -/
inductive Endianness
| little
| big
deriving DecidableEq

/-- The .blend file header. `version` holds the three raw version bytes. -/
structure Header where
  pointer_size : PointerSize
  endianness : Endianness
  version : List Nat
deriving DecidableEq

/-- An entry of `Dna::types`: a type name and its size in bytes. -/
structure DnaType where
  name : String
  bytes_len : Nat
deriving DecidableEq

/-- An entry of a struct's field list: indices into `Dna::types` / `Dna::names`. -/
structure DnaField where
  type_index : Nat
  name_index : Nat
deriving DecidableEq

/-- An entry of `Dna::structs`. -/
structure DnaStruct where
  type_index : Nat
  fields : List DnaField
deriving DecidableEq

/-- The SDNA catalog embedded in the file. -/
structure Dna where
  names : List String
  types : List DnaType
  structs : List DnaStruct
deriving DecidableEq

/-- A block's payload bytes together with its element count. -/
structure BlockData where
  data : List Nat
  count : Nat
deriving DecidableEq

/-- All block variants of the blend file (`Block` in `parsers/blend.rs`). -/
inductive Block
| rend
| test
| global (memory_address : Nat) (dna_index : Nat) (data : BlockData)
| principal (code : List Nat) (memory_address : Nat) (dna_index : Nat) (data : BlockData)
| subsidiary (memory_address : Nat) (dna_index : Nat) (data : BlockData)
| dna (d : Dna)
deriving DecidableEq

/-- The parsed file: header, block list (without the DNA block) and the DNA. -/
structure RawBlend where
  header : Header
  blocks : List Block
  dna : Dna
deriving DecidableEq

/-! ## Field-name parser (from `parsers/field.rs`) -/

/-- Structural kind of a field, parsed from its SDNA name string. -/
inductive FieldInfo
| value
| valueArray (len : Nat) (dimensions_len : List Nat)
| pointer (indirection_count : Nat)
| pointerArray (indirection_count : Nat) (len : Nat) (dimensions_len : List Nat)
| fnPointer
deriving DecidableEq

/-- Field-name parse errors.  `err` stands for recoverable nom errors
(`Err::Error`), which `alt` backtracks over, while `invalidArraySize` is the
fatal `Err::Failure(FieldParseError::InvalidArraySize)`. -/
inductive FErr
| err
| invalidArraySize
deriving DecidableEq

/-- nom's `alt`: try `p`, and only on a recoverable error try `q`. -/
def altE {α : Type} (p q : List Char → Except FErr α) (s : List Char) : Except FErr α :=
  match p s with
  | .error .err => q s
  | r => r

/-- Split a string at the first occurrence of `c` (consumed), as performed by
`take_until` followed by `tag`; `none` when `c` does not occur. -/
def splitAtChar (c : Char) : List Char → Option (List Char × List Char)
| [] => none
| x :: xs =>
  if x = c then some ([], xs)
  else (splitAtChar c xs).map (fun p => (x :: p.1, p.2))

/-- Strip the maximal run of leading `'*'` characters (`many1(tag("*"))`
succeeds when the count is positive). -/
def stripStars : List Char → Nat × List Char
| '*' :: t => let p := stripStars t; (p.1 + 1, p.2)
| s => (0, s)

theorem splitAtChar_length {c : Char} : ∀ {s a b : List Char},
    splitAtChar c s = some (a, b) → b.length < s.length := by
  intro s
  induction s with
  | nil => intro a b h; simp [splitAtChar] at h
  | cons x xs ih =>
    intro a b h
    simp only [splitAtChar] at h
    by_cases hx : x = c
    · rw [if_pos hx] at h
      have hb : xs = b := congrArg Prod.snd (Option.some.inj h)
      subst hb
      simp
    · rw [if_neg hx] at h
      cases hsp : splitAtChar c xs with
      | none => rw [hsp] at h; simp at h
      | some p =>
        rw [hsp, Option.map_some'] at h
        have hb : p.2 = b := congrArg Prod.snd (Option.some.inj h)
        have hrec : p.2.length < xs.length := ih hsp
        subst hb
        simp only [List.length_cons]
        omega

/-- One `delimited(tag("["), take_until("]"), tag("]"))` group. -/
def parseOneDim : List Char → Option (List Char × List Char)
| '[' :: t => splitAtChar ']' t
| _ => none

theorem parseOneDim_length {s d rest : List Char}
    (h : parseOneDim s = some (d, rest)) : rest.length < s.length := by
  match s with
  | [] => simp [parseOneDim] at h
  | c :: t =>
    by_cases hc : c = '['
    · subst hc
      simp only [parseOneDim] at h
      have := splitAtChar_length h
      simp [List.length_cons]
      omega
    · cases t <;> simp [parseOneDim, hc] at h

/-- `many0(complete(delimited(tag("["), take_until("]"), tag("]"))))`:
greedily collect bracketed groups, stopping at the first failure. -/
def dimGroups (s : List Char) : List (List Char) × List Char :=
  match h : parseOneDim s with
  | some (d, rest) =>
    let p := dimGroups rest
    (d :: p.1, p.2)
  | none => ([], s)
termination_by s.length
decreasing_by exact parseOneDim_length h

/-- Decimal digit value of a character. -/
def digitVal (c : Char) : Option Nat :=
  if '0' ≤ c ∧ c ≤ '9' then some (c.toNat - 48) else none

/-- Value of a nonempty all-digit string. -/
def digitsValGo : Nat → List Char → Option Nat
| acc, [] => some acc
| acc, c :: t =>
  match digitVal c with
  | some d => digitsValGo (10 * acc + d) t
  | none => none

/-- Rust's `str::parse::<usize>`: optional leading `'+'`, then one or more
decimal digits, rejecting values that overflow a 64-bit `usize`. -/
def parseUsize (s : List Char) : Option Nat :=
  let core := match s with
    | '+' :: t => t
    | _ => s
  match core with
  | [] => none
  | l =>
    match digitsValGo 0 l with
    | some v => if v < 2 ^ 64 then some v else none
    | none => none

/-- `array_dimensions`: collect `[N]` groups and convert each to a number,
failing fatally with `InvalidArraySize` on a non-numeric size. -/
def arrayDimensions (s : List Char) : Except FErr (List Nat × List Char) :=
  match (dimGroups s).1.mapM parseUsize with
  | some dims => .ok (dims, (dimGroups s).2)
  | none => .error .invalidArraySize

/-- The `fn_pointer` parser: `(*name)(params)`. -/
def fnPointerP (s : List Char) : Except FErr ((List Char × FieldInfo) × List Char) :=
  match s with
  | '(' :: '*' :: t =>
    match splitAtChar ')' t with
    | some (name, s2) =>
      match s2 with
      | '(' :: s3 =>
        match splitAtChar ')' s3 with
        | some (_, s4) => .ok ((name, .fnPointer), s4)
        | none => .error .err
      | _ => .error .err
    | none => .error .err
  | _ => .error .err

/-- The `pointer` parser: leading asterisks, a bracket-free name, and an
optional array-dimension suffix. -/
def pointerP (s : List Char) : Except FErr ((List Char × FieldInfo) × List Char) :=
  if (stripStars s).1 = 0 then .error .err
  else if ((stripStars s).2.dropWhile (fun c => c ≠ '[')).isEmpty then
    .ok (((stripStars s).2.takeWhile (fun c => c ≠ '['), .pointer (stripStars s).1),
      (stripStars s).2.dropWhile (fun c => c ≠ '['))
  else
    match arrayDimensions ((stripStars s).2.dropWhile (fun c => c ≠ '[')) with
    | .ok (dims, rest) =>
      .ok (((stripStars s).2.takeWhile (fun c => c ≠ '['),
        .pointerArray (stripStars s).1 dims.prod dims), rest)
    | .error e => .error e

/-- The `value` parser: a name and an optional array-dimension suffix. -/
def valueP (s : List Char) : Except FErr ((List Char × FieldInfo) × List Char) :=
  if (s.dropWhile (fun c => c ≠ '[')).isEmpty then
    .ok ((s.takeWhile (fun c => c ≠ '['), .value), s.dropWhile (fun c => c ≠ '['))
  else
    match arrayDimensions (s.dropWhile (fun c => c ≠ '[')) with
    | .ok (dims, rest) => .ok ((s.takeWhile (fun c => c ≠ '['), .valueArray dims.prod dims), rest)
    | .error e => .error e

/-- `parse_field = alt((fn_pointer, pointer, value))`. -/
def parse_field (s : List Char) : Except FErr ((List Char × FieldInfo) × List Char) :=
  altE fnPointerP (altE pointerP valueP) s

/-! ## Byte-level primitives (from `parsers/primitive.rs` / nom) -/

/-- Little-endian value of a byte list (first byte least significant). -/
def leVal (bs : List Nat) : Nat := bs.foldr (fun b acc => b % 256 + 256 * acc) 0

/-- Big-endian value of a byte list. -/
def beVal (bs : List Nat) : Nat := bs.foldl (fun acc b => 256 * acc + b % 256) 0

/-- Endianness-dispatching decode of a byte list into its bit pattern. -/
def endianVal : Endianness → List Nat → Nat
| .little, bs => leVal bs
| .big, bs => beVal bs

/-- nom's `take(n)`: split off the first `n` bytes, failing on short input. -/
def readN (n : Nat) (input : List Nat) : Option (List Nat × List Nat) :=
  if n ≤ input.length then some (input.take n, input.drop n) else none

/-- Read a 2-byte integer in the given endianness. -/
def readU16 (e : Endianness) (input : List Nat) : Option (Nat × List Nat) :=
  (readN 2 input).map (fun p => (endianVal e p.1, p.2))

/-- Read a 4-byte integer in the given endianness. -/
def readU32 (e : Endianness) (input : List Nat) : Option (Nat × List Nat) :=
  (readN 4 input).map (fun p => (endianVal e p.1, p.2))

/-- Read a pointer-sized integer (4 or 8 bytes) in the header's endianness,
widened to a `u64` value, as done by `BlendParseContext::memory_address`. -/
def readPtrSized (h : Header) (input : List Nat) : Option (Nat × List Nat) :=
  (readN h.pointer_size.bytes_num input).map (fun p => (endianVal h.endianness p.1, p.2))

/-- Runtime pointer decode (`parse_ptr_address` helpers `parse_u32`/`parse_u64`):
reads the first 4 or 8 bytes of the slice, panicking (`none`) on short input. -/
def readPtrVal (h : Header) (bytes : List Nat) : Option Nat :=
  match h.pointer_size with
  | .bits32 => if 4 ≤ bytes.length then some (endianVal h.endianness (bytes.take 4)) else none
  | .bits64 => if 8 ≤ bytes.length then some (endianVal h.endianness (bytes.take 8)) else none

/-! ## Runtime data model (from `runtime.rs`) -/

/-- A field template: how to interpret one field of an instance. -/
structure FieldTemplate where
  info : FieldInfo
  type_index : Nat
  type_name : String
  data_start : Nat
  data_len : Nat
  is_primitive : Bool
deriving DecidableEq

/-- `InstanceDataFormat`: an instance views either a whole block or raw bytes. -/
inductive InstData
| block (b : Block)
| raw (bytes : List Nat)
deriving DecidableEq

/-- An `Instance`: a typed cursor over block or raw bytes.  The `dna`/`blend`
references of the Rust struct are always the ambient `RawBlend`, so they are
passed separately to each operation. -/
structure Instance where
  type_name : String
  data : InstData
  fields : List (String × FieldTemplate)
deriving DecidableEq

/-- `PointerInfo`: result of resolving a pointer field. -/
inductive PtrInfo
| block (b : Block)
| null
| invalid
deriving DecidableEq

/-- `InstanceDataFormat::data`; `none` models the `unimplemented` panic for
`Rend`/`Test`/`Dna` blocks. -/
def InstData.dataBytes : InstData → Option (List Nat)
| .block (.principal _ _ _ d) => some d.data
| .block (.subsidiary _ _ d) => some d.data
| .block (.global _ _ d) => some d.data
| .block _ => none
| .raw d => some d

/-- `InstanceDataFormat::code`. -/
def InstData.codeOf : InstData → Option (List Nat)
| .block (.principal c _ _ _) => some (c ++ [0, 0])
| .block (.global _ _ _) => some [71, 76, 79, 66]
| .block .rend => some [82, 69, 78, 68]
| .block .test => some [84, 69, 83, 84]
| .block (.dna _) => some [68, 78, 65, 49]
| .block (.subsidiary _ _ _) => none
| .raw _ => none

/-- `InstanceDataFormat::memory_address`; `none` covers both the `None`
result for raw data and the `unimplemented` panic for codeless blocks. -/
def InstData.memAddr : InstData → Option Nat
| .block (.principal _ a _ _) => some a
| .block (.subsidiary a _ _) => some a
| .block (.global a _ _) => some a
| _ => none

/-- Slicing `&data[start..start+len]`; out-of-bounds slicing panics. -/
def sliceGet (data : List Nat) (start len : Nat) : Option (List Nat) :=
  if start + len ≤ data.length then some ((data.drop start).take len) else none

/-- `InstanceDataFormat::get` lifted over the panics of `data`/slicing. -/
def Instance.getData (inst : Instance) (start len : Nat) : Option (List Nat) := do
  let d ← inst.data.dataBytes
  sliceGet d start len

/-- `LinkedHashMap::get` on the insertion-ordered field map. -/
def lookupField (inst : Instance) (name : String) : Option FieldTemplate :=
  (inst.fields.find? (fun p => p.1 = name)).map (fun p => p.2)

/-- Field byte length by kind, as computed inside `generate_fields`. -/
def fieldBytesLen (h : Header) (type_bytes_len : Nat) : FieldInfo → Nat
| .pointer _ => h.pointer_size.bytes_num
| .fnPointer => h.pointer_size.bytes_num
| .pointerArray _ len _ => h.pointer_size.bytes_num * len
| .valueArray len _ => type_bytes_len * len
| .value => type_bytes_len

/-- The field-walking loop of `generate_fields`, accumulating `data_start`;
returns the templates in declaration order plus the terminal offset.
Out-of-range DNA indices and field-name parse failures panic (`none`). -/
def genFieldsGo (dna : Dna) (h : Header) : List DnaField → Nat → Option (List (String × FieldTemplate) × Nat)
| [], start => some ([], start)
| f :: rest, start => do
  let ftype ← dna.types.get? f.type_index
  let fname ← dna.names.get? f.name_index
  let pr ← (parse_field fname.toList).toOption
  let len := fieldBytesLen h ftype.bytes_len pr.1.2
  let tl ← genFieldsGo dna h rest (start + len)
  some ((String.mk pr.1.1,
    { info := pr.1.2
      type_index := f.type_index
      type_name := ftype.name
      data_start := start
      data_len := len
      is_primitive := decide (f.type_index < 12) }) :: tl.1, tl.2)

/-- `generate_fields`: walk the struct's fields and check the terminal offset
against the struct type's `bytes_len` (the `assert_eq` panics otherwise). -/
def generate_fields (dna : Dna) (h : Header) (s : DnaStruct) (t : DnaType) :
    Option (List (String × FieldTemplate)) := do
  let r ← genFieldsGo dna h s.fields 0
  if t.bytes_len = r.2 then some r.1 else none

/-- `generate_subsidiary_fields`: choose the struct layout for a subsidiary
block pointed to by `field`, given the block's `dna_index`. -/
def generate_subsidiary_fields (dna : Dna) (h : Header) (field : FieldTemplate)
    (dna_index : Nat) : Option (List (String × FieldTemplate) × DnaType) :=
  if 12 ≤ field.type_index then
    if 12 ≤ dna_index then do
      let s ← dna.structs.get? dna_index
      let t ← dna.types.get? s.type_index
      let f ← generate_fields dna h s t
      some (f, t)
    else
      match dna.structs.find? (fun s => s.type_index = field.type_index) with
      | some s => do
        let t ← dna.types.get? s.type_index
        let f ← generate_fields dna h s t
        some (f, t)
      | none => none
  else do
    let s ← dna.structs.get? dna_index
    if 12 ≤ s.type_index then do
      let t ← dna.types.get? s.type_index
      let f ← generate_fields dna h s t
      some (f, t)
    else none

/-- Address of a `Principal` or `Subsidiary` block (the only kinds searched
by pointer resolution). -/
def blockMatchesAddr (a : Nat) : Block → Bool
| .principal _ addr _ _ => addr = a
| .subsidiary addr _ _ => addr = a
| _ => false

/-- The `blocks.iter().find` used by pointer resolution. -/
def findBlockByAddr (blend : RawBlend) (a : Nat) : Option Block :=
  blend.blocks.find? (blockMatchesAddr a)

/-- `Instance::get_ptr`: read the field's stored address and resolve it. -/
def Instance.get_ptr (blend : RawBlend) (inst : Instance) (field : FieldTemplate) :
    Option PtrInfo :=
  match field.info with
  | .pointer _ => do
    let bytes ← inst.getData field.data_start field.data_len
    let v ← readPtrVal blend.header bytes
    if v = 0 then some .null
    else
      match findBlockByAddr blend v with
      | some b => some (.block b)
      | none => some .invalid
  | _ => none

/-- `Instance::get`: access a struct field, through a value or a single
pointer.  All panics are `none`. -/
def Instance.get (blend : RawBlend) (inst : Instance) (name : String) : Option Instance := do
  let field ← lookupField inst name
  match field.info with
  | .value =>
    if field.is_primitive then none
    else do
      let s ← blend.dna.structs.find? (fun s => s.type_index = field.type_index)
      let t ← blend.dna.types.get? s.type_index
      let flds ← generate_fields blend.dna blend.header s t
      let bytes ← inst.getData field.data_start field.data_len
      some { type_name := t.name, data := .raw bytes, fields := flds }
  | .pointer 1 => do
    let pi ← inst.get_ptr blend field
    match pi with
    | .null => none
    | .invalid => none
    | .block b =>
      match b with
      | .principal _ _ dna_index data =>
        if data.count = 1 then do
          let s ← blend.dna.structs.get? dna_index
          let t ← blend.dna.types.get? s.type_index
          let flds ← generate_fields blend.dna blend.header s t
          some { type_name := t.name, data := .block b, fields := flds }
        else none
      | .subsidiary _ dna_index _ => do
        let r ← generate_subsidiary_fields blend.dna blend.header field dna_index
        some { type_name := r.2.name, data := .block b, fields := r.1 }
      | _ => none
  | _ => none

/-- The element-checking loop of `is_valid` for double pointers: every
pointer stored in the target block must be non-null and resolve. -/
def ptrListAllValid (blend : RawBlend) (bytes : List Nat) (ps : Nat) : List Nat → Option Bool
| [] => some true
| i :: rest => do
  let v ← readPtrVal blend.header (bytes.drop (i * ps))
  if v = 0 then some false
  else if (findBlockByAddr blend v).isSome then ptrListAllValid blend bytes ps rest
  else some false

/-- `Instance::is_valid`.  The fuel bounds the recursion through nested
`ListBase` values; `none` models a panic (including the
`assert_eq!(field.data_len, size_of::<u64>())` on single pointers and the
`unimplemented` arm for pointer arrays). -/
def is_valid (blend : RawBlend) : Nat → Instance → String → Option Bool
| 0, _, _ => none
| fuel + 1, inst, name =>
  match lookupField inst name with
  | none => some false
  | some field =>
    match field.info with
    | .pointer 1 =>
      if field.data_len = 8 then do
        let pi ← inst.get_ptr blend field
        match pi with
        | .null => some false
        | .invalid => some false
        | .block (.principal _ _ _ _) => some true
        | .block (.subsidiary _ _ _) => some true
        | .block _ => none
      else none
    | .pointer 2 => do
      let pi ← inst.get_ptr blend field
      match pi with
      | .null => some false
      | .invalid => some false
      | .block (.principal _ _ _ data) =>
        let ps := blend.header.pointer_size.bytes_num
        ptrListAllValid blend data.data ps (List.range (data.data.length / ps))
      | .block (.subsidiary _ _ data) =>
        let ps := blend.header.pointer_size.bytes_num
        ptrListAllValid blend data.data ps (List.range (data.data.length / ps))
      | .block _ => none
    | .fnPointer => some false
    | .pointerArray _ _ _ => none
    | .value =>
      if field.type_name = "ListBase" then do
        let inst2 ← inst.get blend name
        let b1 ← is_valid blend fuel inst2 "first"
        if b1 then is_valid blend fuel inst2 "last" else some false
      else some true
    | .valueArray _ _ => some true
    | .pointer _ => none

/-- A Rust primitive type usable with the typed getters: its canonical SDNA
name and its byte size (the `BlendPrimitive` capability). -/
structure PrimType where
  name : String
  size : Nat
deriving DecidableEq

def primChar : PrimType := ⟨"char", 1⟩
def primUShort : PrimType := ⟨"ushort", 2⟩
def primShort : PrimType := ⟨"short", 2⟩
def primInt : PrimType := ⟨"int", 4⟩
def primFloat : PrimType := ⟨"float", 4⟩
def primDouble : PrimType := ⟨"double", 8⟩
def primU64 : PrimType := ⟨"uint64_t", 8⟩
def primI64 : PrimType := ⟨"int64_t", 8⟩

/-- `Instance::get_value`, the shared body of all typed primitive getters.
The decoded value is the endianness-dependent bit pattern of the field's
bytes. -/
def get_value (blend : RawBlend) (inst : Instance) (T : PrimType) (name : String) : Option Nat := do
  let field ← lookupField inst name
  match field.info with
  | .value =>
    if field.is_primitive ∧ field.type_name = T.name then
      if field.data_len = T.size then do
        let bytes ← inst.getData field.data_start field.data_len
        some (endianVal blend.header.endianness bytes)
      else none
    else none
  | _ => none

def get_f32 (blend : RawBlend) (inst : Instance) (name : String) : Option Nat :=
  get_value blend inst primFloat name

def get_i32 (blend : RawBlend) (inst : Instance) (name : String) : Option Nat :=
  get_value blend inst primInt name

def get_u8 (blend : RawBlend) (inst : Instance) (name : String) : Option Nat :=
  get_value blend inst primChar name

/-- Rust's `slice::chunks` (the chunk size is always positive at call sites). -/
def chunksGo (size : Nat) : Nat → List Nat → List (List Nat)
| 0, _ => []
| _, [] => []
| f + 1, l => l.take size :: chunksGo size f (l.drop size)

def chunksList (size : Nat) (l : List Nat) : List (List Nat) :=
  if size = 0 then [] else chunksGo size l.length l

/-- Decoding one chunk; a chunk shorter than the primitive size panics. -/
def decodeChunk (e : Endianness) (size : Nat) (chunk : List Nat) : Option Nat :=
  if size ≤ chunk.length then some (endianVal e (chunk.take size)) else none

/-- `Instance::get_value_vec`, the shared body of the `get_<T>_vec` getters. -/
def get_value_vec (blend : RawBlend) (inst : Instance) (T : PrimType) (name : String) :
    Option (List Nat) := do
  let field ← lookupField inst name
  let data ← match field.info with
    | .valueArray len _ =>
      if field.is_primitive then
        if field.data_len / len = T.size then inst.getData field.data_start field.data_len
        else none
      else none
    | .pointer 1 => do
      let pi ← inst.get_ptr blend field
      match pi with
      | .null => none
      | .invalid => none
      | .block (.principal _ _ _ d) =>
        if d.data.length % T.size = 0 then some d.data else none
      | .block (.subsidiary _ _ d) =>
        if d.data.length % T.size = 0 then some d.data else none
      | .block _ => none
    | _ => none
  (chunksList T.size data).mapM (decodeChunk blend.header.endianness T.size)

def get_f32_vec (blend : RawBlend) (inst : Instance) (name : String) : Option (List Nat) :=
  get_value_vec blend inst primFloat name

/-- `Instance::get_string`: read a `char` value or value-array up to the
first NUL byte. -/
def get_string (blend : RawBlend) (inst : Instance) (name : String) : Option String := do
  let field ← lookupField inst name
  match field.info with
  | .value =>
    if field.is_primitive ∧ field.type_name = "char" then do
      let bytes ← inst.getData field.data_start field.data_len
      some (String.mk ((bytes.takeWhile (fun b => b ≠ 0)).map Char.ofNat))
    else none
  | .valueArray _ _ =>
    if field.is_primitive ∧ field.type_name = "char" then do
      let bytes ← inst.getData field.data_start field.data_len
      some (String.mk ((bytes.takeWhile (fun b => b ≠ 0)).map Char.ofNat))
    else none
  | _ => none

/-- The `while !cur.is_valid("next")` wrapper-descent followed by
`cur.get("next")` in the `ListBase` traversals. -/
def advanceNext (blend : RawBlend) : Nat → Instance → Option Instance
| 0, _ => none
| fuel + 1, cur => do
  let v ← is_valid blend (fuel + 1) cur "next"
  if v then cur.get blend "next"
  else do
    let k ← cur.fields.head?
    let cur2 ← cur.get blend k.1
    advanceNext blend fuel cur2

/-- The eager `ListBase` loop of `Instance::get_vec`: push the current
instance, stop after the one whose address equals `last`'s, else advance. -/
def vecLoop (blend : RawBlend) : Nat → Nat → Instance → Option (List Instance)
| 0, _, _ => none
| fuel + 1, lastAddr, cur => do
  let a ← cur.data.memAddr
  if a = lastAddr then some [cur]
  else do
    let nxt ← advanceNext blend fuel cur
    let rest ← vecLoop blend fuel lastAddr nxt
    some (cur :: rest)

/-- The `Pointer{2}` loop of `get_vec`: non-null addresses resolving to a
`Principal` block are yielded, unresolved ones are skipped, and any other
resolved block kind (including `Subsidiary`) hits `unimplemented`. -/
def vecPtr2Go (blend : RawBlend) (bytes : List Nat) (ps : Nat) : List Nat → Option (List Instance)
| [] => some []
| i :: rest => do
  let v ← readPtrVal blend.header (bytes.drop (i * ps))
  if v = 0 then vecPtr2Go blend bytes ps rest
  else
    match findBlockByAddr blend v with
    | some (.principal c a dna_index d) => do
      let s ← blend.dna.structs.get? dna_index
      let t ← blend.dna.types.get? s.type_index
      let flds ← generate_fields blend.dna blend.header s t
      let tl ← vecPtr2Go blend bytes ps rest
      some ({ type_name := t.name, data := .block (.principal c a dna_index d),
              fields := flds } :: tl)
    | some _ => none
    | none => vecPtr2Go blend bytes ps rest

/-- The `PointerArray{1}` loop of `get_vec`: like the double-pointer loop,
but `Subsidiary` targets go through `generate_subsidiary_fields` and are
skipped when no layout can be chosen. -/
def vecPtrArrGo (blend : RawBlend) (field : FieldTemplate) (bytes : List Nat) (ps : Nat) :
    List Nat → Option (List Instance)
| [] => some []
| i :: rest => do
  let v ← readPtrVal blend.header (bytes.drop (i * ps))
  if v = 0 then vecPtrArrGo blend field bytes ps rest
  else
    match findBlockByAddr blend v with
    | some (.principal c a dna_index d) => do
      let s ← blend.dna.structs.get? dna_index
      let t ← blend.dna.types.get? s.type_index
      let flds ← generate_fields blend.dna blend.header s t
      let tl ← vecPtrArrGo blend field bytes ps rest
      some ({ type_name := t.name, data := .block (.principal c a dna_index d),
              fields := flds } :: tl)
    | some (.subsidiary a dna_index d) =>
      match generate_subsidiary_fields blend.dna blend.header field dna_index with
      | some r => do
        let tl ← vecPtrArrGo blend field bytes ps rest
        some ({ type_name := r.2.name, data := .block (.subsidiary a dna_index d),
                fields := r.1 } :: tl)
      | none => vecPtrArrGo blend field bytes ps rest
    | some _ => none
    | none => vecPtrArrGo blend field bytes ps rest

/-- `Instance::get_vec`. -/
def get_vec (blend : RawBlend) (fuel : Nat) (inst : Instance) (name : String) :
    Option (List Instance) := do
  let field ← lookupField inst name
  match field.info with
  | .value =>
    if field.type_name = "ListBase" then do
      let li ← inst.get blend name
      let lastI ← li.get blend "last"
      let lastAddr ← lastI.data.memAddr
      let first ← li.get blend "first"
      vecLoop blend fuel lastAddr first
    else none
  | .valueArray len _ =>
    if field.is_primitive then none
    else do
      let s ← blend.dna.structs.find? (fun s => s.type_index = field.type_index)
      let t ← blend.dna.types.get? s.type_index
      let flds ← generate_fields blend.dna blend.header s t
      let data ← inst.data.dataBytes
      (List.range len).mapM (fun i =>
        (sliceGet data (i * (data.length / len)) (data.length / len)).map
          (fun bytes => { type_name := t.name, data := .raw bytes, fields := flds }))
  | .pointer 1 => do
    let pi ← inst.get_ptr blend field
    match pi with
    | .null => none
    | .invalid => none
    | .block (.principal c a dna_index data) => do
      let s ← blend.dna.structs.get? dna_index
      let t ← blend.dna.types.get? s.type_index
      let flds ← generate_fields blend.dna blend.header s t
      (List.range data.count).mapM (fun i =>
        (sliceGet data.data (i * (data.data.length / data.count)) (data.data.length / data.count)).map
          (fun bytes => { type_name := t.name, data := .raw bytes, fields := flds }))
    | .block (.subsidiary a dna_index data) => do
      let r ← generate_subsidiary_fields blend.dna blend.header field dna_index
      (List.range data.count).mapM (fun i =>
        (sliceGet data.data (i * (data.data.length / data.count)) (data.data.length / data.count)).map
          (fun bytes => { type_name := r.2.name, data := .raw bytes, fields := r.1 }))
    | .block _ => none
  | .pointer 2 => do
    let pi ← inst.get_ptr blend field
    match pi with
    | .null => none
    | .invalid => none
    | .block (.principal _ _ _ data) =>
      let ps := blend.header.pointer_size.bytes_num
      vecPtr2Go blend data.data ps (List.range (data.data.length / ps))
    | .block (.subsidiary _ _ data) =>
      let ps := blend.header.pointer_size.bytes_num
      vecPtr2Go blend data.data ps (List.range (data.data.length / ps))
    | .block _ => none
  | .pointerArray 1 len _ => do
    let data ← inst.getData field.data_start field.data_len
    let ps := blend.header.pointer_size.bytes_num
    if len = data.length / ps then
      vecPtrArrGo blend field data ps (List.range (data.length / ps))
    else none
  | _ => none

/-! ### The lazy iterator of `Instance::get_iter` -/

/-- The `InstanceIterator` states. -/
inductive IterState
| listBase (lastAddr : Nat) (cur : Instance) (ended : Bool)
| valueArray (flds : List (String × FieldTemplate)) (data : List Nat) (len : Nat)
    (type_name : String) (cur_index : Nat)
| pointer1 (flds : List (String × FieldTemplate)) (data : BlockData)
    (type_name : String) (cur_index : Nat)
| pointer2 (pointers : List Nat) (field : FieldTemplate)
deriving DecidableEq

/-- One step of the `Pointer2` iterator: scan the remaining addresses for
the next yieldable block (`Principal`, or `Subsidiary` with a layout). -/
def iterPtr2Next (blend : RawBlend) (field : FieldTemplate) :
    List Nat → Option (Option (Instance × List Nat))
| [] => some none
| a :: rest =>
  match findBlockByAddr blend a with
  | some (.principal c ad dna_index d) => do
    let s ← blend.dna.structs.get? dna_index
    let t ← blend.dna.types.get? s.type_index
    let flds ← generate_fields blend.dna blend.header s t
    some (some ({ type_name := t.name, data := .block (.principal c ad dna_index d),
                  fields := flds }, rest))
  | some (.subsidiary ad dna_index d) =>
    match generate_subsidiary_fields blend.dna blend.header field dna_index with
    | some r =>
      some (some ({ type_name := r.2.name, data := .block (.subsidiary ad dna_index d),
                    fields := r.1 }, rest))
    | none => iterPtr2Next blend field rest
  | some _ => none
  | none => iterPtr2Next blend field rest

/-- `InstanceIterator::next`.  The outer `none` is a panic, `some none` is
iterator exhaustion, `some (some _)` yields an instance and the next state. -/
def iterNext (blend : RawBlend) (advFuel : Nat) : IterState → Option (Option (Instance × IterState))
| .listBase lastAddr cur ended =>
  if ended then some none
  else do
    let a ← cur.data.memAddr
    if a = lastAddr then some (some (cur, .listBase lastAddr cur true))
    else do
      let nxt ← advanceNext blend advFuel cur
      some (some (cur, .listBase lastAddr nxt false))
| .valueArray flds data len tn i =>
  if len = 0 then none
  else
    if i * (data.length / len) = data.length then some none
    else do
      let bytes ← sliceGet data (i * (data.length / len)) (data.length / len)
      some (some ({ type_name := tn, data := .raw bytes, fields := flds },
        .valueArray flds data len tn (i + 1)))
| .pointer1 flds bd tn i =>
  if bd.count = 0 then none
  else
    if i * (bd.data.length / bd.count) = bd.data.length then some none
    else do
      let bytes ← sliceGet bd.data (i * (bd.data.length / bd.count)) (bd.data.length / bd.count)
      some (some ({ type_name := tn, data := .raw bytes, fields := flds },
        .pointer1 flds bd tn (i + 1)))
| .pointer2 ptrs field =>
  match iterPtr2Next blend field ptrs with
  | none => none
  | some none => some none
  | some (some (inst, rest)) => some (some (inst, .pointer2 rest field))

/-- The eager address collection performed by `get_iter` before returning a
`Pointer2` iterator: parse every pointer slot, skipping null ones. -/
def collectPtrsGo (blend : RawBlend) (bytes : List Nat) (ps : Nat) : List Nat → Option (List Nat)
| [] => some []
| i :: rest => do
  let v ← readPtrVal blend.header (bytes.drop (i * ps))
  let tl ← collectPtrsGo blend bytes ps rest
  if v = 0 then some tl else some (v :: tl)

/-- The eager part of `Instance::get_iter`: everything done before the first
`next` call, producing the initial iterator state. -/
def get_iter_init (blend : RawBlend) (inst : Instance) (name : String) : Option IterState := do
  let field ← lookupField inst name
  match field.info with
  | .value =>
    if field.type_name = "ListBase" then do
      let li ← inst.get blend name
      let lastI ← li.get blend "last"
      let lastAddr ← lastI.data.memAddr
      let first ← li.get blend "first"
      some (.listBase lastAddr first false)
    else none
  | .valueArray len _ =>
    if field.is_primitive then none
    else do
      let s ← blend.dna.structs.find? (fun s => s.type_index = field.type_index)
      let t ← blend.dna.types.get? s.type_index
      let flds ← generate_fields blend.dna blend.header s t
      let data ← inst.data.dataBytes
      some (.valueArray flds data len t.name 0)
  | .pointer 1 => do
    let pi ← inst.get_ptr blend field
    match pi with
    | .null => none
    | .invalid => none
    | .block (.principal _ _ dna_index data) => do
      let s ← blend.dna.structs.get? dna_index
      let t ← blend.dna.types.get? s.type_index
      let flds ← generate_fields blend.dna blend.header s t
      some (.pointer1 flds data t.name 0)
    | .block (.subsidiary _ dna_index data) => do
      let r ← generate_subsidiary_fields blend.dna blend.header field dna_index
      some (.pointer1 r.1 data r.2.name 0)
    | .block _ => none
  | .pointer 2 => do
    let pi ← inst.get_ptr blend field
    match pi with
    | .null => none
    | .invalid => none
    | .block (.principal _ _ _ data) =>
      let ps := blend.header.pointer_size.bytes_num
      (collectPtrsGo blend data.data ps (List.range (data.data.length / ps))).map
        (fun ptrs => .pointer2 ptrs field)
    | .block (.subsidiary _ _ data) =>
      let ps := blend.header.pointer_size.bytes_num
      (collectPtrsGo blend data.data ps (List.range (data.data.length / ps))).map
        (fun ptrs => .pointer2 ptrs field)
    | .block _ => none
  | .pointerArray 1 len _ => do
    let data ← inst.getData field.data_start field.data_len
    let ps := blend.header.pointer_size.bytes_num
    if len = data.length / ps then
      (collectPtrsGo blend data ps (List.range (data.length / ps))).map
        (fun ptrs => .pointer2 ptrs field)
    else none
  | _ => none

/-- Drain the iterator: the sequence of instances yielded by repeated `next`
calls, bounded by fuel. -/
def iterCollect (blend : RawBlend) : Nat → IterState → Option (List Instance)
| 0, _ => none
| fuel + 1, st =>
  match iterNext blend fuel st with
  | none => none
  | some none => some []
  | some (some (i, st')) => (iterCollect blend fuel st').map (fun l => i :: l)

/-- `get_iter` followed by collecting every yielded instance. -/
def get_iter_list (blend : RawBlend) (fuel : Nat) (inst : Instance) (name : String) :
    Option (List Instance) := do
  let st ← get_iter_init blend inst name
  iterCollect blend fuel st

/-- The per-block body of `Blend::get_all_root_blocks`. -/
def rootGo (blend : RawBlend) : List Block → Option (List Instance)
| [] => some []
| b :: rest =>
  match b with
  | .principal c a dna_index d => do
    let s ← blend.dna.structs.get? dna_index
    let t ← blend.dna.types.get? s.type_index
    let flds ← generate_fields blend.dna blend.header s t
    let tl ← rootGo blend rest
    some ({ type_name := t.name, data := .block (.principal c a dna_index d),
            fields := flds } :: tl)
  | _ => rootGo blend rest

/-- `Blend::get_all_root_blocks`: one instance per `Principal` block. -/
def get_all_root_blocks (blend : RawBlend) : Option (List Instance) :=
  rootGo blend blend.blocks

/-! ## File framer and SDNA decoder (from `parsers/blend.rs`, `parsers/dna.rs`) -/

/-- Parse errors surfaced from construction (`BlendParseError`); the nom-level
`NomError`s are collapsed into `nomError`. -/
inductive PErr
| nomError
| compressedFileNotSupported
| unknownBlockCode
| unsupportedCountOnPrincipalBlock
| invalidMemoryAddress
| noDnaBlockFound
deriving DecidableEq

/-- ASCII bytes of a string. -/
def strBytes (s : String) : List Nat := s.toList.map Char.toNat

/-- Whether `pat` is an initial run of `input` (nom's `tag`). -/
def startsWithB : List Nat → List Nat → Bool
| [], _ => true
| _ :: _, [] => false
| p :: ps, x :: xs => if p = x then startsWithB ps xs else false

def orNom {α : Type} : Option α → Except PErr α
| some a => .ok a
| none => .error .nomError

/-- The `header` parser: magic, pointer size, endianness, version. -/
def parseHeader (input : List Nat) : Except PErr (Header × List Nat) :=
  if startsWithB (strBytes "BLENDER") input then
    match input.drop 7 with
    | p :: i2 =>
      match (if p = 95 then some PointerSize.bits32
             else if p = 45 then some PointerSize.bits64 else none) with
      | none => .error .nomError
      | some ps =>
        match i2 with
        | e :: i3 =>
          match (if e = 118 then some Endianness.little
                 else if e = 86 then some Endianness.big else none) with
          | none => .error .nomError
          | some en =>
            match readN 3 i3 with
            | some (v, i4) => .ok ({ pointer_size := ps, endianness := en, version := v }, i4)
            | none => .error .nomError
        | [] => .error .nomError
    | [] => .error .nomError
  else .error .compressedFileNotSupported

/-- A NUL-terminated string (`terminated(take_while(!= 0), tag("\0"))`). -/
def parseCString (input : List Nat) : Option (List Nat × List Nat) :=
  match input.dropWhile (fun b => b ≠ 0) with
  | 0 :: rest => some (input.takeWhile (fun b => b ≠ 0), rest)
  | _ => none

def parseCStrings : Nat → List Nat → Option (List (List Nat) × List Nat)
| 0, input => some ([], input)
| n + 1, input => do
  let p ← parseCString input
  let q ← parseCStrings n p.2
  some (p.1 :: q.1, q.2)

/-- Zero-padding to the next 4-byte boundary after `n` consumed bytes. -/
def pad4 (n : Nat) : Nat := (4 - n % 4) % 4

def bytesToString (bs : List Nat) : String := String.mk (bs.map Char.ofNat)

/-- The `NAME` section: count, NUL-terminated names, padding. -/
def parseNames (e : Endianness) (input : List Nat) : Option (List (List Nat) × List Nat) :=
  if startsWithB (strBytes "NAME") input then do
    let (n, i1) ← readU32 e (input.drop 4)
    let (names, i2) ← parseCStrings n i1
    let consumed := (names.map (fun s => s.length + 1)).sum
    let (_, i3) ← readN (pad4 consumed) i2
    some (names, i3)
  else none

def parseU16s : Nat → Endianness → List Nat → Option (List Nat × List Nat)
| 0, _, input => some ([], input)
| n + 1, e, input => do
  let (v, i1) ← readU16 e input
  let (vs, i2) ← parseU16s n e i1
  some (v :: vs, i2)

/-- The `TYPE` and `TLEN` sections: type names zipped with 2-byte sizes. -/
def parseTypes (e : Endianness) (input : List Nat) : Option (List DnaType × List Nat) :=
  if startsWithB (strBytes "TYPE") input then do
    let (m, i1) ← readU32 e (input.drop 4)
    let (tnames, i2) ← parseCStrings m i1
    let consumed := (tnames.map (fun s => s.length + 1)).sum
    let (_, i3) ← readN (pad4 consumed) i2
    if startsWithB (strBytes "TLEN") i3 then do
      let (lens, i4) ← parseU16s m e (i3.drop 4)
      let (_, i5) ← readN (pad4 (m * 2)) i4
      some ((tnames.zip lens).map (fun p => ⟨bytesToString p.1, p.2⟩), i5)
    else none
  else none

def parsePairs : Nat → Endianness → List Nat → Option (List DnaField × List Nat)
| 0, _, input => some ([], input)
| n + 1, e, input => do
  let (ti, i1) ← readU16 e input
  let (ni, i2) ← readU16 e i1
  let (tl, i3) ← parsePairs n e i2
  some (⟨ti, ni⟩ :: tl, i3)

def parseStructsGo : Nat → Endianness → List Nat → Option (List DnaStruct × List Nat)
| 0, _, input => some ([], input)
| n + 1, e, input => do
  let (ti, i1) ← readU16 e input
  let (fc, i2) ← readU16 e i1
  let (flds, i3) ← parsePairs fc e i2
  let (tl, i4) ← parseStructsGo n e i3
  some (⟨ti, flds⟩ :: tl, i4)

/-- The `STRC` section. -/
def parseStructs (e : Endianness) (input : List Nat) : Option (List DnaStruct × List Nat) :=
  if startsWithB (strBytes "STRC") input then do
    let (k, i1) ← readU32 e (input.drop 4)
    parseStructsGo k e i1
  else none

/-- `DnaParseContext::dna`: the whole `DNA1` payload. -/
def parseDna (e : Endianness) (input : List Nat) : Option (Dna × List Nat) :=
  if startsWithB (strBytes "SDNA") input then do
    let (names, i1) ← parseNames e (input.drop 4)
    let (types, i2) ← parseTypes e i1
    let (structs, i3) ← parseStructs e i2
    some (⟨names.map bytesToString, types, structs⟩, i3)
  else none

/-- `BlendParseContext::block`: one block record. -/
def parseBlock (h : Header) (input : List Nat) : Except PErr (Block × List Nat) := do
  let (code, i1) ← orNom (readN 4 input)
  let (size, i2) ← orNom (readU32 h.endianness i1)
  let (addr, i3) ← orNom (readPtrSized h i2)
  if addr = 0 then .error .invalidMemoryAddress
  else do
    let (dna_index, i4) ← orNom (readU32 h.endianness i3)
    let (count, i5) ← orNom (readU32 h.endianness i4)
    let (payload, i6) ← orNom (readN size i5)
    if code = strBytes "REND" then .ok (.rend, i6)
    else if code = strBytes "TEST" then .ok (.test, i6)
    else if code = strBytes "GLOB" then .ok (.global addr dna_index ⟨payload, count⟩, i6)
    else if code = strBytes "DATA" then .ok (.subsidiary addr dna_index ⟨payload, count⟩, i6)
    else if code = strBytes "DNA1" then
      match parseDna h.endianness payload with
      | some (d, _) => .ok (.dna d, i6)
      | none => .error .nomError
    else
      match code with
      | [c1, c2, 0, 0] =>
        if count = 1 then .ok (.principal [c1, c2] addr dna_index ⟨payload, 1⟩, i6)
        else .error .unsupportedCountOnPrincipalBlock
      | _ => .error .unknownBlockCode

/-- `many_till(block, tag("ENDB"))`: the terminator is tried first. -/
def parseBlocksGo (h : Header) : Nat → List Nat → Except PErr (List Block × List Nat)
| 0, _ => .error .nomError
| fuel + 1, input =>
  if startsWithB (strBytes "ENDB") input then .ok ([], input.drop 4)
  else do
    let (b, rest) ← parseBlock h input
    let (bs, r2) ← parseBlocksGo h fuel rest
    .ok (b :: bs, r2)

/-- `BlendParseContext::blend`: header, blocks up to `ENDB`, and the final
`DNA1` block popped off the block list. -/
def parseBlend (input : List Nat) : Except PErr RawBlend := do
  let (h, i1) ← parseHeader input
  let (blocks, _) ← parseBlocksGo h (i1.length + 1) i1
  match blocks.getLast? with
  | some (.dna d) => .ok ⟨h, blocks.dropLast, d⟩
  | _ => .error .noDnaBlockFound

/-! ## Concrete example files -/

def u16le (n : Nat) : List Nat := [n % 256, n / 256 % 256]

def u32le (n : Nat) : List Nat :=
  [n % 256, n / 256 % 256, n / 65536 % 256, n / 16777216 % 256]

def u64le (n : Nat) : List Nat := u32le (n % 4294967296) ++ u32le (n / 4294967296)

def cstr (s : String) : List Nat := strBytes s ++ [0]

/-- A 64-bit little-endian block record. -/
def blockRec64 (code : List Nat) (addr idx count : Nat) (payload : List Nat) : List Nat :=
  code ++ u32le payload.length ++ u64le addr ++ u32le idx ++ u32le count ++ payload

/-- A 32-bit little-endian block record. -/
def blockRec32 (code : List Nat) (addr idx count : Nat) (payload : List Nat) : List Nat :=
  code ++ u32le payload.length ++ u32le addr ++ u32le idx ++ u32le count ++ payload

/-- SDNA payload for file A: primitive placeholders at type indices 0–11,
`ListBase` (index 12, 16 bytes), `Elem` (13, 16 bytes), `Scene` (14, 24
bytes); structs `Scene { ListBase base; Elem *stuff; }`,
`ListBase { Elem *first; Elem *last; }`, `Elem { Elem *next; Elem *prev; }`. -/
def dnaPayloadA : List Nat :=
  strBytes "SDNA"
  ++ strBytes "NAME" ++ u32le 6
  ++ cstr "base" ++ cstr "*stuff" ++ cstr "*first" ++ cstr "*last" ++ cstr "*next" ++ cstr "*prev"
  ++ [0, 0, 0]
  ++ strBytes "TYPE" ++ u32le 15
  ++ cstr "t0" ++ cstr "t1" ++ cstr "t2" ++ cstr "t3" ++ cstr "t4" ++ cstr "t5"
  ++ cstr "t6" ++ cstr "t7" ++ cstr "t8" ++ cstr "t9" ++ cstr "t10" ++ cstr "t11"
  ++ cstr "ListBase" ++ cstr "Elem" ++ cstr "Scene"
  ++ [0, 0]
  ++ strBytes "TLEN"
  ++ u16le 0 ++ u16le 0 ++ u16le 0 ++ u16le 0 ++ u16le 0 ++ u16le 0
  ++ u16le 0 ++ u16le 0 ++ u16le 0 ++ u16le 0 ++ u16le 0 ++ u16le 0
  ++ u16le 16 ++ u16le 16 ++ u16le 24
  ++ [0, 0]
  ++ strBytes "STRC" ++ u32le 3
  ++ u16le 14 ++ u16le 2 ++ u16le 12 ++ u16le 0 ++ u16le 13 ++ u16le 1
  ++ u16le 12 ++ u16le 2 ++ u16le 13 ++ u16le 2 ++ u16le 13 ++ u16le 3
  ++ u16le 13 ++ u16le 2 ++ u16le 13 ++ u16le 4 ++ u16le 13 ++ u16le 5

/-- File A (64-bit, little-endian): a `Scene` whose `base` list points at a
`next` cycle `200 → 300 → 200 → …` while `last` is block `400`, plus a
subsidiary block `500` with `count = 2` but only 3 payload bytes. -/
def fileA : List Nat :=
  strBytes "BLENDER-v280"
  ++ blockRec64 [83, 67, 0, 0] 100 0 1 (u64le 200 ++ u64le 400 ++ u64le 500)
  ++ blockRec64 (strBytes "DATA") 200 0 1 (u64le 300 ++ u64le 0)
  ++ blockRec64 (strBytes "DATA") 300 0 1 (u64le 200 ++ u64le 0)
  ++ blockRec64 (strBytes "DATA") 400 0 1 (u64le 0 ++ u64le 0)
  ++ blockRec64 (strBytes "DATA") 500 0 2 [0, 0, 0]
  ++ blockRec64 (strBytes "DNA1") 999 0 1 dnaPayloadA
  ++ strBytes "ENDB"

/-- SDNA payload for file B: primitive placeholders at indices 0–11 and
`Link` (index 12, 8 bytes) with struct `Link { Link *next; Link *prev; }`. -/
def dnaPayloadB : List Nat :=
  strBytes "SDNA"
  ++ strBytes "NAME" ++ u32le 2
  ++ cstr "*next" ++ cstr "*prev"
  ++ strBytes "TYPE" ++ u32le 13
  ++ cstr "t0" ++ cstr "t1" ++ cstr "t2" ++ cstr "t3" ++ cstr "t4" ++ cstr "t5"
  ++ cstr "t6" ++ cstr "t7" ++ cstr "t8" ++ cstr "t9" ++ cstr "t10" ++ cstr "t11"
  ++ cstr "Link"
  ++ [0]
  ++ strBytes "TLEN"
  ++ u16le 0 ++ u16le 0 ++ u16le 0 ++ u16le 0 ++ u16le 0 ++ u16le 0
  ++ u16le 0 ++ u16le 0 ++ u16le 0 ++ u16le 0 ++ u16le 0 ++ u16le 0
  ++ u16le 8
  ++ [0, 0]
  ++ strBytes "STRC" ++ u32le 1
  ++ u16le 12 ++ u16le 2 ++ u16le 12 ++ u16le 0 ++ u16le 12 ++ u16le 1

/-- File B (32-bit, little-endian): a single principal `OB` block whose
struct `Link` has two single-pointer fields. -/
def fileB : List Nat :=
  strBytes "BLENDER_v280"
  ++ blockRec32 [79, 66, 0, 0] 1000 0 1 (u32le 0 ++ u32le 0)
  ++ blockRec32 (strBytes "DNA1") 999 0 1 dnaPayloadB
  ++ strBytes "ENDB"

/-- File C (32-bit, little-endian): a principal `OB` block with `count = 2`. -/
def fileC : List Nat :=
  strBytes "BLENDER_v280"
  ++ blockRec32 [79, 66, 0, 0] 1 0 2 []
  ++ strBytes "ENDB"

def dummyBlend : RawBlend := ⟨⟨.bits32, .little, []⟩, [], ⟨[], [], []⟩⟩

def dummyInstance : Instance := ⟨"", .raw [], []⟩

/-- The parsed file A. -/
def blendA : RawBlend :=
  match parseBlend fileA with
  | .ok b => b
  | .error _ => dummyBlend

/-- The `Scene` root instance of file A. -/
def sceneA : Instance :=
  ((get_all_root_blocks blendA).bind List.head?).getD dummyInstance

/-- The `ListBase` value instance of `sceneA.base`. -/
def listBaseA : Instance := (sceneA.get blendA "base").getD dummyInstance

/-- The list element at address 200. -/
def elem200 : Instance := (listBaseA.get blendA "first").getD dummyInstance

/-- The list element at address 300. -/
def elem300 : Instance := (elem200.get blendA "next").getD dummyInstance

/-- The parsed file B. -/
def blendB : RawBlend :=
  match parseBlend fileB with
  | .ok b => b
  | .error _ => dummyBlend

/-- The `Link` root instance of file B. -/
def linkB : Instance :=
  ((get_all_root_blocks blendB).bind List.head?).getD dummyInstance

/-! ## Hand-built inputs used by individual theorems -/

/-- A DNA whose struct 0 sits at a struct-array index below 12 but has type
index 12: `structs[0] = Link {}` with `types[12] = Link (0 bytes)`. -/
def dnaC1 : Dna :=
  ⟨[], List.replicate 12 ⟨"p", 0⟩ ++ [⟨"Link", 0⟩], [⟨12, []⟩]⟩

/-- A blend holding a subsidiary block at address 50 (dna index 0) and a
global block at address 77. -/
def blendC1 : RawBlend :=
  ⟨⟨.bits64, .little, [50, 56, 48]⟩,
   [.subsidiary 50 0 ⟨[], 1⟩, .global 77 0 ⟨[], 1⟩], dnaC1⟩

/-- An instance with a primitive-typed single pointer (type index 3 < 12)
whose stored address is 50. -/
def instC1a : Instance :=
  ⟨"X", .raw (u64le 50), [("data", ⟨.pointer 1, 3, "p", 0, 8, true⟩)]⟩

/-- An instance with a struct-typed single pointer whose stored address 77
is the address of the global block. -/
def instC1b : Instance :=
  ⟨"X", .raw (u64le 77), [("gp", ⟨.pointer 1, 13, "Elem", 0, 8, false⟩)]⟩

def blendC8 : RawBlend := ⟨⟨.bits64, .little, [50, 56, 48]⟩, [], ⟨[], [], []⟩⟩

/-- A `Camera`-like instance whose `lens` field holds the little-endian bit
pattern of the float `50.0` (`0x42480000`). -/
def instC8 : Instance :=
  ⟨"Camera", .raw [0, 0, 72, 66], [("lens", ⟨.value, 7, "float", 0, 4, true⟩)]⟩

/-- An instance whose `float` field template is well-typed but whose raw
data (2 bytes) is shorter than the field's byte range. -/
def instC8short : Instance :=
  ⟨"S", .raw [1, 2], [("x", ⟨.value, 7, "float", 0, 4, true⟩)]⟩

/-- DNA for the `get_vec`/`get_iter` agreement witness: `Pair` (type 12,
2 bytes) with a single 2-byte value field `a`. -/
def dnaV : Dna :=
  ⟨["a"], ⟨"ch", 2⟩ :: List.replicate 11 ⟨"p", 0⟩ ++ [⟨"Pair", 2⟩], [⟨12, [⟨0, 0⟩]⟩]⟩

def blendV : RawBlend := ⟨⟨.bits64, .little, [0, 0, 0]⟩, [], dnaV⟩

/-- An instance with a non-primitive `Pair[2]` value array over 4 data
bytes, so the element count divides the data length. -/
def instV : Instance :=
  ⟨"V", .raw [1, 2, 3, 4], [("arr", ⟨.valueArray 2 [2], 12, "Pair", 0, 4, false⟩)]⟩

/-- An instance with a zero-length non-primitive value array: `get_vec`'s
loop body never runs (empty sequence), while `get_iter`'s `next` divides
the data length by the zero count. -/
def instV0 : Instance :=
  ⟨"V", .raw [], [("arr", ⟨.valueArray 0 [0], 12, "Pair", 0, 0, false⟩)]⟩

/-- An instance with a positive-count non-primitive value array over empty
data: `get_vec` yields `count` empty-sliced instances, while `get_iter`
stops at once because the running offset already equals the data length. -/
def instVE : Instance :=
  ⟨"V", .raw [], [("arr", ⟨.valueArray 2 [2], 12, "Pair", 0, 0, false⟩)]⟩

/-- A hand-built blend (same DNA as file A) whose `Scene.base` list
terminates: `first = 200`, `200.next = 300`, `last = 300`. -/
def blendW : RawBlend :=
  ⟨⟨.bits64, .little, [50, 56, 48]⟩,
   [.principal [83, 67] 100 0 ⟨u64le 200 ++ u64le 300 ++ u64le 0, 1⟩,
    .subsidiary 200 0 ⟨u64le 300 ++ u64le 0, 1⟩,
    .subsidiary 300 0 ⟨u64le 0 ++ u64le 0, 1⟩], blendA.dna⟩

def sceneW : Instance :=
  ((get_all_root_blocks blendW).bind List.head?).getD dummyInstance

def w200 : Instance :=
  ((sceneW.get blendW "base").bind (fun li => li.get blendW "first")).getD dummyInstance

def w300 : Instance := (w200.get blendW "next").getD dummyInstance

/-! ## Hypothesis predicates used by theorem statements -/

/-- The chain condition for a terminating `ListBase` traversal: starting at
`cur`, the instances `insts` are visited in order by `advanceNext` (for any
advance fuel of at least `advF`), every instance before the final one has an
address different from `lastAddr`, and the final one has address `lastAddr`. -/
def ChainTo (blend : RawBlend) (advF lastAddr : Nat) : Instance → List Instance → Prop
| _, [] => False
| cur, [i] => i = cur ∧ cur.data.memAddr = some lastAddr
| cur, i :: rest =>
  i = cur ∧ (∃ a, cur.data.memAddr = some a ∧ a ≠ lastAddr) ∧
  ∃ nxt, (∀ f, advF ≤ f → advanceNext blend f cur = some nxt) ∧
    ChainTo blend advF lastAddr nxt rest

/-- No pointer slot of `bytes` resolves to a `Subsidiary` block. -/
def noSubsidHit (blend : RawBlend) (bytes : List Nat) : Prop :=
  ∀ i ∈ List.range (bytes.length / blend.header.pointer_size.bytes_num),
    match readPtrVal blend.header (bytes.drop (i * blend.header.pointer_size.bytes_num)) with
    | some v =>
      v = 0 ∨
      match findBlockByAddr blend v with
      | some (.subsidiary _ _ _) => False
      | _ => True
    | none => True

/-- Side conditions under which `get_vec` and `get_iter` agree: sliced
element counts are positive and divide the positive sliced data length
(`ValueArray` and `Pointer{1}` fields), and no element of a double-pointer
target resolves to a `Subsidiary` block.  A zero count makes `get_vec`
yield an empty sequence while `get_iter` divides by zero, and a positive
count over empty data makes `get_vec` yield `count` empty instances while
`get_iter` yields none, so both zero cases are genuine disagreements. -/
def vecIterHyp (blend : RawBlend) (inst : Instance) (name : String) : Prop :=
  match lookupField inst name with
  | none => True
  | some field =>
    match field.info with
    | .valueArray len _ =>
      match inst.data.dataBytes with
      | some data => 0 < len ∧ len ∣ data.length ∧ 0 < data.length
      | none => True
    | .pointer 1 =>
      match inst.get_ptr blend field with
      | some (.block (.principal _ _ _ d)) =>
        0 < d.count ∧ d.count ∣ d.data.length ∧ 0 < d.data.length
      | some (.block (.subsidiary _ _ d)) =>
        0 < d.count ∧ d.count ∣ d.data.length ∧ 0 < d.data.length
      | _ => True
    | .pointer 2 =>
      match inst.get_ptr blend field with
      | some (.block (.principal _ _ _ d)) => noSubsidHit blend d.data
      | some (.block (.subsidiary _ _ d)) => noSubsidHit blend d.data
      | _ => True
    | _ => True

/-- Pointer-size byte of the header (`'_'` or `'-'`). -/
def psByte : PointerSize → Nat
| .bits32 => 95
| .bits64 => 45

/-- Endianness byte of the header (`'v'` or `'V'`). -/
def enByte : Endianness → Nat
| .little => 118
| .big => 86

/-- Concatenation of `[d₁][d₂]…` groups, used to build field-name inputs. -/
def renderDims (ds : List (List Char)) : List Char :=
  ds.foldr (fun d acc => '[' :: (d ++ ']' :: acc)) []

/-! # Theorems -/

/-! ## Generic helper lemmas -/

theorem startsWithB_append (pat t : List Nat) : startsWithB pat (pat ++ t) = true := by
  induction pat with
  | nil => rfl
  | cons p ps ih => simp [startsWithB, ih]

theorem readN_exact {n : Nat} {l t : List Nat} (h : l.length = n) :
    readN n (l ++ t) = some (l, t) := by
  subst h
  simp [readN, List.take_left, List.drop_left]

theorem readU16_exact {e : Endianness} {l t : List Nat} (h : l.length = 2) :
    readU16 e (l ++ t) = some (endianVal e l, t) := by
  simp [readU16, readN_exact h]

theorem readU32_exact {e : Endianness} {l t : List Nat} (h : l.length = 4) :
    readU32 e (l ++ t) = some (endianVal e l, t) := by
  simp [readU32, readN_exact h]

theorem readPtrSized_exact {h : Header} {l t : List Nat}
    (hl : l.length = h.pointer_size.bytes_num) :
    readPtrSized h (l ++ t) = some (endianVal h.endianness l, t) := by
  simp [readPtrSized, readN_exact hl]

/-! ## C7: header parsing -/

/-- C7: header parsing.  An input that does not begin with the magic
`"BLENDER"` fails with `CompressedFileNotSupported`; otherwise the
pointer-size byte (`'_'` = 32-bit, `'-'` = 64-bit), the endianness byte
(`'v'` = little, `'V'` = big) and the three version bytes are decoded in
order.  In particular file A, which begins `"BLENDER-v280"`, parses with a
64-bit little-endian header and version bytes `['2','8','0']`. -/
theorem C7_header_parsing :
    (∀ input : List Nat, startsWithB (strBytes "BLENDER") input = false →
      parseHeader input = .error .compressedFileNotSupported) ∧
    (∀ (ps : PointerSize) (en : Endianness) (v1 v2 v3 : Nat) (rest : List Nat),
      parseHeader (strBytes "BLENDER" ++ psByte ps :: enByte en :: v1 :: v2 :: v3 :: rest) =
        .ok ({ pointer_size := ps, endianness := en, version := [v1, v2, v3] }, rest)) ∧
    (parseBlend fileA = .ok blendA ∧
      blendA.header = { pointer_size := .bits64, endianness := .little, version := [50, 56, 48] }) := by
  refine ⟨?_, ?_, ?_, ?_⟩
  · intro input h
    simp [parseHeader, h]
  · intro ps en v1 v2 v3 rest
    cases ps <;> cases en <;>
      simp [parseHeader, strBytes, startsWithB, psByte, enByte, readN]
  · rfl
  · rfl

/-- Witness for C7 at concrete inputs: the byte `[0]` is not a valid magic
and is rejected, and a concrete `"BLENDER-v280"` header parses as 64-bit
little-endian. -/
theorem C7_header_parsing_witness :
    parseHeader [0] = .error .compressedFileNotSupported ∧
    parseHeader (strBytes "BLENDER" ++ psByte .bits64 :: enByte .little :: 50 :: 56 :: 48 :: []) =
      .ok ({ pointer_size := .bits64, endianness := .little, version := [50, 56, 48] }, []) := by
  exact ⟨C7_header_parsing.1 [0] (by decide),
    C7_header_parsing.2.1 .bits64 .little 50 56 48 []⟩

/-! ## C6: principal blocks must have count 1 -/

/-- C6: a block whose 4-byte code has the shape `[c1, c2, 0, 0]` is rejected
with `UnsupportedCountOnPrincipalBlock` whenever its count field is not 1,
and parses as `Principal` with code `[c1, c2]` when the count is 1.  In
particular file C, which contains a block with code `"OB\0\0"` and
`count = 2`, is rejected with that error. -/
theorem C6_principal_count (h : Header) (c1 c2 : Nat)
    (sizeB addrB idxB countB payload rest input : List Nat)
    (hin : input = [c1, c2, 0, 0] ++ sizeB ++ addrB ++ idxB ++ countB ++ payload ++ rest)
    (hs : sizeB.length = 4) (ha : addrB.length = h.pointer_size.bytes_num)
    (hi : idxB.length = 4) (hc : countB.length = 4)
    (hpl : payload.length = endianVal h.endianness sizeB)
    (haddr : endianVal h.endianness addrB ≠ 0) :
    (endianVal h.endianness countB ≠ 1 →
      parseBlock h input = .error .unsupportedCountOnPrincipalBlock) ∧
    (endianVal h.endianness countB = 1 →
      parseBlock h input = .ok (.principal [c1, c2] (endianVal h.endianness addrB)
        (endianVal h.endianness idxB) ⟨payload, 1⟩, rest)) ∧
    parseBlend fileC = .error .unsupportedCountOnPrincipalBlock := by
  subst hin
  have h4 : ([c1, c2, 0, 0] : List Nat).length = 4 := rfl
  have e1 := readN_exact (t := sizeB ++ (addrB ++ (idxB ++ (countB ++ (payload ++ rest))))) h4
  have e2 := readU32_exact (e := h.endianness)
    (t := addrB ++ (idxB ++ (countB ++ (payload ++ rest)))) hs
  have e3 := readPtrSized_exact (h := h) (t := idxB ++ (countB ++ (payload ++ rest))) ha
  have e4 := readU32_exact (e := h.endianness) (t := countB ++ (payload ++ rest)) hi
  have e5 := readU32_exact (e := h.endianness) (t := payload ++ rest) hc
  have e6 := readN_exact (n := endianVal h.endianness sizeB) (t := rest) hpl
  have hred : parseBlock h ([c1, c2, 0, 0] ++ sizeB ++ addrB ++ idxB ++ countB ++ payload ++ rest) =
      (if endianVal h.endianness countB = 1 then
        .ok (.principal [c1, c2] (endianVal h.endianness addrB)
          (endianVal h.endianness idxB) ⟨payload, 1⟩, rest)
      else .error .unsupportedCountOnPrincipalBlock) := by
    simp only [parseBlock, List.append_assoc, e1, e2, e3, e4, e5, e6, orNom, bind,
      Except.bind, haddr, ite_false, ite_true]
    simp [strBytes]
  refine ⟨?_, ?_, ?_⟩
  · intro hcount
    rw [hred, if_neg hcount]
  · intro hcount
    rw [hred, if_pos hcount]
  · rfl

/-- Witness for C6: a concrete 32-bit `"OB\0\0"` block record with count 2
is rejected, and the same record with count 1 parses as `Principal`. -/
theorem C6_principal_count_witness :
    parseBlock ⟨.bits32, .little, [50, 56, 48]⟩
      ([79, 66, 0, 0] ++ u32le 0 ++ u32le 1 ++ u32le 0 ++ u32le 2 ++ [] ++ []) =
      .error .unsupportedCountOnPrincipalBlock ∧
    parseBlock ⟨.bits32, .little, [50, 56, 48]⟩
      ([79, 66, 0, 0] ++ u32le 0 ++ u32le 1 ++ u32le 0 ++ u32le 1 ++ [] ++ []) =
      .ok (.principal [79, 66] 1 0 ⟨[], 1⟩, []) := by
  constructor
  · exact (C6_principal_count ⟨.bits32, .little, [50, 56, 48]⟩ 79 66 (u32le 0) (u32le 1)
      (u32le 0) (u32le 2) [] [] _ rfl (by decide) (by decide) (by decide) (by decide)
      (by decide) (by decide)).1 (by decide)
  · exact (C6_principal_count ⟨.bits32, .little, [50, 56, 48]⟩ 79 66 (u32le 0) (u32le 1)
      (u32le 0) (u32le 1) [] [] _ rfl (by decide) (by decide) (by decide) (by decide)
      (by decide) (by decide)).2.1 (by decide)

/-! ## C10: is_valid on an unknown field name -/

/-- C10: for a name that is not a key of the instance's field map,
`is_valid` returns `false` without panicking, while every other accessor
(`get`, the typed getters, `get_string`, `get_vec`, `get_iter`) panics via
`expect_field`. -/
theorem C10_unknown_field (blend : RawBlend) (inst : Instance) (name : String)
    (T : PrimType) (fuel : Nat) (h : lookupField inst name = none) :
    is_valid blend (fuel + 1) inst name = some false ∧
    inst.get blend name = none ∧
    get_value blend inst T name = none ∧
    get_value_vec blend inst T name = none ∧
    get_string blend inst name = none ∧
    get_vec blend fuel inst name = none ∧
    get_iter_list blend fuel inst name = none := by
  refine ⟨?_, ?_, ?_, ?_, ?_, ?_, ?_⟩ <;>
    simp [is_valid, Instance.get, get_value, get_value_vec, get_string, get_vec,
      get_iter_list, get_iter_init, h]

/-- Witness for C10 at a concrete instance and unknown name. -/
theorem C10_unknown_field_witness :
    lookupField instC8 "missing" = none ∧
    (is_valid blendC8 1 instC8 "missing" = some false ∧
     instC8.get blendC8 "missing" = none ∧
     get_value blendC8 instC8 primInt "missing" = none ∧
     get_value_vec blendC8 instC8 primInt "missing" = none ∧
     get_string blendC8 instC8 "missing" = none ∧
     get_vec blendC8 0 instC8 "missing" = none ∧
     get_iter_list blendC8 0 instC8 "missing" = none) :=
  ⟨by decide, C10_unknown_field blendC8 instC8 "missing" primInt 0 (by decide)⟩

/-! ## C8: typed primitive getters -/

/-- C8 counterexample: the claim says `get_<T>(name)` returns a value
exactly when the field is a matching primitive `Value` of the right size;
but on an instance whose raw data is shorter than the field's byte range
the conditions hold and the call still panics (slice out of bounds). -/
theorem C8_counterexample :
    lookupField instC8short "x" =
      some { info := .value, type_index := 7, type_name := "float", data_start := 0,
             data_len := 4, is_primitive := true } ∧
    primFloat.name = "float" ∧ primFloat.size = 4 ∧
    get_f32 blendC8 instC8short "x" = none := by decide

/-- C8 amended: `get_<T>(name)` returns the decoded value exactly when the
field is a primitive `Value` whose `type_name` equals `T`'s SDNA name, whose
`data_len` equals `T`'s size, and whose byte range lies inside the
instance's data; in every other case it panics.  In particular `get_f32` on
a `float = 50.0` field returns the stored bit pattern `0x42480000` while
`get_i32` on the same field panics. -/
theorem C8_typed_getter_amended :
    (∀ (blend : RawBlend) (inst : Instance) (T : PrimType) (name : String) (v : Nat),
      get_value blend inst T name = some v ↔
      ∃ field bytes, lookupField inst name = some field ∧ field.info = .value ∧
        field.is_primitive = true ∧ field.type_name = T.name ∧ field.data_len = T.size ∧
        inst.getData field.data_start field.data_len = some bytes ∧
        v = endianVal blend.header.endianness bytes) ∧
    get_f32 blendC8 instC8 "lens" = some 1112014848 ∧
    get_i32 blendC8 instC8 "lens" = none := by
  refine ⟨?_, by decide, by decide⟩
  intro blend inst T name v
  constructor
  · intro hv
    unfold get_value at hv
    cases hl : lookupField inst name with
    | none => simp [hl] at hv
    | some field =>
      simp only [hl, Option.bind_eq_bind, Option.some_bind] at hv
      cases hinfo : field.info with
      | value =>
        rw [hinfo] at hv
        by_cases h1 : field.is_primitive ∧ field.type_name = T.name
        · rw [if_pos h1] at hv
          by_cases h2 : field.data_len = T.size
          · rw [if_pos h2] at hv
            cases hb : inst.getData field.data_start field.data_len with
            | none => simp [hb] at hv
            | some bytes =>
              simp only [hb, Option.bind_eq_bind, Option.some_bind, Option.some.injEq] at hv
              exact ⟨field, bytes, rfl, hinfo, by simpa using h1.1, h1.2, h2, hb, hv.symm⟩
          · rw [if_neg h2] at hv; simp at hv
        · rw [if_neg h1] at hv; simp at hv
      | valueArray len dims => rw [hinfo] at hv; simp at hv
      | pointer k => rw [hinfo] at hv; simp at hv
      | pointerArray k len dims => rw [hinfo] at hv; simp at hv
      | fnPointer => rw [hinfo] at hv; simp at hv
  · rintro ⟨field, bytes, hl, hinfo, hprim, htn, hdl, hb, hv⟩
    unfold get_value
    rw [hl]
    simp only [Option.bind_eq_bind, Option.some_bind]
    rw [hinfo]
    rw [if_pos ⟨by simp [hprim], htn⟩, if_pos hdl, hb]
    simp [hv]

/-! ## C4: is_valid on a 32-bit file -/

/-- C4: the claim says `is_valid` never panics, including on files with
32-bit pointers; but on a parsed 32-bit file the single-pointer arm asserts
`field.data_len == size_of::<u64>()` (8) while the field only has 4 bytes,
so `is_valid` panics on every single-pointer field.  This evaluates the code
at the failing input: the `Link` root of file B. -/
theorem C4_is_valid_32bit_panic :
    parseBlend fileB = .ok blendB ∧
    blendB.header.pointer_size = .bits32 ∧
    get_all_root_blocks blendB = some [linkB] ∧
    lookupField linkB "next" =
      some { info := .pointer 1, type_index := 12, type_name := "Link", data_start := 0,
             data_len := 4, is_primitive := false } ∧
    (∀ fuel, is_valid blendB fuel linkB "next" = none) := by
  refine ⟨rfl, rfl, rfl, rfl, ?_⟩
  intro fuel
  cases fuel with
  | zero => rfl
  | succ f => rfl

/-! ## C1: type resolution for pointer targets -/

/-- C1 counterexample: (a) a single pointer with primitive field type index
`t = 3 < 12` into a subsidiary block with `d = 0 < 12` — the claim says no
struct type is chosen, yet the code picks `structs[0]` because
`structs[0].type_index = 12 ≥ 12`; (b) a single pointer whose address is
that of a `Global` block — the claim says `structs[d]` is used, yet
`get_ptr` never resolves `Global` blocks and `get` panics. -/
theorem C1_counterexample :
    (lookupField instC1a "data" =
       some { info := .pointer 1, type_index := 3, type_name := "p", data_start := 0,
              data_len := 8, is_primitive := true } ∧
     findBlockByAddr blendC1 50 = some (.subsidiary 50 0 ⟨[], 1⟩) ∧
     (0 : Nat) < 12 ∧
     dnaC1.structs.get? 0 = some ⟨12, []⟩ ∧
     instC1a.get blendC1 "data" = some ⟨"Link", .block (.subsidiary 50 0 ⟨[], 1⟩), []⟩) ∧
    (blendC1.blocks.get? 1 = some (.global 77 0 ⟨[], 1⟩) ∧
     lookupField instC1b "gp" =
       some { info := .pointer 1, type_index := 13, type_name := "Elem", data_start := 0,
              data_len := 8, is_primitive := false } ∧
     instC1b.get_ptr blendC1 ⟨.pointer 1, 13, "Elem", 0, 8, false⟩ = some .invalid ∧
     instC1b.get blendC1 "gp" = none) := by decide

/-- C1 amended: following a single pointer, `get_ptr` resolves only
`Principal` and `Subsidiary` blocks (a `Global` target address is invalid);
a `Principal` target with count 1 uses `structs[d]`; a `Subsidiary` target
uses `structs[d]` when `t ≥ 12 ∧ d ≥ 12`, the struct whose `type_index`
equals `t` when `t ≥ 12 ∧ d < 12`, `structs[d]` when `t < 12` and
`structs[d].type_index ≥ 12`, and no struct (the access panics) when
`t < 12` and `structs[d].type_index < 12`. -/
theorem C1_type_resolution (blend : RawBlend) (inst : Instance) (name : String)
    (field : FieldTemplate) (hf : lookupField inst name = some field)
    (hp : field.info = .pointer 1) :
    (∀ b, inst.get_ptr blend field = some (.block b) →
      (∃ c a d dat, b = .principal c a d dat) ∨ (∃ a d dat, b = .subsidiary a d dat)) ∧
    (∀ c a d dat, inst.get_ptr blend field = some (.block (.principal c a d dat)) →
      dat.count = 1 →
      ∀ s t flds, blend.dna.structs.get? d = some s →
        blend.dna.types.get? s.type_index = some t →
        generate_fields blend.dna blend.header s t = some flds →
        inst.get blend name = some ⟨t.name, .block (.principal c a d dat), flds⟩) ∧
    (∀ a d dat, inst.get_ptr blend field = some (.block (.subsidiary a d dat)) →
      12 ≤ field.type_index → 12 ≤ d →
      ∀ s t flds, blend.dna.structs.get? d = some s →
        blend.dna.types.get? s.type_index = some t →
        generate_fields blend.dna blend.header s t = some flds →
        inst.get blend name = some ⟨t.name, .block (.subsidiary a d dat), flds⟩) ∧
    (∀ a d dat, inst.get_ptr blend field = some (.block (.subsidiary a d dat)) →
      12 ≤ field.type_index → d < 12 →
      ∀ s t flds,
        blend.dna.structs.find? (fun s => s.type_index = field.type_index) = some s →
        blend.dna.types.get? s.type_index = some t →
        generate_fields blend.dna blend.header s t = some flds →
        inst.get blend name = some ⟨t.name, .block (.subsidiary a d dat), flds⟩) ∧
    (∀ a d dat, inst.get_ptr blend field = some (.block (.subsidiary a d dat)) →
      field.type_index < 12 →
      ∀ s, blend.dna.structs.get? d = some s → 12 ≤ s.type_index →
      ∀ t flds, blend.dna.types.get? s.type_index = some t →
        generate_fields blend.dna blend.header s t = some flds →
        inst.get blend name = some ⟨t.name, .block (.subsidiary a d dat), flds⟩) ∧
    (∀ a d dat, inst.get_ptr blend field = some (.block (.subsidiary a d dat)) →
      field.type_index < 12 →
      ∀ s, blend.dna.structs.get? d = some s → s.type_index < 12 →
      inst.get blend name = none) := by
  refine ⟨?_, ?_, ?_, ?_, ?_, ?_⟩
  · intro b hb
    unfold Instance.get_ptr at hb
    rw [hp] at hb
    cases hby : inst.getData field.data_start field.data_len with
    | none => simp [hby] at hb
    | some bytes =>
      simp only [hby, Option.bind_eq_bind, Option.some_bind] at hb
      cases hv : readPtrVal blend.header bytes with
      | none => simp [hv] at hb
      | some v =>
        simp only [hv, Option.bind_eq_bind, Option.some_bind] at hb
        by_cases hz : v = 0
        · rw [if_pos hz] at hb; simp at hb
        · rw [if_neg hz] at hb
          cases hfind : findBlockByAddr blend v with
          | none => rw [hfind] at hb; simp at hb
          | some b' =>
            rw [hfind] at hb
            simp only [Option.some.injEq, PtrInfo.block.injEq] at hb
            subst hb
            unfold findBlockByAddr at hfind
            have hm := List.find?_some hfind
            cases b' with
            | principal c a d dat => exact Or.inl ⟨c, a, d, dat, rfl⟩
            | subsidiary a d dat => exact Or.inr ⟨a, d, dat, rfl⟩
            | rend => simp [blockMatchesAddr] at hm
            | test => simp [blockMatchesAddr] at hm
            | global x y z => simp [blockMatchesAddr] at hm
            | dna x => simp [blockMatchesAddr] at hm
  · intro c a d dat hgp hcount s t flds hsg htg hgen
    unfold Instance.get
    rw [hf]
    simp only [Option.bind_eq_bind, Option.some_bind]
    rw [hp]
    simp only [hgp, Option.bind_eq_bind, Option.some_bind, hcount, if_pos]
    simp only [List.get?_eq_getElem?] at hsg htg
    simp [hsg, htg, hgen]
  · intro a d dat hgp ht hd s t flds hsg htg hgen
    unfold Instance.get
    rw [hf]
    simp only [Option.bind_eq_bind, Option.some_bind]
    rw [hp]
    simp only [hgp, Option.bind_eq_bind, Option.some_bind]
    unfold generate_subsidiary_fields
    rw [if_pos ht, if_pos hd]
    simp only [List.get?_eq_getElem?] at hsg htg
    simp [hsg, htg, hgen]
  · intro a d dat hgp ht hd s t flds hsf htg hgen
    unfold Instance.get
    rw [hf]
    simp only [Option.bind_eq_bind, Option.some_bind]
    rw [hp]
    simp only [hgp, Option.bind_eq_bind, Option.some_bind]
    unfold generate_subsidiary_fields
    rw [if_pos ht, if_neg (by omega : ¬ 12 ≤ d)]
    rw [hsf]
    simp only [List.get?_eq_getElem?] at htg
    simp [htg, hgen]
  · intro a d dat hgp ht s hsg hst t flds htg hgen
    unfold Instance.get
    rw [hf]
    simp only [Option.bind_eq_bind, Option.some_bind]
    rw [hp]
    simp only [hgp, Option.bind_eq_bind, Option.some_bind]
    unfold generate_subsidiary_fields
    rw [if_neg (by omega : ¬ 12 ≤ field.type_index)]
    simp only [List.get?_eq_getElem?] at hsg htg
    simp [hsg, if_pos hst, htg, hgen]
  · intro a d dat hgp ht s hsg hst
    unfold Instance.get
    rw [hf]
    simp only [Option.bind_eq_bind, Option.some_bind]
    rw [hp]
    simp only [hgp, Option.bind_eq_bind, Option.some_bind]
    unfold generate_subsidiary_fields
    rw [if_neg (by omega : ¬ 12 ≤ field.type_index)]
    simp only [List.get?_eq_getElem?] at hsg
    simp [hsg, if_neg (by omega : ¬ 12 ≤ s.type_index)]

/-- Witness for C1: the amended resolution applied to the concrete
subsidiary target of `instC1a` (the `t < 12`, `structs[d].type_index ≥ 12`
row). -/
theorem C1_type_resolution_witness :
    instC1a.get blendC1 "data" = some ⟨"Link", .block (.subsidiary 50 0 ⟨[], 1⟩), []⟩ := by
  have h := C1_type_resolution blendC1 instC1a "data"
    { info := .pointer 1, type_index := 3, type_name := "p", data_start := 0,
      data_len := 8, is_primitive := true } (by decide) (by decide)
  exact h.2.2.2.2.1 50 0 ⟨[], 1⟩ (by decide) (by decide) ⟨12, []⟩ (by decide) (by decide)
    ⟨"Link", 0⟩ [] (by decide) (by decide)

/-! ## C2: field-template generation -/

/-- The accumulator invariant of the `generate_fields` loop: templates come
out in declaration order, each `data_start` is the running sum of the
preceding `data_len`s, and the terminal offset is the start plus the total
length. -/

theorem genFieldsGo_spec (dna : Dna) (h : Header) :
    ∀ (fields : List DnaField) (start : Nat) (tmpl : List (String × FieldTemplate)) (total : Nat),
      genFieldsGo dna h fields start = some (tmpl, total) →
      tmpl.length = fields.length ∧
      total = start + (tmpl.map (fun p => p.2.data_len)).sum ∧
      ∀ i, i < fields.length →
        ∃ fi ftype fname pr,
          fields.get? i = some fi ∧
          dna.types.get? fi.type_index = some ftype ∧
          dna.names.get? fi.name_index = some fname ∧
          (parse_field fname.toList).toOption = some pr ∧
          tmpl.get? i = some (String.mk pr.1.1,
            { info := pr.1.2, type_index := fi.type_index, type_name := ftype.name,
              data_start := start + ((tmpl.take i).map (fun p => p.2.data_len)).sum,
              data_len := fieldBytesLen h ftype.bytes_len pr.1.2,
              is_primitive := decide (fi.type_index < 12) }) := by
  intro fields
  induction fields with
  | nil =>
    intro start tmpl total hg
    simp only [genFieldsGo, Option.some.injEq, Prod.mk.injEq] at hg
    obtain ⟨h1, h2⟩ := hg
    subst h1; subst h2
    refine ⟨rfl, by simp, ?_⟩
    intro i hi
    simp at hi
  | cons f rest ih =>
    intro start tmpl total hg
    simp only [genFieldsGo] at hg
    cases h1 : dna.types.get? f.type_index with
    | none => rw [h1] at hg; simp at hg
    | some ftype =>
      rw [h1] at hg
      simp only [Option.bind_eq_bind, Option.some_bind] at hg
      cases h2 : dna.names.get? f.name_index with
      | none => rw [h2] at hg; simp at hg
      | some fname =>
        rw [h2] at hg
        simp only [Option.bind_eq_bind, Option.some_bind] at hg
        cases h3 : (parse_field fname.toList).toOption with
        | none => rw [h3] at hg; simp at hg
        | some pr =>
          rw [h3] at hg
          simp only [Option.bind_eq_bind, Option.some_bind] at hg
          cases h4 : genFieldsGo dna h rest (start + fieldBytesLen h ftype.bytes_len pr.1.2) with
          | none => rw [h4] at hg; simp at hg
          | some tl =>
            rw [h4] at hg
            simp only [Option.some_bind, Option.some.injEq, Prod.mk.injEq] at hg
            obtain ⟨htm, hto⟩ := hg
            obtain ⟨hlen, hsum, hidx⟩ := ih (start + fieldBytesLen h ftype.bytes_len pr.1.2)
              tl.1 tl.2 (by rw [h4])
            subst htm
            constructor
            · simp [hlen]
            constructor
            · subst hto
              simp only [List.map_cons, List.sum_cons]
              omega
            · intro i hi
              cases i with
              | zero =>
                refine ⟨f, ftype, fname, pr, rfl, h1, h2, h3, ?_⟩
                simp
              | succ j =>
                have hj : j < rest.length := by
                  simpa [Nat.succ_lt_succ_iff] using hi
                obtain ⟨fi, ftype', fname', pr', ha, hb, hc, hd, he⟩ := hidx j hj
                refine ⟨fi, ftype', fname', pr', ha, hb, hc, hd, ?_⟩
                simp only [List.get?_cons_succ, List.take_succ_cons, List.map_cons,
                  List.sum_cons] at he ⊢
                rw [← Nat.add_assoc]
                exact he


/-- C2: for every DNA struct on which field-template generation returns,
the templates are produced in field declaration order, `data_start`
accumulates from 0 with no inter-field padding, each field's `data_len` is
the pointer size for `Pointer`/`FnPointer`, pointer size times `len` for
`PointerArray`, the type's `bytes_len` times `len` for `ValueArray`, and
the type's `bytes_len` for `Value`; and the sum of all `data_len` equals
the struct type's `bytes_len` (generation fails otherwise). -/
theorem C2_field_templates (dna : Dna) (h : Header) (s : DnaStruct) (t : DnaType)
    (tmpl : List (String × FieldTemplate))
    (hgen : generate_fields dna h s t = some tmpl) :
    tmpl.length = s.fields.length ∧
    (∀ i, i < s.fields.length →
      ∃ fi ftype fname pr,
        s.fields.get? i = some fi ∧
        dna.types.get? fi.type_index = some ftype ∧
        dna.names.get? fi.name_index = some fname ∧
        (parse_field fname.toList).toOption = some pr ∧
        tmpl.get? i = some (String.mk pr.1.1,
          { info := pr.1.2
            type_index := fi.type_index
            type_name := ftype.name
            data_start := ((tmpl.take i).map (fun p => p.2.data_len)).sum
            data_len :=
              match pr.1.2 with
              | .pointer _ => h.pointer_size.bytes_num
              | .fnPointer => h.pointer_size.bytes_num
              | .pointerArray _ len _ => h.pointer_size.bytes_num * len
              | .valueArray len _ => ftype.bytes_len * len
              | .value => ftype.bytes_len
            is_primitive := decide (fi.type_index < 12) })) ∧
    (tmpl.map (fun p => p.2.data_len)).sum = t.bytes_len := by
  unfold generate_fields at hgen
  cases hg : genFieldsGo dna h s.fields 0 with
  | none => rw [hg] at hgen; simp at hgen
  | some r =>
    rw [hg] at hgen
    simp only [Option.bind_eq_bind, Option.some_bind] at hgen
    by_cases hb : t.bytes_len = r.2
    · rw [if_pos hb] at hgen
      simp only [Option.some.injEq] at hgen
      subst hgen
      obtain ⟨hlen, hsum, hidx⟩ := genFieldsGo_spec dna h s.fields 0 r.1 r.2 (by rw [hg])
      refine ⟨hlen, ?_, by omega⟩
      intro i hi
      obtain ⟨fi, ftype, fname, pr, ha, hbb, hc, hd, he⟩ := hidx i hi
      refine ⟨fi, ftype, fname, pr, ha, hbb, hc, hd, ?_⟩
      have hfb : (match pr.1.2 with
          | .pointer _ => h.pointer_size.bytes_num
          | .fnPointer => h.pointer_size.bytes_num
          | .pointerArray _ len _ => h.pointer_size.bytes_num * len
          | .valueArray len _ => ftype.bytes_len * len
          | .value => ftype.bytes_len) = fieldBytesLen h ftype.bytes_len pr.1.2 := by
        cases pr.1.2 <;> rfl
      rw [hfb]
      simpa using he
    · rw [if_neg hb] at hgen; simp at hgen

/-- Witness for C2 at the concrete `Pair` struct of `dnaV`. -/
theorem C2_field_templates_witness :
    generate_fields dnaV blendV.header ⟨12, [⟨0, 0⟩]⟩ ⟨"Pair", 2⟩ =
      some [("a", ⟨.value, 0, "ch", 0, 2, true⟩)] ∧
    (([("a", (⟨.value, 0, "ch", 0, 2, true⟩ : FieldTemplate))]).map
      (fun p => p.2.data_len)).sum = (⟨"Pair", 2⟩ : DnaType).bytes_len :=
  ⟨by decide, (C2_field_templates dnaV blendV.header ⟨12, [⟨0, 0⟩]⟩ ⟨"Pair", 2⟩
    [("a", ⟨.value, 0, "ch", 0, 2, true⟩)] (by decide)).2.2⟩

/-! ## C9: the SDNA field-name parser -/

theorem stripStars_cons_ne {c : Char} {t : List Char} (h : c ≠ '*') :
    stripStars (c :: t) = (0, c :: t) := by
  rw [stripStars.eq_def]
  split
  · rename_i t' heq
    cases heq
    exact absurd rfl h
  · rfl

theorem stripStars_no_star {s : List Char} (h : s.head? ≠ some '*') :
    stripStars s = (0, s) := by
  cases s with
  | nil => rfl
  | cons c t =>
    apply stripStars_cons_ne
    intro hc
    exact h (by simp [hc])

theorem stripStars_replicate (k : Nat) (name : List Char) (h : name.head? ≠ some '*') :
    stripStars (List.replicate k '*' ++ name) = (k, name) := by
  induction k with
  | zero => simpa using stripStars_no_star h
  | succ n ih =>
    rw [List.replicate_succ, List.cons_append]
    rw [stripStars.eq_def]
    simp only []
    rw [ih]

theorem takeWhile_no_bracket {name : List Char} (h : ('[' : Char) ∉ name) :
    name.takeWhile (fun c => c ≠ '[') = name ∧
    name.dropWhile (fun c => c ≠ '[') = [] := by
  induction name with
  | nil => exact ⟨rfl, rfl⟩
  | cons c t ih =>
    have hc : c ≠ '[' := fun hc => h (by simp [hc])
    have ht : ('[' : Char) ∉ t := fun ht => h (List.mem_cons_of_mem _ ht)
    obtain ⟨h1, h2⟩ := ih ht
    have hdc : (fun c => decide (c ≠ '[')) c = true := by simp [hc]
    constructor
    · rw [List.takeWhile_cons_of_pos (p := fun c => decide (c ≠ '[')) (a := c) hdc]
      exact congrArg (c :: ·) h1
    · rw [List.dropWhile_cons_of_pos (p := fun c => decide (c ≠ '[')) (a := c) hdc]
      exact h2

theorem takeWhile_bracket {name rest : List Char} (h : ('[' : Char) ∉ name) :
    (name ++ '[' :: rest).takeWhile (fun c => c ≠ '[') = name ∧
    (name ++ '[' :: rest).dropWhile (fun c => c ≠ '[') = '[' :: rest := by
  induction name with
  | nil =>
    have hb : ¬ ((fun c => decide (c ≠ '[')) '[' = true) := by simp
    constructor
    · rw [List.nil_append, List.takeWhile_cons_of_neg (p := fun c => decide (c ≠ '[')) (a := '[') hb]
    · rw [List.nil_append, List.dropWhile_cons_of_neg (p := fun c => decide (c ≠ '[')) (a := '[') hb]
  | cons c t ih =>
    have hc : c ≠ '[' := fun hc => h (by simp [hc])
    have ht : ('[' : Char) ∉ t := fun ht => h (List.mem_cons_of_mem _ ht)
    obtain ⟨h1, h2⟩ := ih ht
    have hdc : (fun c => decide (c ≠ '[')) c = true := by simp [hc]
    constructor
    · rw [List.cons_append, List.takeWhile_cons_of_pos (p := fun c => decide (c ≠ '[')) (a := c) hdc]
      exact congrArg (c :: ·) h1
    · rw [List.cons_append, List.dropWhile_cons_of_pos (p := fun c => decide (c ≠ '[')) (a := c) hdc]
      exact h2

theorem splitAtChar_append {c : Char} {xs ys : List Char} (h : c ∉ xs) :
    splitAtChar c (xs ++ c :: ys) = some (xs, ys) := by
  induction xs with
  | nil => simp [splitAtChar]
  | cons x t ih =>
    have hx : x ≠ c := fun hx => h (by simp [hx])
    have ht : c ∉ t := fun ht => h (List.mem_cons_of_mem _ ht)
    simp [splitAtChar, hx, ih ht]

theorem fnPointerP_err {s : List Char} (h : s.take 2 ≠ ['(', '*']) :
    fnPointerP s = .error .err := by
  rw [fnPointerP.eq_def]
  split
  · simp at h
  · rfl

theorem pointerP_err {s : List Char} (h : s.head? ≠ some '*') :
    pointerP s = .error .err := by
  unfold pointerP
  rw [stripStars_no_star h]
  rfl

theorem dimGroups_nil_like {s : List Char} (h : parseOneDim s = none) :
    dimGroups s = ([], s) := by
  rw [dimGroups]
  split
  · rename_i d rest heq
    rw [heq] at h
    cases h
  · rfl

theorem dimGroups_render (ds : List (List Char)) (h : ∀ d ∈ ds, (']' : Char) ∉ d) :
    dimGroups (renderDims ds) = (ds, []) := by
  induction ds with
  | nil =>
    apply dimGroups_nil_like
    rfl
  | cons d rest ih =>
    have hd : (']' : Char) ∉ d := h d (by simp)
    have hrest : ∀ x ∈ rest, (']' : Char) ∉ x := fun x hx => h x (by simp [hx])
    have hone : parseOneDim (renderDims (d :: rest)) = some (d, renderDims rest) := by
      show parseOneDim ('[' :: (d ++ ']' :: renderDims rest)) = _
      simp only [parseOneDim]
      exact splitAtChar_append hd
    rw [dimGroups]
    split
    · rename_i d' rest' heq
      rw [hone] at heq
      cases heq
      rw [ih hrest]
    · rename_i hnone
      rw [hone] at hnone
      exact Option.noConfusion hnone

theorem mapM_parseUsize (ds : List (List Char)) (h : ∀ d ∈ ds, (parseUsize d).isSome) :
    ds.mapM parseUsize = some (ds.map (fun d => (parseUsize d).getD 0)) := by
  induction ds with
  | nil => rfl
  | cons d rest ih =>
    have hd := h d (by simp)
    have hrest : ∀ x ∈ rest, (parseUsize x).isSome := fun x hx =>
      h x (List.mem_cons_of_mem _ hx)
    obtain ⟨v, hv⟩ := Option.isSome_iff_exists.mp hd
    rw [List.mapM_cons, hv, ih hrest]
    simp [hv]

theorem pointerP_plain (k : Nat) (name : List Char) (hk : 1 ≤ k)
    (hstar : name.head? ≠ some '*') (hbr : ('[' : Char) ∉ name) :
    pointerP (List.replicate k '*' ++ name) = .ok ((name, .pointer k), []) := by
  unfold pointerP
  rw [stripStars_replicate _ _ hstar]
  obtain ⟨h1, h2⟩ := takeWhile_no_bracket hbr
  have hk0 : ¬ ((k, name).1 = 0) := by simp; omega
  rw [if_neg hk0]
  simp only [h1, h2]
  rfl

theorem valueP_plain (name : List Char) (hbr : ('[' : Char) ∉ name) :
    valueP name = .ok ((name, .value), []) := by
  unfold valueP
  obtain ⟨h1, h2⟩ := takeWhile_no_bracket hbr
  simp only [h1, h2]
  rfl

theorem fnPointerP_ok (name params : List Char) (hn : (')' : Char) ∉ name)
    (hp : (')' : Char) ∉ params) :
    fnPointerP ('(' :: '*' :: (name ++ ')' :: '(' :: (params ++ [')']))) =
      .ok ((name, .fnPointer), []) := by
  have e1 : splitAtChar ')' (name ++ ')' :: '(' :: (params ++ [')'])) =
      some (name, '(' :: (params ++ [')'])) := splitAtChar_append hn
  have e2 : splitAtChar ')' (params ++ [')']) = some (params, []) := by
    have := @splitAtChar_append _ _ ([] : List Char) hp
    simpa using this
  simp only [fnPointerP, e1, e2]

theorem arrayDimensions_render (ds : List (List Char)) 
    (hnum : ∀ d ∈ ds, (parseUsize d).isSome ∧ (']' : Char) ∉ d) :
    arrayDimensions (renderDims ds) =
      .ok (ds.map (fun d => (parseUsize d).getD 0), []) := by
  unfold arrayDimensions
  rw [dimGroups_render ds (fun d hd => (hnum d hd).2)]
  simp only []
  rw [mapM_parseUsize ds (fun d hd => (hnum d hd).1)]

theorem valueP_dims (name : List Char) (ds : List (List Char)) (hds : ds ≠ [])
    (hbr : ('[' : Char) ∉ name)
    (hnum : ∀ d ∈ ds, (parseUsize d).isSome ∧ (']' : Char) ∉ d) :
    valueP (name ++ renderDims ds) =
      .ok ((name, .valueArray ((ds.map (fun d => (parseUsize d).getD 0)).prod)
        (ds.map (fun d => (parseUsize d).getD 0))), []) := by
  obtain ⟨d0, rest, rfl⟩ : ∃ d0 rest, ds = d0 :: rest := by
    cases ds with
    | nil => exact absurd rfl hds
    | cons a b => exact ⟨a, b, rfl⟩
  have hrend : name ++ renderDims (d0 :: rest) =
      name ++ '[' :: (d0 ++ ']' :: renderDims rest) := rfl
  obtain ⟨h1, h2⟩ := @takeWhile_bracket _ (d0 ++ ']' :: renderDims rest) hbr
  have hdg : arrayDimensions ('[' :: (d0 ++ ']' :: renderDims rest)) =
      .ok ((d0 :: rest).map (fun d => (parseUsize d).getD 0), []) :=
    arrayDimensions_render (d0 :: rest) hnum
  unfold valueP
  rw [hrend, h1, h2]
  rw [show (('[' :: (d0 ++ ']' :: renderDims rest)).isEmpty) = false from rfl]
  simp only [Bool.false_eq_true, if_false, hdg]

theorem pointerP_dims (k : Nat) (name : List Char) (ds : List (List Char)) (hk : 1 ≤ k)
    (hds : ds ≠ []) (hstar : (name ++ renderDims ds).head? ≠ some '*')
    (hbr : ('[' : Char) ∉ name)
    (hnum : ∀ d ∈ ds, (parseUsize d).isSome ∧ (']' : Char) ∉ d) :
    pointerP (List.replicate k '*' ++ (name ++ renderDims ds)) =
      .ok ((name, .pointerArray k ((ds.map (fun d => (parseUsize d).getD 0)).prod)
        (ds.map (fun d => (parseUsize d).getD 0))), []) := by
  obtain ⟨d0, rest, rfl⟩ : ∃ d0 rest, ds = d0 :: rest := by
    cases ds with
    | nil => exact absurd rfl hds
    | cons a b => exact ⟨a, b, rfl⟩
  have hrend : name ++ renderDims (d0 :: rest) =
      name ++ '[' :: (d0 ++ ']' :: renderDims rest) := rfl
  obtain ⟨h1, h2⟩ := @takeWhile_bracket _ (d0 ++ ']' :: renderDims rest) hbr
  have hdg : arrayDimensions ('[' :: (d0 ++ ']' :: renderDims rest)) =
      .ok ((d0 :: rest).map (fun d => (parseUsize d).getD 0), []) :=
    arrayDimensions_render (d0 :: rest) hnum
  unfold pointerP
  rw [stripStars_replicate _ _ hstar]
  have hk0 : ¬ ((k, name ++ renderDims (d0 :: rest)).1 = 0) := by simp; omega
  rw [if_neg hk0]
  simp only [hrend, h1, h2]
  rw [show (('[' :: (d0 ++ ']' :: renderDims rest)).isEmpty) = false from rfl]
  simp only [Bool.false_eq_true, if_false, hdg]

theorem head_append_render {name : List Char} (ds : List (List Char)) (hds : ds ≠ [])
    (h : name.head? ≠ some '*') : (name ++ renderDims ds).head? ≠ some '*' := by
  obtain ⟨d0, rest, rfl⟩ : ∃ d0 rest, ds = d0 :: rest := by
    cases ds with
    | nil => exact absurd rfl hds
    | cons a b => exact ⟨a, b, rfl⟩
  cases name with
  | nil =>
    intro hc
    simp only [List.nil_append] at hc
    have : ('[' : Char) = '*' := by
      have : renderDims (d0 :: rest) = '[' :: (d0 ++ ']' :: renderDims rest) := rfl
      rw [this] at hc
      simpa using hc
    exact absurd this (by decide)
  | cons c t =>
    intro hc
    simp only [List.cons_append, List.head?_cons, Option.some.injEq] at hc
    exact h (by simp [hc])

theorem take2_ne_fnptr_star {k : Nat} (hk : 1 ≤ k) (x : List Char) :
    (List.replicate k '*' ++ x).take 2 ≠ ['(', '*'] := by
  obtain ⟨k', rfl⟩ : ∃ k', k = k' + 1 := ⟨k - 1, by omega⟩
  rw [List.replicate_succ, List.cons_append]
  intro hc
  rw [List.take_succ_cons] at hc
  have : ('*' : Char) = '(' := by
    have := congrArg List.head? hc
    simpa using this
  exact absurd this (by decide)

theorem take2_append_render {name : List Char} (ds : List (List Char)) (hds : ds ≠ [])
    (h : name.take 2 ≠ ['(', '*']) :
    (name ++ renderDims ds).take 2 ≠ ['(', '*'] := by
  obtain ⟨d0, rest, rfl⟩ : ∃ d0 rest, ds = d0 :: rest := by
    cases ds with
    | nil => exact absurd rfl hds
    | cons a b => exact ⟨a, b, rfl⟩
  have hrend : renderDims (d0 :: rest) = '[' :: (d0 ++ ']' :: renderDims rest) := rfl
  match name with
  | [] =>
    rw [List.nil_append, hrend]
    intro hc
    rw [List.take_succ_cons] at hc
    have : ('[' : Char) = '(' := by
      have := congrArg List.head? hc
      simpa using this
    exact absurd this (by decide)
  | [c] =>
    rw [List.singleton_append, hrend]
    intro hc
    rw [List.take_succ_cons, List.take_succ_cons] at hc
    have : ('[' : Char) = '*' := by
      have := congrArg (fun l => l.get? 1) hc
      simpa using this
    exact absurd this (by decide)
  | c1 :: c2 :: t =>
    intro hc
    apply h
    rw [List.cons_append, List.cons_append] at hc
    rw [List.take_succ_cons, List.take_succ_cons] at hc
    simpa [List.take_succ_cons] using hc

theorem valueP_dims_bad (name d : List Char) (hbr : ('[' : Char) ∉ name)
    (hnn : parseUsize d = none) (hdr : (']' : Char) ∉ d) :
    valueP (name ++ renderDims [d]) = .error .invalidArraySize := by
  have hrend : name ++ renderDims [d] = name ++ '[' :: (d ++ ']' :: renderDims []) := rfl
  obtain ⟨h1, h2⟩ := @takeWhile_bracket _ (d ++ ']' :: renderDims []) hbr
  have hm : List.mapM parseUsize [d] = none := by
    rw [List.mapM_cons, hnn]
    rfl
  have hdim : arrayDimensions ('[' :: (d ++ ']' :: renderDims [])) =
      .error .invalidArraySize := by
    unfold arrayDimensions
    rw [show ('[' :: (d ++ ']' :: renderDims [])) = renderDims [d] from rfl]
    rw [dimGroups_render [d] (by simpa using hdr)]
    show (match List.mapM parseUsize [d] with
      | some dims => Except.ok (dims, ([] : List Char))
      | none => Except.error FErr.invalidArraySize) = Except.error FErr.invalidArraySize
    rw [hm]
  unfold valueP
  rw [hrend, h1, h2]
  rw [show (('[' :: (d ++ ']' :: renderDims [])).isEmpty) = false from rfl]
  simp only [Bool.false_eq_true, if_false, hdim]

/-- C9: `parse_field` maps an SDNA name string to `(clean_name, FieldInfo)`:
`k ≥ 1` leading asterisks followed by a bracket-free name give
`Pointer{indirection_count = k}`; a `(*name)(params)` form gives `FnPointer`
with the parameter list discarded; trailing `[N][M]…` suffixes wrap the base
kind into `ValueArray`/`PointerArray` with `dimensions = [N, M, …]` and
`len` the product of the dimensions; a plain name gives `Value`; and a
non-numeric array size fails with `InvalidArraySize`. -/
theorem C9_parse_field :
    (∀ (k : Nat) (name : List Char), 1 ≤ k → name.head? ≠ some '*' →
      ('[' : Char) ∉ name →
      parse_field (List.replicate k '*' ++ name) = .ok ((name, .pointer k), [])) ∧
    (∀ name params : List Char, (')' : Char) ∉ name → (')' : Char) ∉ params →
      parse_field ('(' :: '*' :: (name ++ ')' :: '(' :: (params ++ [')']))) =
        .ok ((name, .fnPointer), [])) ∧
    (∀ (name : List Char) (ds : List (List Char)), ds ≠ [] →
      ('[' : Char) ∉ name → name.head? ≠ some '*' → name.take 2 ≠ ['(', '*'] →
      (∀ d ∈ ds, (parseUsize d).isSome ∧ (']' : Char) ∉ d) →
      parse_field (name ++ renderDims ds) =
        .ok ((name, .valueArray ((ds.map (fun d => (parseUsize d).getD 0)).prod)
          (ds.map (fun d => (parseUsize d).getD 0))), [])) ∧
    (∀ (k : Nat) (name : List Char) (ds : List (List Char)), 1 ≤ k → ds ≠ [] →
      ('[' : Char) ∉ name → name.head? ≠ some '*' →
      (∀ d ∈ ds, (parseUsize d).isSome ∧ (']' : Char) ∉ d) →
      parse_field (List.replicate k '*' ++ (name ++ renderDims ds)) =
        .ok ((name, .pointerArray k ((ds.map (fun d => (parseUsize d).getD 0)).prod)
          (ds.map (fun d => (parseUsize d).getD 0))), [])) ∧
    (∀ name : List Char, ('[' : Char) ∉ name → name.head? ≠ some '*' →
      name.take 2 ≠ ['(', '*'] →
      parse_field name = .ok ((name, .value), [])) ∧
    (∀ name d : List Char, ('[' : Char) ∉ name → name.head? ≠ some '*' →
      name.take 2 ≠ ['(', '*'] → (']' : Char) ∉ d → parseUsize d = none →
      parse_field (name ++ '[' :: (d ++ [']'])) = .error .invalidArraySize) := by
  refine ⟨?_, ?_, ?_, ?_, ?_, ?_⟩
  · intro k name hk hstar hbr
    have hfn := fnPointerP_err (take2_ne_fnptr_star hk name)
    have hptr := pointerP_plain k name hk hstar hbr
    simp only [parse_field, altE, hfn, hptr]
  · intro name params hn hp
    have hfn := fnPointerP_ok name params hn hp
    simp only [parse_field, altE, hfn]
  · intro name ds hds hbr hstar h2 hnum
    have hfn := fnPointerP_err (take2_append_render ds hds h2)
    have hptr := pointerP_err (head_append_render ds hds hstar)
    have hval := valueP_dims name ds hds hbr hnum
    simp only [parse_field, altE, hfn, hptr, hval]
  · intro k name ds hk hds hbr hstar hnum
    have hfn := fnPointerP_err (take2_ne_fnptr_star hk (name ++ renderDims ds))
    have hptr := pointerP_dims k name ds hk hds (head_append_render ds hds hstar) hbr hnum
    simp only [parse_field, altE, hfn, hptr]
  · intro name hbr hstar h2
    have hfn := fnPointerP_err h2
    have hptr := pointerP_err hstar
    have hval := valueP_plain name hbr
    simp only [parse_field, altE, hfn, hptr, hval]
  · intro name d hbr hstar h2 hdr hnn
    have heq : name ++ '[' :: (d ++ [']']) = name ++ renderDims [d] := rfl
    rw [heq]
    have hfn := fnPointerP_err (take2_append_render [d] (by simp) h2)
    have hptr := pointerP_err (head_append_render [d] (by simp) hstar)
    have hval := valueP_dims_bad name d hbr hnn hdr
    simp only [parse_field, altE, hfn, hptr, hval]

/-- Witness for C9 on concrete SDNA name strings. -/
theorem C9_parse_field_witness :
    parse_field ("*next".toList) = .ok (("next".toList, .pointer 1), []) ∧
    parse_field ("(*func)()".toList) = .ok (("func".toList, .fnPointer), []) ∧
    parse_field ("uv[2]".toList) = .ok (("uv".toList, .valueArray 2 [2]), []) ∧
    parse_field ("*mat[4][4]".toList) = .ok (("mat".toList, .pointerArray 1 16 [4, 4]), []) ∧
    parse_field ("name".toList) = .ok (("name".toList, .value), []) ∧
    parse_field ("arr[x]".toList) = .error .invalidArraySize := by
  have h := C9_parse_field
  refine ⟨?_, ?_, ?_, ?_, ?_, ?_⟩
  · exact h.1 1 "next".toList (by decide) (by decide) (by decide)
  · exact h.2.1 "func".toList "".toList (by decide) (by decide)
  · exact h.2.2.1 "uv".toList [['2']] (by decide) (by decide) (by decide) (by decide)
      (by decide)
  · exact h.2.2.2.1 1 "mat".toList [['4'], ['4']] (by decide) (by decide) (by decide)
      (by decide) (by decide)
  · exact h.2.2.2.2.1 "name".toList (by decide) (by decide) (by decide)
  · exact h.2.2.2.2.2 "arr".toList ['x'] (by decide) (by decide) (by decide) (by decide)
      (by decide)


theorem is_valid_succ (blend : RawBlend) :
    ∀ (f : Nat) (inst : Instance) (name : String) (b : Bool),
      is_valid blend f inst name = some b → is_valid blend (f + 1) inst name = some b := by
  intro f
  induction f with
  | zero => intro inst name b h; simp [is_valid] at h
  | succ g ih =>
    intro inst name b h
    rw [is_valid] at h
    rw [is_valid]
    cases hl : lookupField inst name with
    | none => rw [hl] at h; exact h
    | some field =>
      rw [hl] at h
      simp only [] at h ⊢
      cases hinfo : field.info with
      | value =>
        rw [hinfo] at h
        simp only [] at h ⊢
        by_cases hlb : field.type_name = "ListBase"
        · rw [if_pos hlb] at h
          rw [if_pos hlb]
          simp only [Option.bind_eq_bind] at h ⊢
          cases hin : inst.get blend name with
          | none => rw [hin] at h; simp at h
          | some inst2 =>
            rw [hin] at h
            simp only [Option.some_bind] at h ⊢
            cases hb1 : is_valid blend g inst2 "first" with
            | none => rw [hb1] at h; simp at h
            | some b1 =>
              rw [hb1] at h
              rw [ih inst2 "first" b1 hb1]
              simp only [Option.some_bind] at h ⊢
              cases b1 with
              | false => exact h
              | true =>
                simp only [if_true] at h ⊢
                exact ih inst2 "last" b h
        · rw [if_neg hlb] at h
          rw [if_neg hlb]
          exact h
      | valueArray len dims => rw [hinfo] at h; exact h
      | fnPointer => rw [hinfo] at h; exact h
      | pointerArray k len dims => rw [hinfo] at h; exact h
      | pointer k =>
        rw [hinfo] at h
        cases k with
        | zero => exact h
        | succ k1 =>
          cases k1 with
          | zero => exact h
          | succ k2 =>
            cases k2 with
            | zero => exact h
            | succ k3 => exact h

theorem is_valid_mono (blend : RawBlend) {f f' : Nat} (hle : f ≤ f')
    {inst : Instance} {name : String} {b : Bool}
    (h : is_valid blend f inst name = some b) : is_valid blend f' inst name = some b := by
  induction f' with
  | zero =>
    have : f = 0 := by omega
    subst this
    exact h
  | succ g ih =>
    by_cases hf : f = g + 1
    · subst hf; exact h
    · exact is_valid_succ blend g inst name b (ih (by omega))

theorem advanceNext_succ (blend : RawBlend) :
    ∀ (f : Nat) (cur r : Instance),
      advanceNext blend f cur = some r → advanceNext blend (f + 1) cur = some r := by
  intro f
  induction f with
  | zero => intro cur r h; simp [advanceNext] at h
  | succ g ih =>
    intro cur r h
    rw [advanceNext] at h
    rw [advanceNext]
    simp only [Option.bind_eq_bind] at h ⊢
    cases hv : is_valid blend (g + 1) cur "next" with
    | none => rw [hv] at h; simp at h
    | some v =>
      rw [hv] at h
      rw [is_valid_succ blend (g + 1) cur "next" v hv]
      simp only [Option.some_bind] at h ⊢
      cases v with
      | true => simp only [if_true] at h ⊢; exact h
      | false =>
        simp only [Bool.false_eq_true, if_false] at h ⊢
        cases hk : cur.fields.head? with
        | none => rw [hk] at h; simp at h
        | some k =>
          rw [hk] at h
          simp only [Option.some_bind] at h ⊢
          cases hc2 : cur.get blend k.1 with
          | none => rw [hc2] at h; simp at h
          | some cur2 =>
            rw [hc2] at h
            simp only [Option.some_bind] at h ⊢
            exact ih cur2 r h

theorem advanceNext_mono (blend : RawBlend) {f f' : Nat} (hle : f ≤ f')
    {cur r : Instance} (h : advanceNext blend f cur = some r) :
    advanceNext blend f' cur = some r := by
  induction f' with
  | zero =>
    have : f = 0 := by omega
    subst this
    exact h
  | succ g ih =>
    by_cases hf : f = g + 1
    · subst hf; exact h
    · exact advanceNext_succ blend g cur r (ih (by omega))

theorem iterNext_succ (blend : RawBlend) (f : Nat) (st : IterState)
    (r : Option (Instance × IterState))
    (h : iterNext blend f st = some r) : iterNext blend (f + 1) st = some r := by
  cases st with
  | listBase last cur ended =>
    rw [iterNext] at h
    rw [iterNext]
    cases ended with
    | true => exact h
    | false =>
      simp only [Bool.false_eq_true, if_false, Option.bind_eq_bind] at h ⊢
      cases ha : cur.data.memAddr with
      | none => rw [ha] at h; simp at h
      | some a =>
        rw [ha] at h
        simp only [Option.some_bind] at h ⊢
        by_cases heq : a = last
        · rw [if_pos heq] at h; rw [if_pos heq]; exact h
        · rw [if_neg heq] at h
          rw [if_neg heq]
          cases hadv : advanceNext blend f cur with
          | none => rw [hadv] at h; simp at h
          | some nxt =>
            rw [hadv] at h
            rw [advanceNext_succ blend f cur nxt hadv]
            exact h
  | valueArray flds data len tn i => rw [iterNext] at h; rw [iterNext]; exact h
  | pointer1 flds bd tn i => rw [iterNext] at h; rw [iterNext]; exact h
  | pointer2 ptrs field => rw [iterNext] at h; rw [iterNext]; exact h

theorem iterCollect_succ (blend : RawBlend) :
    ∀ (f : Nat) (st : IterState) (l : List Instance),
      iterCollect blend f st = some l → iterCollect blend (f + 1) st = some l := by
  intro f
  induction f with
  | zero => intro st l h; simp [iterCollect] at h
  | succ g ih =>
    intro st l h
    rw [iterCollect] at h
    rw [iterCollect]
    cases hn : iterNext blend g st with
    | none => rw [hn] at h; exact Option.noConfusion h
    | some r =>
      rw [hn] at h
      rw [iterNext_succ blend g st r hn]
      cases r with
      | none => exact h
      | some p =>
        obtain ⟨i, st2⟩ := p
        simp only [] at h ⊢
        cases hc : iterCollect blend g st2 with
        | none => rw [hc] at h; simp at h
        | some l' =>
          rw [hc] at h
          rw [ih st2 l' hc]
          exact h

theorem iterCollect_mono (blend : RawBlend) {f f' : Nat} (hle : f ≤ f')
    {st : IterState} {l : List Instance} (h : iterCollect blend f st = some l) :
    iterCollect blend f' st = some l := by
  induction f' with
  | zero =>
    have : f = 0 := by omega
    subst this
    exact h
  | succ g ih =>
    by_cases hf : f = g + 1
    · subst hf; exact h
    · exact iterCollect_succ blend g st l (ih (by omega))

theorem ChainTo_vecLoop (blend : RawBlend) (advF lastAddr : Nat) :
    ∀ (insts : List Instance) (cur : Instance),
      ChainTo blend advF lastAddr cur insts →
      ∀ f, advF + insts.length ≤ f → vecLoop blend f lastAddr cur = some insts := by
  intro insts
  induction insts with
  | nil => intro cur h; exact absurd h (by simp [ChainTo])
  | cons i rest ih =>
    intro cur h f hle
    obtain ⟨g, rfl⟩ : ∃ g, f = g + 1 := ⟨f - 1, by simp at hle; omega⟩
    cases rest with
    | nil =>
      obtain ⟨hi, ha⟩ := h
      subst hi
      rw [vecLoop]
      rw [ha]
      simp
    | cons j rest2 =>
      obtain ⟨hi, ⟨a, ha, hne⟩, nxt, hadv, hch⟩ := h
      subst hi
      rw [vecLoop]
      rw [ha]
      simp only [Option.bind_eq_bind, Option.some_bind]
      rw [if_neg hne]
      have hg : advF + (j :: rest2).length ≤ g := by
        simp only [List.length_cons] at hle ⊢; omega
      rw [hadv g (by omega)]
      simp only [Option.some_bind]
      rw [ih nxt hch g hg]
      rfl

theorem ChainTo_iterCollect (blend : RawBlend) (advF lastAddr : Nat) :
    ∀ (insts : List Instance) (cur : Instance),
      ChainTo blend advF lastAddr cur insts →
      ∀ f, advF + insts.length + 1 ≤ f →
        iterCollect blend f (.listBase lastAddr cur false) = some insts := by
  intro insts
  induction insts with
  | nil => intro cur h; exact absurd h (by simp [ChainTo])
  | cons i rest ih =>
    intro cur h f hle
    obtain ⟨g, rfl⟩ : ∃ g, f = g + 1 := ⟨f - 1, by omega⟩
    cases rest with
    | nil =>
      obtain ⟨hi, ha⟩ := h
      subst hi
      rw [iterCollect]
      rw [iterNext]
      rw [ha]
      simp only [Bool.false_eq_true, if_false, Option.bind_eq_bind, Option.some_bind,
        if_true, ite_true]
      obtain ⟨g2, rfl⟩ : ∃ g2, g = g2 + 1 := ⟨g - 1, by simp at hle; omega⟩
      simp [iterCollect, iterNext]
    | cons j rest2 =>
      obtain ⟨hi, ⟨a, ha, hne⟩, nxt, hadv, hch⟩ := h
      subst hi
      rw [iterCollect]
      rw [iterNext]
      rw [ha]
      simp only [Bool.false_eq_true, if_false, Option.bind_eq_bind, Option.some_bind]
      rw [if_neg hne]
      have hg : advF + (j :: rest2).length + 1 ≤ g := by
        simp only [List.length_cons] at hle ⊢; omega
      rw [hadv g (by omega)]
      simp only [Option.some_bind]
      rw [ih nxt hch g hg]
      rfl

theorem vl200 : ∀ g, vecLoop blendA (g+1+1) 400 elem200 =
    (vecLoop blendA (g+1) 400 elem300).bind (fun rest => some (elem200 :: rest)) :=
  fun g => rfl

theorem vl300 : ∀ g, vecLoop blendA (g+1+1) 400 elem300 =
    (vecLoop blendA (g+1) 400 elem200).bind (fun rest => some (elem300 :: rest)) :=
  fun g => rfl

theorem ic200 : ∀ g, iterCollect blendA (g+1+1) (.listBase 400 elem200 false) =
    (iterCollect blendA (g+1) (.listBase 400 elem300 false)).map (fun l => elem200 :: l) :=
  fun g => rfl

theorem ic300 : ∀ g, iterCollect blendA (g+1+1) (.listBase 400 elem300 false) =
    (iterCollect blendA (g+1) (.listBase 400 elem200 false)).map (fun l => elem300 :: l) :=
  fun g => rfl

theorem vecLoopA_none : ∀ f, vecLoop blendA f 400 elem200 = none ∧
    vecLoop blendA f 400 elem300 = none := by
  intro f
  induction f with
  | zero => exact ⟨rfl, rfl⟩
  | succ g ih =>
    cases g with
    | zero => exact ⟨rfl, rfl⟩
    | succ g2 =>
      constructor
      · rw [vl200 g2, ih.2]; rfl
      · rw [vl300 g2, ih.1]; rfl

theorem iterCollectA_none : ∀ f, iterCollect blendA f (.listBase 400 elem200 false) = none ∧
    iterCollect blendA f (.listBase 400 elem300 false) = none := by
  intro f
  induction f with
  | zero => exact ⟨rfl, rfl⟩
  | succ g ih =>
    cases g with
    | zero => exact ⟨rfl, rfl⟩
    | succ g2 =>
      constructor
      · rw [ic200 g2, ih.2]; rfl
      · rw [ic300 g2, ih.1]; rfl

/-- C3 counterexample: file A parses successfully and `Scene.base` is a
`ListBase` value field, yet because the `next` chain starting at `first`
(address 200) cycles between addresses 200 and 300 and never reaches
`last`'s address 400, both `get_vec("base")` and the full `get_iter("base")`
traversal fail to terminate: they return `none` for every fuel bound. -/
theorem C3_counterexample :
    parseBlend fileA = .ok blendA ∧
    lookupField sceneA "base" = some ⟨.value, 12, "ListBase", 0, 16, false⟩ ∧
    (∀ fuel, get_vec blendA fuel sceneA "base" = none) ∧
    (∀ fuel, get_iter_list blendA fuel sceneA "base" = none) := by
  refine ⟨rfl, rfl, ?_, ?_⟩
  · intro fuel
    have h : get_vec blendA fuel sceneA "base" = vecLoop blendA fuel 400 elem200 := rfl
    rw [h, (vecLoopA_none fuel).1]
  · intro fuel
    have h : get_iter_list blendA fuel sceneA "base" =
        iterCollect blendA fuel (.listBase 400 elem200 false) := rfl
    rw [h, (iterCollectA_none fuel).1]

/-- C3 (amended): the `ListBase` traversal of `get_vec` / `get_iter`
terminates exactly when the `next` chain from `first` reaches an instance
whose address equals `last`'s address; under that condition (`ChainTo`) both
calls yield the chain's instances in order, each visited instance before the
final one having an address different from `last`'s, for any sufficient
fuel.  (The original claim asserted termination for every successfully
parsed file, which fails on `next` cycles.) -/
theorem C3_list_traversal (blend : RawBlend) (inst : Instance) (name : String)
    (field : FieldTemplate) (li lastI first : Instance) (lastAddr : Nat)
    (insts : List Instance) (advF fv fi : Nat)
    (hf : lookupField inst name = some field)
    (hinfo : field.info = .value)
    (htn : field.type_name = "ListBase")
    (hli : inst.get blend name = some li)
    (hlast : li.get blend "last" = some lastI)
    (hla : lastI.data.memAddr = some lastAddr)
    (hfirst : li.get blend "first" = some first)
    (hchain : ChainTo blend advF lastAddr first insts)
    (hfv : advF + insts.length ≤ fv)
    (hfi : advF + insts.length + 1 ≤ fi) :
    get_vec blend fv inst name = some insts ∧
    get_iter_list blend fi inst name = some insts := by
  constructor
  · simp only [get_vec, hf, Option.bind_eq_bind, Option.some_bind]
    rw [hinfo]
    simp only []
    rw [if_pos htn, hli]
    simp only [Option.some_bind]
    rw [hlast]
    simp only [Option.some_bind]
    rw [hla]
    simp only [Option.some_bind]
    rw [hfirst]
    simp only [Option.some_bind]
    exact ChainTo_vecLoop blend advF lastAddr insts first hchain fv hfv
  · have hinit : get_iter_init blend inst name = some (.listBase lastAddr first false) := by
      simp only [get_iter_init, hf, Option.bind_eq_bind, Option.some_bind]
      rw [hinfo]
      simp only []
      rw [if_pos htn, hli]
      simp only [Option.some_bind]
      rw [hlast]
      simp only [Option.some_bind]
      rw [hla]
      simp only [Option.some_bind]
      rw [hfirst]
      simp only [Option.some_bind]
    simp only [get_iter_list, hinit, Option.bind_eq_bind, Option.some_bind]
    exact ChainTo_iterCollect blend advF lastAddr insts first hchain fi hfi

theorem C3_list_traversal_witness :
    get_vec blendW 3 sceneW "base" = some [w200, w300] ∧
    get_iter_list blendW 4 sceneW "base" = some [w200, w300] :=
  C3_list_traversal blendW sceneW "base" ⟨.value, 12, "ListBase", 0, 16, false⟩
    ((sceneW.get blendW "base").getD dummyInstance)
    w300 w200 300 [w200, w300] 1 3 4
    rfl rfl rfl rfl rfl rfl rfl
    ⟨rfl, ⟨200, rfl, by decide⟩, w300,
      (fun f hf => by
        obtain ⟨g, rfl⟩ : ∃ g, f = g + 1 := ⟨f - 1, by omega⟩
        rfl),
      ⟨rfl, rfl⟩⟩
    (by decide) (by decide)


theorem iterCollect_det (blend : RawBlend) {f f' : Nat} {st : IterState}
    {l l' : List Instance} (h : iterCollect blend f st = some l)
    (h' : iterCollect blend f' st = some l') : l = l' := by
  have h1 := iterCollect_mono blend (Nat.le_max_left f f') h
  have h2 := iterCollect_mono blend (Nat.le_max_right f f') h'
  rw [h1] at h2
  exact Option.some.inj h2

theorem vecLoop_to_iterCollect (blend : RawBlend) (lastAddr : Nat) :
    ∀ (f : Nat) (cur : Instance) (l : List Instance),
      vecLoop blend f lastAddr cur = some l →
      iterCollect blend (f + 1) (.listBase lastAddr cur false) = some l := by
  intro f
  induction f with
  | zero => intro cur l h; exact absurd h (by simp [vecLoop])
  | succ g ih =>
    intro cur l h
    rw [vecLoop] at h
    simp only [Option.bind_eq_bind] at h
    rw [iterCollect, iterNext]
    simp only [Bool.false_eq_true, if_false, Option.bind_eq_bind]
    cases ha : cur.data.memAddr with
    | none => rw [ha] at h; simp at h
    | some a =>
      rw [ha] at h
      simp only [Option.some_bind] at h ⊢
      by_cases heq : a = lastAddr
      · rw [if_pos heq] at h
        rw [if_pos heq]
        simp only [Option.some.injEq] at h
        subst h
        simp only []
        rw [iterCollect, iterNext]
        rfl
      · rw [if_neg heq] at h
        rw [if_neg heq]
        cases hadv : advanceNext blend g cur with
        | none => rw [hadv] at h; simp at h
        | some nxt =>
          rw [hadv] at h
          rw [advanceNext_succ blend g cur nxt hadv]
          simp only [Option.some_bind] at h ⊢
          cases hrest : vecLoop blend g lastAddr nxt with
          | none => rw [hrest] at h; simp at h
          | some rest =>
            rw [hrest] at h
            simp only [Option.some_bind, Option.some.injEq] at h
            subst h
            rw [ih nxt rest hrest]
            rfl

theorem iterCollect_to_vecLoop (blend : RawBlend) (lastAddr : Nat) :
    ∀ (f : Nat) (cur : Instance) (l : List Instance),
      iterCollect blend f (.listBase lastAddr cur false) = some l →
      vecLoop blend f lastAddr cur = some l := by
  intro f
  induction f with
  | zero => intro cur l h; exact absurd h (by simp [iterCollect])
  | succ g ih =>
    intro cur l h
    rw [iterCollect, iterNext] at h
    simp only [Bool.false_eq_true, if_false, Option.bind_eq_bind] at h
    rw [vecLoop]
    simp only [Option.bind_eq_bind]
    cases ha : cur.data.memAddr with
    | none => rw [ha] at h; simp at h
    | some a =>
      rw [ha] at h
      simp only [Option.some_bind] at h ⊢
      by_cases heq : a = lastAddr
      · rw [if_pos heq] at h
        rw [if_pos heq]
        simp only [] at h
        obtain ⟨g2, rfl⟩ : ∃ g2, g = g2 + 1 := by
          cases g with
          | zero => exact absurd h (by simp [iterCollect])
          | succ g2 => exact ⟨g2, rfl⟩
        rw [iterCollect, iterNext] at h
        simp only [if_true, ite_true, Option.map_some', Option.some.injEq] at h
        rw [← h]
      · rw [if_neg heq] at h
        rw [if_neg heq]
        cases hadv : advanceNext blend g cur with
        | none => rw [hadv] at h; simp at h
        | some nxt =>
          rw [hadv] at h
          simp only [Option.some_bind] at h ⊢
          cases hrest : iterCollect blend g (.listBase lastAddr nxt false) with
          | none => rw [hrest] at h; simp at h
          | some rest =>
            rw [hrest] at h
            simp only [Option.map_some', Option.some.injEq] at h
            rw [ih nxt rest hrest]
            simp only [Option.some_bind, Option.some.injEq]
            exact h

theorem iterCollect_valueArray (blend : RawBlend) (flds : List (String × FieldTemplate))
    (data : List Nat) (len : Nat) (tn : String)
    (hdvd : len ∣ data.length) (hpos : 0 < data.length) (hlen : 0 < len) :
    ∀ (k i : Nat), i + k = len → ∀ f, k + 1 ≤ f →
      iterCollect blend f (.valueArray flds data len tn i) =
      (List.range' i k).mapM (fun j =>
        (sliceGet data (j * (data.length / len)) (data.length / len)).map
          (fun bytes => { type_name := tn, data := .raw bytes, fields := flds })) := by
  have hled : len ≤ data.length := Nat.le_of_dvd hpos hdvd
  have hq : 0 < data.length / len := Nat.div_pos hled hlen
  have hmul : len * (data.length / len) = data.length := Nat.mul_div_cancel' hdvd
  intro k
  induction k with
  | zero =>
    intro i hi f hf
    obtain ⟨g, rfl⟩ : ∃ g, f = g + 1 := ⟨f - 1, by omega⟩
    obtain rfl : i = len := by omega
    rw [iterCollect, iterNext]
    rw [if_neg (Nat.pos_iff_ne_zero.mp hlen)]
    rw [if_pos hmul]
    rfl
  | succ k ih =>
    intro i hi f hf
    obtain ⟨g, rfl⟩ : ∃ g, f = g + 1 := ⟨f - 1, by omega⟩
    have hilt : i < len := by omega
    rw [iterCollect, iterNext]
    rw [if_neg (by omega : ¬ len = 0)]
    have hne : ¬ i * (data.length / len) = data.length := by
      have : i * (data.length / len) < len * (data.length / len) :=
        Nat.mul_lt_mul_of_lt_of_le hilt (Nat.le_refl _) hq
      omega
    rw [if_neg hne]
    have hbound : i * (data.length / len) + data.length / len ≤ data.length := by
      have : (i + 1) * (data.length / len) ≤ len * (data.length / len) :=
        Nat.mul_le_mul_right _ hilt
      calc i * (data.length / len) + data.length / len
          = (i + 1) * (data.length / len) := by ring
        _ ≤ len * (data.length / len) := this
        _ = data.length := hmul
    have hslice : sliceGet data (i * (data.length / len)) (data.length / len) =
        some ((data.drop (i * (data.length / len))).take (data.length / len)) := by
      rw [sliceGet, if_pos hbound]
    rw [hslice]
    simp only [Option.bind_eq_bind, Option.some_bind]
    rw [ih (i + 1) (by omega) g (by omega)]
    rw [List.range'_succ, List.mapM_cons]
    rw [hslice]
    simp only [Option.map_some', Option.bind_eq_bind, Option.some_bind]
    cases (List.range' (i + 1) k).mapM (fun j =>
        (sliceGet data (j * (data.length / len)) (data.length / len)).map
          (fun bytes => ({ type_name := tn, data := .raw bytes, fields := flds } : Instance))) with
    | none => rfl
    | some bs => rfl

theorem iterCollect_pointer1 (blend : RawBlend) (flds : List (String × FieldTemplate))
    (bd : BlockData) (tn : String)
    (hdvd : bd.count ∣ bd.data.length) (hpos : 0 < bd.data.length) (hlen : 0 < bd.count) :
    ∀ (k i : Nat), i + k = bd.count → ∀ f, k + 1 ≤ f →
      iterCollect blend f (.pointer1 flds bd tn i) =
      (List.range' i k).mapM (fun j =>
        (sliceGet bd.data (j * (bd.data.length / bd.count)) (bd.data.length / bd.count)).map
          (fun bytes => { type_name := tn, data := .raw bytes, fields := flds })) := by
  have hled : bd.count ≤ bd.data.length := Nat.le_of_dvd hpos hdvd
  have hq : 0 < bd.data.length / bd.count := Nat.div_pos hled hlen
  have hmul : bd.count * (bd.data.length / bd.count) = bd.data.length := Nat.mul_div_cancel' hdvd
  intro k
  induction k with
  | zero =>
    intro i hi f hf
    obtain ⟨g, rfl⟩ : ∃ g, f = g + 1 := ⟨f - 1, by omega⟩
    obtain rfl : i = bd.count := by omega
    rw [iterCollect, iterNext]
    rw [if_neg (Nat.pos_iff_ne_zero.mp hlen)]
    rw [if_pos hmul]
    rfl
  | succ k ih =>
    intro i hi f hf
    obtain ⟨g, rfl⟩ : ∃ g, f = g + 1 := ⟨f - 1, by omega⟩
    have hilt : i < bd.count := by omega
    rw [iterCollect, iterNext]
    rw [if_neg (by omega : ¬ bd.count = 0)]
    have hne : ¬ i * (bd.data.length / bd.count) = bd.data.length := by
      have : i * (bd.data.length / bd.count) < bd.count * (bd.data.length / bd.count) :=
        Nat.mul_lt_mul_of_lt_of_le hilt (Nat.le_refl _) hq
      omega
    rw [if_neg hne]
    have hbound : i * (bd.data.length / bd.count) + bd.data.length / bd.count ≤ bd.data.length := by
      have : (i + 1) * (bd.data.length / bd.count) ≤ bd.count * (bd.data.length / bd.count) :=
        Nat.mul_le_mul_right _ hilt
      calc i * (bd.data.length / bd.count) + bd.data.length / bd.count
          = (i + 1) * (bd.data.length / bd.count) := by ring
        _ ≤ bd.count * (bd.data.length / bd.count) := this
        _ = bd.data.length := hmul
    have hslice : sliceGet bd.data (i * (bd.data.length / bd.count)) (bd.data.length / bd.count) =
        some ((bd.data.drop (i * (bd.data.length / bd.count))).take (bd.data.length / bd.count)) := by
      rw [sliceGet, if_pos hbound]
    rw [hslice]
    simp only [Option.bind_eq_bind, Option.some_bind]
    rw [ih (i + 1) (by omega) g (by omega)]
    rw [List.range'_succ, List.mapM_cons]
    rw [hslice]
    simp only [Option.map_some', Option.bind_eq_bind, Option.some_bind]
    cases (List.range' (i + 1) k).mapM (fun j =>
        (sliceGet bd.data (j * (bd.data.length / bd.count)) (bd.data.length / bd.count)).map
          (fun bytes => ({ type_name := tn, data := .raw bytes, fields := flds } : Instance))) with
    | none => rfl
    | some bs => rfl

theorem iterCollect_ptr2_skip (blend : RawBlend) (field : FieldTemplate) (v : Nat)
    (tl : List Nat) (hfind : findBlockByAddr blend v = none) :
    ∀ f, iterCollect blend f (.pointer2 (v :: tl) field) =
      iterCollect blend f (.pointer2 tl field) := by
  intro f
  cases f with
  | zero => rfl
  | succ g =>
    rw [iterCollect, iterCollect, iterNext, iterNext]
    rw [iterPtr2Next]
    rw [hfind]

theorem ptr2_core (blend : RawBlend) (field : FieldTemplate) (bytes : List Nat) (ps : Nat) :
    ∀ (idxs : List Nat) (ptrs : List Nat),
      collectPtrsGo blend bytes ps idxs = some ptrs →
      (∀ i ∈ idxs, ∀ v, readPtrVal blend.header (bytes.drop (i * ps)) = some v → v ≠ 0 →
        ∀ a d dd, findBlockByAddr blend v ≠ some (.subsidiary a d dd)) →
      (∀ l, vecPtr2Go blend bytes ps idxs = some l →
        ∀ f, ptrs.length + 1 ≤ f → iterCollect blend f (.pointer2 ptrs field) = some l) ∧
      (∀ f l, iterCollect blend f (.pointer2 ptrs field) = some l →
        vecPtr2Go blend bytes ps idxs = some l) := by
  intro idxs
  induction idxs with
  | nil =>
    intro ptrs hc hns
    simp only [collectPtrsGo, Option.some.injEq] at hc
    subst hc
    constructor
    · intro l hv f hf
      simp only [vecPtr2Go, Option.some.injEq] at hv
      subst hv
      obtain ⟨g, rfl⟩ : ∃ g, f = g + 1 := ⟨f - 1, by omega⟩
      rfl
    · intro f l h
      cases f with
      | zero => exact absurd h (by simp [iterCollect])
      | succ g =>
        rw [iterCollect] at h
        simp only [iterNext, iterPtr2Next] at h
        simp only [Option.some.injEq] at h
        rw [vecPtr2Go, ← h]
  | cons i rest ih =>
    intro ptrs hc hns
    rw [collectPtrsGo] at hc
    simp only [Option.bind_eq_bind] at hc
    cases hv : readPtrVal blend.header (bytes.drop (i * ps)) with
    | none => rw [hv] at hc; simp at hc
    | some v =>
      rw [hv] at hc
      simp only [Option.some_bind] at hc
      cases htl : collectPtrsGo blend bytes ps rest with
      | none => rw [htl] at hc; simp at hc
      | some tl =>
        rw [htl] at hc
        simp only [Option.some_bind] at hc
        have hnsr : ∀ j ∈ rest, ∀ w, readPtrVal blend.header (bytes.drop (j * ps)) = some w →
            w ≠ 0 → ∀ a d dd, findBlockByAddr blend w ≠ some (.subsidiary a d dd) :=
          fun j hj => hns j (List.mem_cons_of_mem i hj)
        obtain ⟨ihf, ihb⟩ := ih tl htl hnsr
        by_cases hv0 : v = 0
        · subst hv0
          simp at hc
          subst hc
          constructor
          · intro l hvec f hf
            rw [vecPtr2Go] at hvec
            simp only [Option.bind_eq_bind] at hvec
            rw [hv] at hvec
            simp only [Option.some_bind, if_pos trivial, ite_true, if_true,
              eq_self_iff_true] at hvec
            exact ihf l hvec f hf
          · intro f l h
            rw [vecPtr2Go]
            simp only [Option.bind_eq_bind]
            rw [hv]
            simp only [Option.some_bind, if_pos trivial, ite_true, if_true, eq_self_iff_true]
            exact ihb f l h
        · rw [if_neg hv0] at hc
          simp only [Option.some.injEq] at hc
          subst hc
          cases hfind : findBlockByAddr blend v with
          | none =>
            constructor
            · intro l hvec f hf
              rw [vecPtr2Go] at hvec
              simp only [Option.bind_eq_bind] at hvec
              rw [hv] at hvec
              simp only [Option.some_bind, if_neg hv0] at hvec
              rw [hfind] at hvec
              rw [iterCollect_ptr2_skip blend field v tl hfind f]
              exact ihf l hvec f (by simp at hf ⊢; omega)
            · intro f l h
              rw [iterCollect_ptr2_skip blend field v tl hfind f] at h
              rw [vecPtr2Go]
              simp only [Option.bind_eq_bind]
              rw [hv]
              simp only [Option.some_bind, if_neg hv0]
              rw [hfind]
              exact ihb f l h
          | some b =>
            cases b with
            | subsidiary a d dd => exact absurd hfind (hns i (List.mem_cons_self i rest) v hv hv0 a d dd)
            | principal c a d dd =>
              constructor
              · intro l hvec f hf
                rw [vecPtr2Go] at hvec
                simp only [Option.bind_eq_bind] at hvec
                rw [hv] at hvec
                simp only [Option.some_bind, if_neg hv0] at hvec
                rw [hfind] at hvec
                simp only [Option.bind_eq_bind] at hvec
                obtain ⟨g, rfl⟩ : ∃ g, f = g + 1 := ⟨f - 1, by omega⟩
                rw [iterCollect, iterNext, iterPtr2Next]
                rw [hfind]
                simp only []
                simp only [Option.bind_eq_bind]
                cases hs : blend.dna.structs.get? d with
                | none => rw [hs] at hvec; simp at hvec
                | some s =>
                  rw [hs] at hvec
                  simp only [Option.some_bind] at hvec ⊢
                  cases ht : blend.dna.types.get? s.type_index with
                  | none => rw [ht] at hvec; simp at hvec
                  | some t =>
                    rw [ht] at hvec
                    simp only [Option.some_bind] at hvec ⊢
                    cases hfl : generate_fields blend.dna blend.header s t with
                    | none => rw [hfl] at hvec; simp at hvec
                    | some flds =>
                      rw [hfl] at hvec
                      simp only [Option.some_bind] at hvec ⊢
                      cases hrest : vecPtr2Go blend bytes ps rest with
                      | none => rw [hrest] at hvec; simp at hvec
                      | some tl2 =>
                        rw [hrest] at hvec
                        simp only [Option.some_bind, Option.some.injEq] at hvec
                        subst hvec
                        rw [ihf tl2 hrest g (by simp at hf ⊢; omega)]
                        rfl
              · intro f l h
                cases f with
                | zero => exact absurd h (by simp [iterCollect])
                | succ g =>
                  rw [iterCollect, iterNext, iterPtr2Next] at h
                  rw [hfind] at h
                  simp only [] at h
                  simp only [Option.bind_eq_bind] at h
                  rw [vecPtr2Go]
                  simp only [Option.bind_eq_bind]
                  rw [hv]
                  simp only [Option.some_bind, if_neg hv0]
                  rw [hfind]
                  simp only [Option.bind_eq_bind]
                  cases hs : blend.dna.structs.get? d with
                  | none => rw [hs] at h; simp at h
                  | some s =>
                    rw [hs] at h
                    simp only [Option.some_bind] at h ⊢
                    cases ht : blend.dna.types.get? s.type_index with
                    | none => rw [ht] at h; simp at h
                    | some t =>
                      rw [ht] at h
                      simp only [Option.some_bind] at h ⊢
                      cases hfl : generate_fields blend.dna blend.header s t with
                      | none => rw [hfl] at h; simp at h
                      | some flds =>
                        rw [hfl] at h
                        simp only [Option.some_bind] at h ⊢
                        cases hic : iterCollect blend g (.pointer2 tl field) with
                        | none => rw [hic] at h; simp at h
                        | some l2 =>
                          rw [hic] at h
                          simp only [Option.map_some', Option.some.injEq] at h
                          rw [ihb g l2 hic]
                          simp only [Option.some_bind, Option.some.injEq]
                          exact h
            | global a d dd =>
              constructor
              · intro l hvec f hf
                rw [vecPtr2Go] at hvec
                simp only [Option.bind_eq_bind] at hvec
                rw [hv] at hvec
                simp only [Option.some_bind, if_neg hv0] at hvec
                rw [hfind] at hvec
                exact absurd hvec (by simp)
              · intro f l h
                cases f with
                | zero => exact absurd h (by simp [iterCollect])
                | succ g =>
                  rw [iterCollect, iterNext, iterPtr2Next] at h
                  rw [hfind] at h
                  exact absurd h (by simp)
            | rend =>
              constructor
              · intro l hvec f hf
                rw [vecPtr2Go] at hvec
                simp only [Option.bind_eq_bind] at hvec
                rw [hv] at hvec
                simp only [Option.some_bind, if_neg hv0] at hvec
                rw [hfind] at hvec
                exact absurd hvec (by simp)
              · intro f l h
                cases f with
                | zero => exact absurd h (by simp [iterCollect])
                | succ g =>
                  rw [iterCollect, iterNext, iterPtr2Next] at h
                  rw [hfind] at h
                  exact absurd h (by simp)
            | test =>
              constructor
              · intro l hvec f hf
                rw [vecPtr2Go] at hvec
                simp only [Option.bind_eq_bind] at hvec
                rw [hv] at hvec
                simp only [Option.some_bind, if_neg hv0] at hvec
                rw [hfind] at hvec
                exact absurd hvec (by simp)
              · intro f l h
                cases f with
                | zero => exact absurd h (by simp [iterCollect])
                | succ g =>
                  rw [iterCollect, iterNext, iterPtr2Next] at h
                  rw [hfind] at h
                  exact absurd h (by simp)
            | dna dn =>
              constructor
              · intro l hvec f hf
                rw [vecPtr2Go] at hvec
                simp only [Option.bind_eq_bind] at hvec
                rw [hv] at hvec
                simp only [Option.some_bind, if_neg hv0] at hvec
                rw [hfind] at hvec
                exact absurd hvec (by simp)
              · intro f l h
                cases f with
                | zero => exact absurd h (by simp [iterCollect])
                | succ g =>
                  rw [iterCollect, iterNext, iterPtr2Next] at h
                  rw [hfind] at h
                  exact absurd h (by simp)

theorem iterCollect_ptr2_skip_subsid (blend : RawBlend) (field : FieldTemplate) (v : Nat)
    (tl : List Nat) (a d : Nat) (dd : BlockData)
    (hfind : findBlockByAddr blend v = some (.subsidiary a d dd))
    (hgsf : generate_subsidiary_fields blend.dna blend.header field d = none) :
    ∀ f, iterCollect blend f (.pointer2 (v :: tl) field) =
      iterCollect blend f (.pointer2 tl field) := by
  intro f
  cases f with
  | zero => rfl
  | succ g =>
    rw [iterCollect, iterCollect, iterNext, iterNext]
    rw [iterPtr2Next]
    rw [hfind]
    simp only []
    rw [hgsf]

theorem ptrArr_core (blend : RawBlend) (field : FieldTemplate) (bytes : List Nat) (ps : Nat) :
    ∀ (idxs ptrs : List Nat),
      collectPtrsGo blend bytes ps idxs = some ptrs →
      (∀ l, vecPtrArrGo blend field bytes ps idxs = some l →
        ∀ f, ptrs.length + 1 ≤ f → iterCollect blend f (.pointer2 ptrs field) = some l) ∧
      (∀ f l, iterCollect blend f (.pointer2 ptrs field) = some l →
        vecPtrArrGo blend field bytes ps idxs = some l) := by
  intro idxs
  induction idxs with
  | nil =>
    intro ptrs hc
    simp only [collectPtrsGo, Option.some.injEq] at hc
    subst hc
    constructor
    · intro l hv f hf
      simp only [vecPtrArrGo, Option.some.injEq] at hv
      subst hv
      obtain ⟨g, rfl⟩ : ∃ g, f = g + 1 := ⟨f - 1, by omega⟩
      rfl
    · intro f l h
      cases f with
      | zero => exact absurd h (by simp [iterCollect])
      | succ g =>
        rw [iterCollect] at h
        simp only [iterNext, iterPtr2Next] at h
        simp only [Option.some.injEq] at h
        rw [vecPtrArrGo, ← h]
  | cons i rest ih =>
    intro ptrs hc
    rw [collectPtrsGo] at hc
    simp only [Option.bind_eq_bind] at hc
    cases hv : readPtrVal blend.header (bytes.drop (i * ps)) with
    | none => rw [hv] at hc; simp at hc
    | some v =>
      rw [hv] at hc
      simp only [Option.some_bind] at hc
      cases htl : collectPtrsGo blend bytes ps rest with
      | none => rw [htl] at hc; simp at hc
      | some tl =>
        rw [htl] at hc
        simp only [Option.some_bind] at hc
        obtain ⟨ihf, ihb⟩ := ih tl htl
        by_cases hv0 : v = 0
        · subst hv0
          simp at hc
          subst hc
          constructor
          · intro l hvec f hf
            rw [vecPtrArrGo] at hvec
            simp only [Option.bind_eq_bind] at hvec
            rw [hv] at hvec
            simp only [Option.some_bind, if_pos trivial, ite_true, if_true,
              eq_self_iff_true] at hvec
            exact ihf l hvec f hf
          · intro f l h
            rw [vecPtrArrGo]
            simp only [Option.bind_eq_bind]
            rw [hv]
            simp only [Option.some_bind, if_pos trivial, ite_true, if_true, eq_self_iff_true]
            exact ihb f l h
        · rw [if_neg hv0] at hc
          simp only [Option.some.injEq] at hc
          subst hc
          cases hfind : findBlockByAddr blend v with
          | none =>
            constructor
            · intro l hvec f hf
              rw [vecPtrArrGo] at hvec
              simp only [Option.bind_eq_bind] at hvec
              rw [hv] at hvec
              simp only [Option.some_bind, if_neg hv0] at hvec
              rw [hfind] at hvec
              rw [iterCollect_ptr2_skip blend field v tl hfind f]
              exact ihf l hvec f (by simp at hf ⊢; omega)
            · intro f l h
              rw [iterCollect_ptr2_skip blend field v tl hfind f] at h
              rw [vecPtrArrGo]
              simp only [Option.bind_eq_bind]
              rw [hv]
              simp only [Option.some_bind, if_neg hv0]
              rw [hfind]
              exact ihb f l h
          | some b =>
            cases b with
            | subsidiary a d dd =>
              cases hgsf : generate_subsidiary_fields blend.dna blend.header field d with
              | none =>
                constructor
                · intro l hvec f hf
                  rw [vecPtrArrGo] at hvec
                  simp only [Option.bind_eq_bind] at hvec
                  rw [hv] at hvec
                  simp only [Option.some_bind, if_neg hv0] at hvec
                  rw [hfind] at hvec
                  simp only [] at hvec
                  rw [hgsf] at hvec
                  rw [iterCollect_ptr2_skip_subsid blend field v tl a d dd hfind hgsf f]
                  exact ihf l hvec f (by simp at hf ⊢; omega)
                · intro f l h
                  rw [iterCollect_ptr2_skip_subsid blend field v tl a d dd hfind hgsf f] at h
                  rw [vecPtrArrGo]
                  simp only [Option.bind_eq_bind]
                  rw [hv]
                  simp only [Option.some_bind, if_neg hv0]
                  rw [hfind]
                  simp only []
                  rw [hgsf]
                  exact ihb f l h
              | some r =>
                constructor
                · intro l hvec f hf
                  rw [vecPtrArrGo] at hvec
                  simp only [Option.bind_eq_bind] at hvec
                  rw [hv] at hvec
                  simp only [Option.some_bind, if_neg hv0] at hvec
                  rw [hfind] at hvec
                  simp only [] at hvec
                  rw [hgsf] at hvec
                  simp only [Option.bind_eq_bind] at hvec
                  obtain ⟨g, rfl⟩ : ∃ g, f = g + 1 := ⟨f - 1, by omega⟩
                  rw [iterCollect, iterNext, iterPtr2Next]
                  rw [hfind]
                  simp only []
                  rw [hgsf]
                  simp only []
                  cases hrest : vecPtrArrGo blend field bytes ps rest with
                  | none => rw [hrest] at hvec; simp at hvec
                  | some tl2 =>
                    rw [hrest] at hvec
                    simp only [Option.some_bind, Option.some.injEq] at hvec
                    subst hvec
                    rw [ihf tl2 hrest g (by simp at hf ⊢; omega)]
                    rfl
                · intro f l h
                  cases f with
                  | zero => exact absurd h (by simp [iterCollect])
                  | succ g =>
                    rw [iterCollect, iterNext, iterPtr2Next] at h
                    rw [hfind] at h
                    simp only [] at h
                    rw [hgsf] at h
                    simp only [] at h
                    rw [vecPtrArrGo]
                    simp only [Option.bind_eq_bind]
                    rw [hv]
                    simp only [Option.some_bind, if_neg hv0]
                    rw [hfind]
                    simp only []
                    rw [hgsf]
                    simp only [Option.bind_eq_bind]
                    cases hic : iterCollect blend g (.pointer2 tl field) with
                    | none => rw [hic] at h; simp at h
                    | some l2 =>
                      rw [hic] at h
                      simp only [Option.map_some', Option.some.injEq] at h
                      rw [ihb g l2 hic]
                      simp only [Option.some_bind, Option.some.injEq]
                      exact h
            | principal c a d dd =>
              constructor
              · intro l hvec f hf
                rw [vecPtrArrGo] at hvec
                simp only [Option.bind_eq_bind] at hvec
                rw [hv] at hvec
                simp only [Option.some_bind, if_neg hv0] at hvec
                rw [hfind] at hvec
                simp only [Option.bind_eq_bind] at hvec
                obtain ⟨g, rfl⟩ : ∃ g, f = g + 1 := ⟨f - 1, by omega⟩
                rw [iterCollect, iterNext, iterPtr2Next]
                rw [hfind]
                simp only []
                simp only [Option.bind_eq_bind]
                cases hs : blend.dna.structs.get? d with
                | none => rw [hs] at hvec; simp at hvec
                | some s =>
                  rw [hs] at hvec
                  simp only [Option.some_bind] at hvec ⊢
                  cases ht : blend.dna.types.get? s.type_index with
                  | none => rw [ht] at hvec; simp at hvec
                  | some t =>
                    rw [ht] at hvec
                    simp only [Option.some_bind] at hvec ⊢
                    cases hfl : generate_fields blend.dna blend.header s t with
                    | none => rw [hfl] at hvec; simp at hvec
                    | some flds =>
                      rw [hfl] at hvec
                      simp only [Option.some_bind] at hvec ⊢
                      cases hrest : vecPtrArrGo blend field bytes ps rest with
                      | none => rw [hrest] at hvec; simp at hvec
                      | some tl2 =>
                        rw [hrest] at hvec
                        simp only [Option.some_bind, Option.some.injEq] at hvec
                        subst hvec
                        rw [ihf tl2 hrest g (by simp at hf ⊢; omega)]
                        rfl
              · intro f l h
                cases f with
                | zero => exact absurd h (by simp [iterCollect])
                | succ g =>
                  rw [iterCollect, iterNext, iterPtr2Next] at h
                  rw [hfind] at h
                  simp only [] at h
                  simp only [Option.bind_eq_bind] at h
                  rw [vecPtrArrGo]
                  simp only [Option.bind_eq_bind]
                  rw [hv]
                  simp only [Option.some_bind, if_neg hv0]
                  rw [hfind]
                  simp only [Option.bind_eq_bind]
                  cases hs : blend.dna.structs.get? d with
                  | none => rw [hs] at h; simp at h
                  | some s =>
                    rw [hs] at h
                    simp only [Option.some_bind] at h ⊢
                    cases ht : blend.dna.types.get? s.type_index with
                    | none => rw [ht] at h; simp at h
                    | some t =>
                      rw [ht] at h
                      simp only [Option.some_bind] at h ⊢
                      cases hfl : generate_fields blend.dna blend.header s t with
                      | none => rw [hfl] at h; simp at h
                      | some flds =>
                        rw [hfl] at h
                        simp only [Option.some_bind] at h ⊢
                        cases hic : iterCollect blend g (.pointer2 tl field) with
                        | none => rw [hic] at h; simp at h
                        | some l2 =>
                          rw [hic] at h
                          simp only [Option.map_some', Option.some.injEq] at h
                          rw [ihb g l2 hic]
                          simp only [Option.some_bind, Option.some.injEq]
                          exact h
            | global a d dd =>
              constructor
              · intro l hvec f hf
                rw [vecPtrArrGo] at hvec
                simp only [Option.bind_eq_bind] at hvec
                rw [hv] at hvec
                simp only [Option.some_bind, if_neg hv0] at hvec
                rw [hfind] at hvec
                exact absurd hvec (by simp)
              · intro f l h
                cases f with
                | zero => exact absurd h (by simp [iterCollect])
                | succ g =>
                  rw [iterCollect, iterNext, iterPtr2Next] at h
                  rw [hfind] at h
                  exact absurd h (by simp)
            | rend =>
              constructor
              · intro l hvec f hf
                rw [vecPtrArrGo] at hvec
                simp only [Option.bind_eq_bind] at hvec
                rw [hv] at hvec
                simp only [Option.some_bind, if_neg hv0] at hvec
                rw [hfind] at hvec
                exact absurd hvec (by simp)
              · intro f l h
                cases f with
                | zero => exact absurd h (by simp [iterCollect])
                | succ g =>
                  rw [iterCollect, iterNext, iterPtr2Next] at h
                  rw [hfind] at h
                  exact absurd h (by simp)
            | test =>
              constructor
              · intro l hvec f hf
                rw [vecPtrArrGo] at hvec
                simp only [Option.bind_eq_bind] at hvec
                rw [hv] at hvec
                simp only [Option.some_bind, if_neg hv0] at hvec
                rw [hfind] at hvec
                exact absurd hvec (by simp)
              · intro f l h
                cases f with
                | zero => exact absurd h (by simp [iterCollect])
                | succ g =>
                  rw [iterCollect, iterNext, iterPtr2Next] at h
                  rw [hfind] at h
                  exact absurd h (by simp)
            | dna dn =>
              constructor
              · intro l hvec f hf
                rw [vecPtrArrGo] at hvec
                simp only [Option.bind_eq_bind] at hvec
                rw [hv] at hvec
                simp only [Option.some_bind, if_neg hv0] at hvec
                rw [hfind] at hvec
                exact absurd hvec (by simp)
              · intro f l h
                cases f with
                | zero => exact absurd h (by simp [iterCollect])
                | succ g =>
                  rw [iterCollect, iterNext, iterPtr2Next] at h
                  rw [hfind] at h
                  exact absurd h (by simp)

theorem iterCollect_valueArray_zero (blend : RawBlend) (flds : List (String × FieldTemplate))
    (data : List Nat) (tn : String) (i : Nat) :
    ∀ f, iterCollect blend f (.valueArray flds data 0 tn i) = none := by
  intro f
  cases f with
  | zero => rfl
  | succ g => rw [iterCollect, iterNext]; rfl

theorem iterCollect_pointer1_zero (blend : RawBlend) (flds : List (String × FieldTemplate))
    (bd : BlockData) (tn : String) (i : Nat) (h0 : bd.count = 0) :
    ∀ f, iterCollect blend f (.pointer1 flds bd tn i) = none := by
  intro f
  cases f with
  | zero => rfl
  | succ g =>
    rw [iterCollect, iterNext]
    rw [if_pos h0]

theorem collect_none_vec2_none (blend : RawBlend) (bytes : List Nat) (ps : Nat) :
    ∀ idxs, collectPtrsGo blend bytes ps idxs = none →
      vecPtr2Go blend bytes ps idxs = none := by
  intro idxs
  induction idxs with
  | nil => intro h; exact absurd h (by simp [collectPtrsGo])
  | cons i rest ih =>
    intro h
    rw [collectPtrsGo] at h
    simp only [Option.bind_eq_bind] at h
    rw [vecPtr2Go]
    simp only [Option.bind_eq_bind]
    cases hv : readPtrVal blend.header (bytes.drop (i * ps)) with
    | none => rfl
    | some v =>
      rw [hv] at h
      simp only [Option.some_bind] at h
      cases htl : collectPtrsGo blend bytes ps rest with
      | none =>
        have hr := ih htl
        simp only [Option.some_bind]
        by_cases hv0 : v = 0
        · rw [if_pos hv0, hr]
        · rw [if_neg hv0]
          cases hfind : findBlockByAddr blend v with
          | none => exact hr
          | some b =>
            cases b with
            | principal c a d dd =>
              simp only [Option.bind_eq_bind]
              rw [hr]
              cases blend.dna.structs.get? d with
              | none => rfl
              | some s =>
                simp only [Option.some_bind]
                cases blend.dna.types.get? s.type_index with
                | none => rfl
                | some t =>
                  simp only [Option.some_bind]
                  cases generate_fields blend.dna blend.header s t with
                  | none => rfl
                  | some flds => simp only [Option.some_bind, Option.none_bind]
            | subsidiary a d dd => rfl
            | global a d dd => rfl
            | rend => rfl
            | test => rfl
            | dna dn => rfl
      | some tl =>
        rw [htl] at h
        by_cases hv0 : v = 0 <;> simp [hv0] at h

theorem collect_none_vecArr_none (blend : RawBlend) (field : FieldTemplate)
    (bytes : List Nat) (ps : Nat) :
    ∀ idxs, collectPtrsGo blend bytes ps idxs = none →
      vecPtrArrGo blend field bytes ps idxs = none := by
  intro idxs
  induction idxs with
  | nil => intro h; exact absurd h (by simp [collectPtrsGo])
  | cons i rest ih =>
    intro h
    rw [collectPtrsGo] at h
    simp only [Option.bind_eq_bind] at h
    rw [vecPtrArrGo]
    simp only [Option.bind_eq_bind]
    cases hv : readPtrVal blend.header (bytes.drop (i * ps)) with
    | none => rfl
    | some v =>
      rw [hv] at h
      simp only [Option.some_bind] at h
      cases htl : collectPtrsGo blend bytes ps rest with
      | none =>
        have hr := ih htl
        simp only [Option.some_bind]
        by_cases hv0 : v = 0
        · rw [if_pos hv0, hr]
        · rw [if_neg hv0]
          cases hfind : findBlockByAddr blend v with
          | none => exact hr
          | some b =>
            cases b with
            | principal c a d dd =>
              simp only [Option.bind_eq_bind]
              rw [hr]
              cases blend.dna.structs.get? d with
              | none => rfl
              | some s =>
                simp only [Option.some_bind]
                cases blend.dna.types.get? s.type_index with
                | none => rfl
                | some t =>
                  simp only [Option.some_bind]
                  cases generate_fields blend.dna blend.header s t with
                  | none => rfl
                  | some flds => simp only [Option.some_bind, Option.none_bind]
            | subsidiary a d dd =>
              simp only []
              rw [hr]
              cases generate_subsidiary_fields blend.dna blend.header field d with
              | none => rfl
              | some r => rfl
            | global a d dd => rfl
            | rend => rfl
            | test => rfl
            | dna dn => rfl
      | some tl =>
        rw [htl] at h
        by_cases hv0 : v = 0 <;> simp [hv0] at h

theorem noSubsidHit_to (blend : RawBlend) (bytes : List Nat) (h : noSubsidHit blend bytes) :
    ∀ i ∈ List.range (bytes.length / blend.header.pointer_size.bytes_num),
      ∀ v, readPtrVal blend.header (bytes.drop (i * blend.header.pointer_size.bytes_num)) = some v →
      v ≠ 0 → ∀ a d dd, findBlockByAddr blend v ≠ some (.subsidiary a d dd) := by
  intro i hi v hv hv0 a d dd heq
  have hh := h i hi
  rw [hv] at hh
  cases hh with
  | inl h0 => exact hv0 h0
  | inr hm =>
    rw [heq] at hm
    simp only [] at hm

theorem c5_value_lb (blend : RawBlend) (inst : Instance) (name : String)
    (field : FieldTemplate) (li lastI first : Instance) (la : Nat)
    (hlf : lookupField inst name = some field)
    (hinfo : field.info = .value)
    (hlb : field.type_name = "ListBase")
    (hli : inst.get blend name = some li)
    (hlast : li.get blend "last" = some lastI)
    (hla : lastI.data.memAddr = some la)
    (hfirst : li.get blend "first" = some first)
    (l : List Instance) :
    (∃ f, get_vec blend f inst name = some l) ↔
    (∃ f, get_iter_list blend f inst name = some l) := by
  have hvE : ∀ f, get_vec blend f inst name = vecLoop blend f la first := by
    intro f
    simp only [get_vec, hlf, Option.bind_eq_bind, Option.some_bind]
    rw [hinfo]
    simp only []
    rw [if_pos hlb, hli]
    simp only [Option.some_bind]
    rw [hlast]
    simp only [Option.some_bind]
    rw [hla]
    simp only [Option.some_bind]
    rw [hfirst]
    simp only [Option.some_bind]
  have hiE : ∀ f, get_iter_list blend f inst name =
      iterCollect blend f (.listBase la first false) := by
    intro f
    have hinit : get_iter_init blend inst name = some (.listBase la first false) := by
      simp only [get_iter_init, hlf, Option.bind_eq_bind, Option.some_bind]
      rw [hinfo]
      simp only []
      rw [if_pos hlb, hli]
      simp only [Option.some_bind]
      rw [hlast]
      simp only [Option.some_bind]
      rw [hla]
      simp only [Option.some_bind]
      rw [hfirst]
      simp only [Option.some_bind]
    simp only [get_iter_list, hinit, Option.bind_eq_bind, Option.some_bind]
  constructor
  · rintro ⟨f, hf⟩
    rw [hvE f] at hf
    exact ⟨f + 1, by rw [hiE]; exact vecLoop_to_iterCollect blend la f first l hf⟩
  · rintro ⟨f, hf⟩
    rw [hiE f] at hf
    exact ⟨f, by rw [hvE]; exact iterCollect_to_vecLoop blend la f first l hf⟩

theorem c5_both_none (blend : RawBlend) (inst : Instance) (name : String)
    (hv : ∀ f, get_vec blend f inst name = none)
    (hi : ∀ f, get_iter_list blend f inst name = none) (l : List Instance) :
    (∃ f, get_vec blend f inst name = some l) ↔
    (∃ f, get_iter_list blend f inst name = some l) := by
  constructor <;> rintro ⟨f, hf⟩
  · rw [hv f] at hf
    exact absurd hf (by simp)
  · rw [hi f] at hf
    exact absurd hf (by simp)

theorem c5_valueArray_ok (blend : RawBlend) (inst : Instance) (name : String)
    (field : FieldTemplate) (len : Nat) (dims : List Nat) (s : DnaStruct) (t : DnaType)
    (flds : List (String × FieldTemplate)) (data : List Nat)
    (hlf : lookupField inst name = some field)
    (hinfo : field.info = .valueArray len dims)
    (hprim : field.is_primitive = false)
    (hfs : blend.dna.structs.find? (fun s => s.type_index = field.type_index) = some s)
    (ht : blend.dna.types.get? s.type_index = some t)
    (hfl : generate_fields blend.dna blend.header s t = some flds)
    (hdb : inst.data.dataBytes = some data)
    (hl0 : len ≠ 0)
    (hdvd : len ∣ data.length) (hpos : 0 < data.length)
    (l : List Instance) :
    (∃ f, get_vec blend f inst name = some l) ↔
    (∃ f, get_iter_list blend f inst name = some l) := by
  have hvE : ∀ f, get_vec blend f inst name =
      (List.range len).mapM (fun i =>
        (sliceGet data (i * (data.length / len)) (data.length / len)).map
          (fun bytes => { type_name := t.name, data := .raw bytes, fields := flds })) := by
    intro f
    simp only [get_vec, hlf, Option.bind_eq_bind, Option.some_bind]
    rw [hinfo]
    simp only []
    rw [hprim]
    simp only [Bool.false_eq_true, if_false]
    rw [hfs]
    simp only [Option.some_bind]
    rw [ht]
    simp only [Option.some_bind]
    rw [hfl]
    simp only [Option.some_bind]
    rw [hdb]
    simp only [Option.some_bind]
  have hiE : ∀ f, get_iter_list blend f inst name =
      iterCollect blend f (.valueArray flds data len t.name 0) := by
    intro f
    have hinit : get_iter_init blend inst name = some (.valueArray flds data len t.name 0) := by
      simp only [get_iter_init, hlf, Option.bind_eq_bind, Option.some_bind]
      rw [hinfo]
      simp only []
      rw [hprim]
      simp only [Bool.false_eq_true, if_false]
      rw [hfs]
      simp only [Option.some_bind]
      rw [ht]
      simp only [Option.some_bind]
      rw [hfl]
      simp only [Option.some_bind]
      rw [hdb]
      simp only [Option.some_bind]
    simp only [get_iter_list, hinit, Option.bind_eq_bind, Option.some_bind]
  have hlen : 0 < len := Nat.pos_of_ne_zero hl0
  have hS := iterCollect_valueArray blend flds data len t.name hdvd hpos hlen
  constructor
  · rintro ⟨f, hf⟩
    rw [hvE f] at hf
    refine ⟨len + 1, ?_⟩
    rw [hiE, hS len 0 (by omega) (len + 1) le_rfl, ← List.range_eq_range']
    exact hf
  · rintro ⟨f, hf⟩
    rw [hiE f] at hf
    have h2 := iterCollect_mono blend (Nat.le_max_left f (len + 1)) hf
    have h3 := hS len 0 (by omega) (max f (len + 1)) (Nat.le_max_right f (len + 1))
    rw [h3] at h2
    exact ⟨0, by rw [hvE, List.range_eq_range']; exact h2⟩

theorem c5_pointer1_principal_ok (blend : RawBlend) (inst : Instance) (name : String)
    (field : FieldTemplate) (c : List Nat) (a d : Nat) (dd : BlockData) (s : DnaStruct)
    (t : DnaType) (flds : List (String × FieldTemplate))
    (hlf : lookupField inst name = some field)
    (hinfo : field.info = .pointer 1)
    (hptr : inst.get_ptr blend field = some (.block (.principal c a d dd)))
    (hs : blend.dna.structs.get? d = some s)
    (ht : blend.dna.types.get? s.type_index = some t)
    (hfl : generate_fields blend.dna blend.header s t = some flds)
    (hc0 : dd.count ≠ 0)
    (hdvd : dd.count ∣ dd.data.length) (hpos : 0 < dd.data.length)
    (l : List Instance) :
    (∃ f, get_vec blend f inst name = some l) ↔
    (∃ f, get_iter_list blend f inst name = some l) := by
  have hvE : ∀ f, get_vec blend f inst name =
      (List.range dd.count).mapM (fun i =>
        (sliceGet dd.data (i * (dd.data.length / dd.count)) (dd.data.length / dd.count)).map
          (fun bytes => { type_name := t.name, data := .raw bytes, fields := flds })) := by
    intro f
    simp only [get_vec, hlf, Option.bind_eq_bind, Option.some_bind]
    rw [hinfo]
    simp only []
    rw [hptr]
    simp only [Option.some_bind]
    rw [hs]
    simp only [Option.some_bind]
    rw [ht]
    simp only [Option.some_bind]
    rw [hfl]
    simp only [Option.some_bind]
  have hiE : ∀ f, get_iter_list blend f inst name =
      iterCollect blend f (.pointer1 flds dd t.name 0) := by
    intro f
    have hinit : get_iter_init blend inst name = some (.pointer1 flds dd t.name 0) := by
      simp only [get_iter_init, hlf, Option.bind_eq_bind, Option.some_bind]
      rw [hinfo]
      simp only []
      rw [hptr]
      simp only [Option.some_bind]
      rw [hs]
      simp only [Option.some_bind]
      rw [ht]
      simp only [Option.some_bind]
      rw [hfl]
      simp only [Option.some_bind]
    simp only [get_iter_list, hinit, Option.bind_eq_bind, Option.some_bind]
  have hlen : 0 < dd.count := Nat.pos_of_ne_zero hc0
  have hS := iterCollect_pointer1 blend flds dd t.name hdvd hpos hlen
  constructor
  · rintro ⟨f, hf⟩
    rw [hvE f] at hf
    refine ⟨dd.count + 1, ?_⟩
    rw [hiE, hS dd.count 0 (by omega) (dd.count + 1) le_rfl, ← List.range_eq_range']
    exact hf
  · rintro ⟨f, hf⟩
    rw [hiE f] at hf
    have h2 := iterCollect_mono blend (Nat.le_max_left f (dd.count + 1)) hf
    have h3 := hS dd.count 0 (by omega) (max f (dd.count + 1)) (Nat.le_max_right f (dd.count + 1))
    rw [h3] at h2
    exact ⟨0, by rw [hvE, List.range_eq_range']; exact h2⟩

theorem c5_pointer1_subsidiary_ok (blend : RawBlend) (inst : Instance) (name : String)
    (field : FieldTemplate) (a d : Nat) (dd : BlockData)
    (r : List (String × FieldTemplate) × DnaType)
    (hlf : lookupField inst name = some field)
    (hinfo : field.info = .pointer 1)
    (hptr : inst.get_ptr blend field = some (.block (.subsidiary a d dd)))
    (hgsf : generate_subsidiary_fields blend.dna blend.header field d = some r)
    (hc0 : dd.count ≠ 0)
    (hdvd : dd.count ∣ dd.data.length) (hpos : 0 < dd.data.length)
    (l : List Instance) :
    (∃ f, get_vec blend f inst name = some l) ↔
    (∃ f, get_iter_list blend f inst name = some l) := by
  have hvE : ∀ f, get_vec blend f inst name =
      (List.range dd.count).mapM (fun i =>
        (sliceGet dd.data (i * (dd.data.length / dd.count)) (dd.data.length / dd.count)).map
          (fun bytes => { type_name := r.2.name, data := .raw bytes, fields := r.1 })) := by
    intro f
    simp only [get_vec, hlf, Option.bind_eq_bind, Option.some_bind]
    rw [hinfo]
    simp only []
    rw [hptr]
    simp only [Option.some_bind]
    rw [hgsf]
    simp only [Option.some_bind]
  have hiE : ∀ f, get_iter_list blend f inst name =
      iterCollect blend f (.pointer1 r.1 dd r.2.name 0) := by
    intro f
    have hinit : get_iter_init blend inst name = some (.pointer1 r.1 dd r.2.name 0) := by
      simp only [get_iter_init, hlf, Option.bind_eq_bind, Option.some_bind]
      rw [hinfo]
      simp only []
      rw [hptr]
      simp only [Option.some_bind]
      rw [hgsf]
      simp only [Option.some_bind]
    simp only [get_iter_list, hinit, Option.bind_eq_bind, Option.some_bind]
  have hlen : 0 < dd.count := Nat.pos_of_ne_zero hc0
  have hS := iterCollect_pointer1 blend r.1 dd r.2.name hdvd hpos hlen
  constructor
  · rintro ⟨f, hf⟩
    rw [hvE f] at hf
    refine ⟨dd.count + 1, ?_⟩
    rw [hiE, hS dd.count 0 (by omega) (dd.count + 1) le_rfl, ← List.range_eq_range']
    exact hf
  · rintro ⟨f, hf⟩
    rw [hiE f] at hf
    have h2 := iterCollect_mono blend (Nat.le_max_left f (dd.count + 1)) hf
    have h3 := hS dd.count 0 (by omega) (max f (dd.count + 1)) (Nat.le_max_right f (dd.count + 1))
    rw [h3] at h2
    exact ⟨0, by rw [hvE, List.range_eq_range']; exact h2⟩

theorem c5_pointer2_principal_ok (blend : RawBlend) (inst : Instance) (name : String)
    (field : FieldTemplate) (c : List Nat) (a d : Nat) (dd : BlockData) (ptrs : List Nat)
    (hlf : lookupField inst name = some field)
    (hinfo : field.info = .pointer 2)
    (hptr : inst.get_ptr blend field = some (.block (.principal c a d dd)))
    (hcol : collectPtrsGo blend dd.data blend.header.pointer_size.bytes_num
      (List.range (dd.data.length / blend.header.pointer_size.bytes_num)) = some ptrs)
    (hns : noSubsidHit blend dd.data)
    (l : List Instance) :
    (∃ f, get_vec blend f inst name = some l) ↔
    (∃ f, get_iter_list blend f inst name = some l) := by
  have hvE : ∀ f, get_vec blend f inst name =
      vecPtr2Go blend dd.data blend.header.pointer_size.bytes_num
        (List.range (dd.data.length / blend.header.pointer_size.bytes_num)) := by
    intro f
    simp only [get_vec, hlf, Option.bind_eq_bind, Option.some_bind]
    rw [hinfo]
    simp only []
    rw [hptr]
    simp only [Option.some_bind]
  have hiE : ∀ f, get_iter_list blend f inst name =
      iterCollect blend f (.pointer2 ptrs field) := by
    intro f
    have hinit : get_iter_init blend inst name = some (.pointer2 ptrs field) := by
      simp only [get_iter_init, hlf, Option.bind_eq_bind, Option.some_bind]
      rw [hinfo]
      simp only []
      rw [hptr]
      simp only [Option.some_bind]
      rw [hcol]
      rfl
    simp only [get_iter_list, hinit, Option.bind_eq_bind, Option.some_bind]
  obtain ⟨hfor, hback⟩ := ptr2_core blend field dd.data blend.header.pointer_size.bytes_num
    (List.range (dd.data.length / blend.header.pointer_size.bytes_num)) ptrs hcol
    (noSubsidHit_to blend dd.data hns)
  constructor
  · rintro ⟨f, hf⟩
    rw [hvE f] at hf
    exact ⟨ptrs.length + 1, by rw [hiE]; exact hfor l hf (ptrs.length + 1) le_rfl⟩
  · rintro ⟨f, hf⟩
    rw [hiE f] at hf
    exact ⟨0, by rw [hvE]; exact hback f l hf⟩

theorem c5_pointer2_subsidiary_ok (blend : RawBlend) (inst : Instance) (name : String)
    (field : FieldTemplate) (a d : Nat) (dd : BlockData) (ptrs : List Nat)
    (hlf : lookupField inst name = some field)
    (hinfo : field.info = .pointer 2)
    (hptr : inst.get_ptr blend field = some (.block (.subsidiary a d dd)))
    (hcol : collectPtrsGo blend dd.data blend.header.pointer_size.bytes_num
      (List.range (dd.data.length / blend.header.pointer_size.bytes_num)) = some ptrs)
    (hns : noSubsidHit blend dd.data)
    (l : List Instance) :
    (∃ f, get_vec blend f inst name = some l) ↔
    (∃ f, get_iter_list blend f inst name = some l) := by
  have hvE : ∀ f, get_vec blend f inst name =
      vecPtr2Go blend dd.data blend.header.pointer_size.bytes_num
        (List.range (dd.data.length / blend.header.pointer_size.bytes_num)) := by
    intro f
    simp only [get_vec, hlf, Option.bind_eq_bind, Option.some_bind]
    rw [hinfo]
    simp only []
    rw [hptr]
    simp only [Option.some_bind]
  have hiE : ∀ f, get_iter_list blend f inst name =
      iterCollect blend f (.pointer2 ptrs field) := by
    intro f
    have hinit : get_iter_init blend inst name = some (.pointer2 ptrs field) := by
      simp only [get_iter_init, hlf, Option.bind_eq_bind, Option.some_bind]
      rw [hinfo]
      simp only []
      rw [hptr]
      simp only [Option.some_bind]
      rw [hcol]
      rfl
    simp only [get_iter_list, hinit, Option.bind_eq_bind, Option.some_bind]
  obtain ⟨hfor, hback⟩ := ptr2_core blend field dd.data blend.header.pointer_size.bytes_num
    (List.range (dd.data.length / blend.header.pointer_size.bytes_num)) ptrs hcol
    (noSubsidHit_to blend dd.data hns)
  constructor
  · rintro ⟨f, hf⟩
    rw [hvE f] at hf
    exact ⟨ptrs.length + 1, by rw [hiE]; exact hfor l hf (ptrs.length + 1) le_rfl⟩
  · rintro ⟨f, hf⟩
    rw [hiE f] at hf
    exact ⟨0, by rw [hvE]; exact hback f l hf⟩

theorem c5_ptrArr_ok (blend : RawBlend) (inst : Instance) (name : String)
    (field : FieldTemplate) (len : Nat) (dims : List Nat) (data ptrs : List Nat)
    (hlf : lookupField inst name = some field)
    (hinfo : field.info = .pointerArray 1 len dims)
    (hdata : inst.getData field.data_start field.data_len = some data)
    (hguard : len = data.length / blend.header.pointer_size.bytes_num)
    (hcol : collectPtrsGo blend data blend.header.pointer_size.bytes_num
      (List.range (data.length / blend.header.pointer_size.bytes_num)) = some ptrs)
    (l : List Instance) :
    (∃ f, get_vec blend f inst name = some l) ↔
    (∃ f, get_iter_list blend f inst name = some l) := by
  have hvE : ∀ f, get_vec blend f inst name =
      vecPtrArrGo blend field data blend.header.pointer_size.bytes_num
        (List.range (data.length / blend.header.pointer_size.bytes_num)) := by
    intro f
    simp only [get_vec, hlf, Option.bind_eq_bind, Option.some_bind]
    rw [hinfo]
    simp only []
    rw [hdata]
    simp only [Option.some_bind]
    rw [if_pos hguard]
  have hiE : ∀ f, get_iter_list blend f inst name =
      iterCollect blend f (.pointer2 ptrs field) := by
    intro f
    have hinit : get_iter_init blend inst name = some (.pointer2 ptrs field) := by
      simp only [get_iter_init, hlf, Option.bind_eq_bind, Option.some_bind]
      rw [hinfo]
      simp only []
      rw [hdata]
      simp only [Option.some_bind]
      rw [if_pos hguard]
      rw [hcol]
      rfl
    simp only [get_iter_list, hinit, Option.bind_eq_bind, Option.some_bind]
  obtain ⟨hfor, hback⟩ := ptrArr_core blend field data blend.header.pointer_size.bytes_num
    (List.range (data.length / blend.header.pointer_size.bytes_num)) ptrs hcol
  constructor
  · rintro ⟨f, hf⟩
    rw [hvE f] at hf
    exact ⟨ptrs.length + 1, by rw [hiE]; exact hfor l hf (ptrs.length + 1) le_rfl⟩
  · rintro ⟨f, hf⟩
    rw [hiE f] at hf
    exact ⟨0, by rw [hvE]; exact hback f l hf⟩

/-- C5 (amended): `get_vec(name)` and `get_iter(name)` yield the same
sequence of instances — same length, order, type names and underlying data —
provided the field satisfies the side conditions of `vecIterHyp`: for sliced
fields (non-primitive `ValueArray` values and single pointers to a block) the
element count is positive and divides the positive sliced data length, and
for double pointers no stored address resolves to a `Subsidiary` block.
Under these conditions, for every list `l`, some fuel makes `get_vec` return
`l` exactly when some fuel makes the drained `get_iter` return `l`; in
particular each panics or loops forever exactly when the other does.  (The
original unconditional claim fails when the count does not divide the data
length; when the count is zero, where `get_vec` yields an empty sequence but
`get_iter`'s `next` divides by zero; when a positive count meets empty data,
where `get_vec` yields `count` empty instances but `get_iter` yields none;
and on double-pointer targets resolving to `Subsidiary` blocks, where
`get_vec` hits `unimplemented` but `get_iter` yields the instance.) -/
theorem C5_vec_iter (blend : RawBlend) (inst : Instance) (name : String)
    (hyp : vecIterHyp blend inst name) (l : List Instance) :
    (∃ f, get_vec blend f inst name = some l) ↔
    (∃ f, get_iter_list blend f inst name = some l) := by
  cases hlf : lookupField inst name with
  | none =>
    refine c5_both_none blend inst name ?_ ?_ l
    · intro f
      simp only [get_vec, hlf, Option.bind_eq_bind, Option.none_bind]
    · intro f
      simp only [get_iter_list, get_iter_init, hlf, Option.bind_eq_bind, Option.none_bind]
  | some field =>
    cases hinfo : field.info with
    | value =>
      by_cases hlb : field.type_name = "ListBase"
      · cases hli : inst.get blend name with
        | none =>
          refine c5_both_none blend inst name ?_ ?_ l
          · intro f
            simp only [get_vec, hlf, Option.bind_eq_bind, Option.some_bind]
            rw [hinfo]
            simp only []
            rw [if_pos hlb, hli]
            simp only [Option.none_bind]
          · intro f
            simp only [get_iter_list, get_iter_init, hlf, Option.bind_eq_bind, Option.some_bind]
            rw [hinfo]
            simp only []
            rw [if_pos hlb, hli]
            simp only [Option.none_bind]
        | some li =>
          cases hlast : li.get blend "last" with
          | none =>
            refine c5_both_none blend inst name ?_ ?_ l
            · intro f
              simp only [get_vec, hlf, Option.bind_eq_bind, Option.some_bind]
              rw [hinfo]
              simp only []
              rw [if_pos hlb, hli]
              simp only [Option.some_bind]
              rw [hlast]
              simp only [Option.none_bind]
            · intro f
              simp only [get_iter_list, get_iter_init, hlf, Option.bind_eq_bind, Option.some_bind]
              rw [hinfo]
              simp only []
              rw [if_pos hlb, hli]
              simp only [Option.some_bind]
              rw [hlast]
              simp only [Option.none_bind]
          | some lastI =>
            cases hla : lastI.data.memAddr with
            | none =>
              refine c5_both_none blend inst name ?_ ?_ l
              · intro f
                simp only [get_vec, hlf, Option.bind_eq_bind, Option.some_bind]
                rw [hinfo]
                simp only []
                rw [if_pos hlb, hli]
                simp only [Option.some_bind]
                rw [hlast]
                simp only [Option.some_bind]
                rw [hla]
                simp only [Option.none_bind]
              · intro f
                simp only [get_iter_list, get_iter_init, hlf, Option.bind_eq_bind,
                  Option.some_bind]
                rw [hinfo]
                simp only []
                rw [if_pos hlb, hli]
                simp only [Option.some_bind]
                rw [hlast]
                simp only [Option.some_bind]
                rw [hla]
                simp only [Option.none_bind]
            | some la =>
              cases hfirst : li.get blend "first" with
              | none =>
                refine c5_both_none blend inst name ?_ ?_ l
                · intro f
                  simp only [get_vec, hlf, Option.bind_eq_bind, Option.some_bind]
                  rw [hinfo]
                  simp only []
                  rw [if_pos hlb, hli]
                  simp only [Option.some_bind]
                  rw [hlast]
                  simp only [Option.some_bind]
                  rw [hla]
                  simp only [Option.some_bind]
                  rw [hfirst]
                  simp only [Option.none_bind]
                · intro f
                  simp only [get_iter_list, get_iter_init, hlf, Option.bind_eq_bind,
                    Option.some_bind]
                  rw [hinfo]
                  simp only []
                  rw [if_pos hlb, hli]
                  simp only [Option.some_bind]
                  rw [hlast]
                  simp only [Option.some_bind]
                  rw [hla]
                  simp only [Option.some_bind]
                  rw [hfirst]
                  simp only [Option.none_bind]
              | some first =>
                exact c5_value_lb blend inst name field li lastI first la
                  hlf hinfo hlb hli hlast hla hfirst l
      · refine c5_both_none blend inst name ?_ ?_ l
        · intro f
          simp only [get_vec, hlf, Option.bind_eq_bind, Option.some_bind]
          rw [hinfo]
          simp only []
          rw [if_neg hlb]
        · intro f
          simp only [get_iter_list, get_iter_init, hlf, Option.bind_eq_bind, Option.some_bind]
          rw [hinfo]
          simp only []
          rw [if_neg hlb]
          simp only [Option.none_bind]
    | fnPointer =>
      refine c5_both_none blend inst name ?_ ?_ l
      · intro f
        simp only [get_vec, hlf, Option.bind_eq_bind, Option.some_bind]
        rw [hinfo]
      · intro f
        simp only [get_iter_list, get_iter_init, hlf, Option.bind_eq_bind, Option.some_bind]
        rw [hinfo]
        rfl
    | valueArray len dims =>
      cases hpr : field.is_primitive with
      | true =>
        refine c5_both_none blend inst name ?_ ?_ l
        · intro f
          simp only [get_vec, hlf, Option.bind_eq_bind, Option.some_bind]
          rw [hinfo]
          simp only []
          rw [hpr]
          rfl
        · intro f
          simp only [get_iter_list, get_iter_init, hlf, Option.bind_eq_bind, Option.some_bind]
          rw [hinfo]
          simp only []
          rw [hpr]
          rfl
      | false =>
        cases hfs : blend.dna.structs.find? (fun s => s.type_index = field.type_index) with
        | none =>
          refine c5_both_none blend inst name ?_ ?_ l
          · intro f
            simp only [get_vec, hlf, Option.bind_eq_bind, Option.some_bind]
            rw [hinfo]
            simp only []
            rw [hpr]
            simp only [Bool.false_eq_true, if_false]
            rw [hfs]
            simp only [Option.none_bind]
          · intro f
            simp only [get_iter_list, get_iter_init, hlf, Option.bind_eq_bind, Option.some_bind]
            rw [hinfo]
            simp only []
            rw [hpr]
            simp only [Bool.false_eq_true, if_false]
            rw [hfs]
            simp only [Option.none_bind]
        | some s =>
          cases ht : blend.dna.types.get? s.type_index with
          | none =>
            refine c5_both_none blend inst name ?_ ?_ l
            · intro f
              simp only [get_vec, hlf, Option.bind_eq_bind, Option.some_bind]
              rw [hinfo]
              simp only []
              rw [hpr]
              simp only [Bool.false_eq_true, if_false]
              rw [hfs]
              simp only [Option.some_bind]
              rw [ht]
              simp only [Option.none_bind]
            · intro f
              simp only [get_iter_list, get_iter_init, hlf, Option.bind_eq_bind,
                Option.some_bind]
              rw [hinfo]
              simp only []
              rw [hpr]
              simp only [Bool.false_eq_true, if_false]
              rw [hfs]
              simp only [Option.some_bind]
              rw [ht]
              simp only [Option.none_bind]
          | some t =>
            cases hfl : generate_fields blend.dna blend.header s t with
            | none =>
              refine c5_both_none blend inst name ?_ ?_ l
              · intro f
                simp only [get_vec, hlf, Option.bind_eq_bind, Option.some_bind]
                rw [hinfo]
                simp only []
                rw [hpr]
                simp only [Bool.false_eq_true, if_false]
                rw [hfs]
                simp only [Option.some_bind]
                rw [ht]
                simp only [Option.some_bind]
                rw [hfl]
                simp only [Option.none_bind]
              · intro f
                simp only [get_iter_list, get_iter_init, hlf, Option.bind_eq_bind,
                  Option.some_bind]
                rw [hinfo]
                simp only []
                rw [hpr]
                simp only [Bool.false_eq_true, if_false]
                rw [hfs]
                simp only [Option.some_bind]
                rw [ht]
                simp only [Option.some_bind]
                rw [hfl]
                simp only [Option.none_bind]
            | some flds =>
              cases hdb : inst.data.dataBytes with
              | none =>
                refine c5_both_none blend inst name ?_ ?_ l
                · intro f
                  simp only [get_vec, hlf, Option.bind_eq_bind, Option.some_bind]
                  rw [hinfo]
                  simp only []
                  rw [hpr]
                  simp only [Bool.false_eq_true, if_false]
                  rw [hfs]
                  simp only [Option.some_bind]
                  rw [ht]
                  simp only [Option.some_bind]
                  rw [hfl]
                  simp only [Option.some_bind]
                  rw [hdb]
                  simp only [Option.none_bind]
                · intro f
                  simp only [get_iter_list, get_iter_init, hlf, Option.bind_eq_bind,
                    Option.some_bind]
                  rw [hinfo]
                  simp only []
                  rw [hpr]
                  simp only [Bool.false_eq_true, if_false]
                  rw [hfs]
                  simp only [Option.some_bind]
                  rw [ht]
                  simp only [Option.some_bind]
                  rw [hfl]
                  simp only [Option.some_bind]
                  rw [hdb]
                  simp only [Option.none_bind]
              | some data =>
                simp only [vecIterHyp] at hyp
                rw [hlf] at hyp
                simp only [] at hyp
                rw [hinfo] at hyp
                simp only [] at hyp
                rw [hdb] at hyp
                simp only [] at hyp
                exact c5_valueArray_ok blend inst name field len dims s t flds data
                  hlf hinfo hpr hfs ht hfl hdb (Nat.pos_iff_ne_zero.mp hyp.1)
                  hyp.2.1 hyp.2.2 l
    | pointer k =>
      cases k with
      | zero =>
        refine c5_both_none blend inst name ?_ ?_ l
        · intro f
          simp only [get_vec, hlf, Option.bind_eq_bind, Option.some_bind]
          rw [hinfo]
        · intro f
          simp only [get_iter_list, get_iter_init, hlf, Option.bind_eq_bind, Option.some_bind]
          rw [hinfo]
          rfl
      | succ k1 =>
        cases k1 with
        | succ k2 =>
          cases k2 with
          | succ k3 =>
            refine c5_both_none blend inst name ?_ ?_ l
            · intro f
              simp only [get_vec, hlf, Option.bind_eq_bind, Option.some_bind]
              rw [hinfo]
              exact rfl
            · intro f
              simp only [get_iter_list, get_iter_init, hlf, Option.bind_eq_bind,
                Option.some_bind]
              rw [hinfo]
              exact rfl
          | zero =>
            cases hptr : inst.get_ptr blend field with
            | none =>
              refine c5_both_none blend inst name ?_ ?_ l
              · intro f
                simp only [get_vec, hlf, Option.bind_eq_bind, Option.some_bind]
                rw [hinfo]
                simp only []
                rw [hptr]
                simp only [Option.none_bind]
              · intro f
                simp only [get_iter_list, get_iter_init, hlf, Option.bind_eq_bind,
                  Option.some_bind]
                rw [hinfo]
                simp only []
                rw [hptr]
                simp only [Option.none_bind]
            | some pi =>
              cases pi with
              | null =>
                refine c5_both_none blend inst name ?_ ?_ l
                · intro f
                  simp only [get_vec, hlf, Option.bind_eq_bind, Option.some_bind]
                  rw [hinfo]
                  simp only []
                  rw [hptr]
                  rfl
                · intro f
                  simp only [get_iter_list, get_iter_init, hlf, Option.bind_eq_bind,
                    Option.some_bind]
                  rw [hinfo]
                  simp only []
                  rw [hptr]
                  rfl
              | invalid =>
                refine c5_both_none blend inst name ?_ ?_ l
                · intro f
                  simp only [get_vec, hlf, Option.bind_eq_bind, Option.some_bind]
                  rw [hinfo]
                  simp only []
                  rw [hptr]
                  rfl
                · intro f
                  simp only [get_iter_list, get_iter_init, hlf, Option.bind_eq_bind,
                    Option.some_bind]
                  rw [hinfo]
                  simp only []
                  rw [hptr]
                  rfl
              | block b =>
                cases b with
                | principal c a d dd =>
                  cases hcol : collectPtrsGo blend dd.data blend.header.pointer_size.bytes_num
                      (List.range (dd.data.length / blend.header.pointer_size.bytes_num)) with
                  | none =>
                    refine c5_both_none blend inst name ?_ ?_ l
                    · intro f
                      simp only [get_vec, hlf, Option.bind_eq_bind, Option.some_bind]
                      rw [hinfo]
                      simp only []
                      rw [hptr]
                      simp only [Option.some_bind]
                      exact collect_none_vec2_none blend dd.data
                        blend.header.pointer_size.bytes_num _ hcol
                    · intro f
                      simp only [get_iter_list, get_iter_init, hlf, Option.bind_eq_bind,
                        Option.some_bind]
                      rw [hinfo]
                      simp only []
                      rw [hptr]
                      simp only [Option.some_bind]
                      rw [hcol]
                      rfl
                  | some ptrs =>
                    simp only [vecIterHyp] at hyp
                    rw [hlf] at hyp
                    simp only [] at hyp
                    rw [hinfo] at hyp
                    simp only [] at hyp
                    rw [hptr] at hyp
                    simp only [] at hyp
                    exact c5_pointer2_principal_ok blend inst name field c a d dd ptrs
                      hlf hinfo hptr hcol hyp l
                | subsidiary a d dd =>
                  cases hcol : collectPtrsGo blend dd.data blend.header.pointer_size.bytes_num
                      (List.range (dd.data.length / blend.header.pointer_size.bytes_num)) with
                  | none =>
                    refine c5_both_none blend inst name ?_ ?_ l
                    · intro f
                      simp only [get_vec, hlf, Option.bind_eq_bind, Option.some_bind]
                      rw [hinfo]
                      simp only []
                      rw [hptr]
                      simp only [Option.some_bind]
                      exact collect_none_vec2_none blend dd.data
                        blend.header.pointer_size.bytes_num _ hcol
                    · intro f
                      simp only [get_iter_list, get_iter_init, hlf, Option.bind_eq_bind,
                        Option.some_bind]
                      rw [hinfo]
                      simp only []
                      rw [hptr]
                      simp only [Option.some_bind]
                      rw [hcol]
                      rfl
                  | some ptrs =>
                    simp only [vecIterHyp] at hyp
                    rw [hlf] at hyp
                    simp only [] at hyp
                    rw [hinfo] at hyp
                    simp only [] at hyp
                    rw [hptr] at hyp
                    simp only [] at hyp
                    exact c5_pointer2_subsidiary_ok blend inst name field a d dd ptrs
                      hlf hinfo hptr hcol hyp l
                | global a d dd =>
                  refine c5_both_none blend inst name ?_ ?_ l
                  · intro f
                    simp only [get_vec, hlf, Option.bind_eq_bind, Option.some_bind]
                    rw [hinfo]
                    simp only []
                    rw [hptr]
                    rfl
                  · intro f
                    simp only [get_iter_list, get_iter_init, hlf, Option.bind_eq_bind,
                      Option.some_bind]
                    rw [hinfo]
                    simp only []
                    rw [hptr]
                    rfl
                | rend =>
                  refine c5_both_none blend inst name ?_ ?_ l
                  · intro f
                    simp only [get_vec, hlf, Option.bind_eq_bind, Option.some_bind]
                    rw [hinfo]
                    simp only []
                    rw [hptr]
                    rfl
                  · intro f
                    simp only [get_iter_list, get_iter_init, hlf, Option.bind_eq_bind,
                      Option.some_bind]
                    rw [hinfo]
                    simp only []
                    rw [hptr]
                    rfl
                | test =>
                  refine c5_both_none blend inst name ?_ ?_ l
                  · intro f
                    simp only [get_vec, hlf, Option.bind_eq_bind, Option.some_bind]
                    rw [hinfo]
                    simp only []
                    rw [hptr]
                    rfl
                  · intro f
                    simp only [get_iter_list, get_iter_init, hlf, Option.bind_eq_bind,
                      Option.some_bind]
                    rw [hinfo]
                    simp only []
                    rw [hptr]
                    rfl
                | dna dn =>
                  refine c5_both_none blend inst name ?_ ?_ l
                  · intro f
                    simp only [get_vec, hlf, Option.bind_eq_bind, Option.some_bind]
                    rw [hinfo]
                    simp only []
                    rw [hptr]
                    rfl
                  · intro f
                    simp only [get_iter_list, get_iter_init, hlf, Option.bind_eq_bind,
                      Option.some_bind]
                    rw [hinfo]
                    simp only []
                    rw [hptr]
                    rfl
        | zero =>
          cases hptr : inst.get_ptr blend field with
          | none =>
            refine c5_both_none blend inst name ?_ ?_ l
            · intro f
              simp only [get_vec, hlf, Option.bind_eq_bind, Option.some_bind]
              rw [hinfo]
              simp only []
              rw [hptr]
              simp only [Option.none_bind]
            · intro f
              simp only [get_iter_list, get_iter_init, hlf, Option.bind_eq_bind,
                Option.some_bind]
              rw [hinfo]
              simp only []
              rw [hptr]
              simp only [Option.none_bind]
          | some pi =>
            cases pi with
            | null =>
              refine c5_both_none blend inst name ?_ ?_ l
              · intro f
                simp only [get_vec, hlf, Option.bind_eq_bind, Option.some_bind]
                rw [hinfo]
                simp only []
                rw [hptr]
                rfl
              · intro f
                simp only [get_iter_list, get_iter_init, hlf, Option.bind_eq_bind,
                  Option.some_bind]
                rw [hinfo]
                simp only []
                rw [hptr]
                rfl
            | invalid =>
              refine c5_both_none blend inst name ?_ ?_ l
              · intro f
                simp only [get_vec, hlf, Option.bind_eq_bind, Option.some_bind]
                rw [hinfo]
                simp only []
                rw [hptr]
                rfl
              · intro f
                simp only [get_iter_list, get_iter_init, hlf, Option.bind_eq_bind,
                  Option.some_bind]
                rw [hinfo]
                simp only []
                rw [hptr]
                rfl
            | block b =>
              cases b with
              | principal c a d dd =>
                cases hs : blend.dna.structs.get? d with
                | none =>
                  refine c5_both_none blend inst name ?_ ?_ l
                  · intro f
                    simp only [get_vec, hlf, Option.bind_eq_bind, Option.some_bind]
                    rw [hinfo]
                    simp only []
                    rw [hptr]
                    simp only [Option.some_bind]
                    rw [hs]
                    simp only [Option.none_bind]
                  · intro f
                    simp only [get_iter_list, get_iter_init, hlf, Option.bind_eq_bind,
                      Option.some_bind]
                    rw [hinfo]
                    simp only []
                    rw [hptr]
                    simp only [Option.some_bind]
                    rw [hs]
                    simp only [Option.none_bind]
                | some s =>
                  cases ht : blend.dna.types.get? s.type_index with
                  | none =>
                    refine c5_both_none blend inst name ?_ ?_ l
                    · intro f
                      simp only [get_vec, hlf, Option.bind_eq_bind, Option.some_bind]
                      rw [hinfo]
                      simp only []
                      rw [hptr]
                      simp only [Option.some_bind]
                      rw [hs]
                      simp only [Option.some_bind]
                      rw [ht]
                      simp only [Option.none_bind]
                    · intro f
                      simp only [get_iter_list, get_iter_init, hlf, Option.bind_eq_bind,
                        Option.some_bind]
                      rw [hinfo]
                      simp only []
                      rw [hptr]
                      simp only [Option.some_bind]
                      rw [hs]
                      simp only [Option.some_bind]
                      rw [ht]
                      simp only [Option.none_bind]
                  | some t =>
                    cases hfl : generate_fields blend.dna blend.header s t with
                    | none =>
                      refine c5_both_none blend inst name ?_ ?_ l
                      · intro f
                        simp only [get_vec, hlf, Option.bind_eq_bind, Option.some_bind]
                        rw [hinfo]
                        simp only []
                        rw [hptr]
                        simp only [Option.some_bind]
                        rw [hs]
                        simp only [Option.some_bind]
                        rw [ht]
                        simp only [Option.some_bind]
                        rw [hfl]
                        simp only [Option.none_bind]
                      · intro f
                        simp only [get_iter_list, get_iter_init, hlf, Option.bind_eq_bind,
                          Option.some_bind]
                        rw [hinfo]
                        simp only []
                        rw [hptr]
                        simp only [Option.some_bind]
                        rw [hs]
                        simp only [Option.some_bind]
                        rw [ht]
                        simp only [Option.some_bind]
                        rw [hfl]
                        simp only [Option.none_bind]
                    | some flds =>
                      simp only [vecIterHyp] at hyp
                      rw [hlf] at hyp
                      simp only [] at hyp
                      rw [hinfo] at hyp
                      simp only [] at hyp
                      rw [hptr] at hyp
                      simp only [] at hyp
                      exact c5_pointer1_principal_ok blend inst name field c a d dd s t
                        flds hlf hinfo hptr hs ht hfl (Nat.pos_iff_ne_zero.mp hyp.1)
                        hyp.2.1 hyp.2.2 l
              | subsidiary a d dd =>
                cases hgsf : generate_subsidiary_fields blend.dna blend.header field d with
                | none =>
                  refine c5_both_none blend inst name ?_ ?_ l
                  · intro f
                    simp only [get_vec, hlf, Option.bind_eq_bind, Option.some_bind]
                    rw [hinfo]
                    simp only []
                    rw [hptr]
                    simp only [Option.some_bind]
                    rw [hgsf]
                    simp only [Option.none_bind]
                  · intro f
                    simp only [get_iter_list, get_iter_init, hlf, Option.bind_eq_bind,
                      Option.some_bind]
                    rw [hinfo]
                    simp only []
                    rw [hptr]
                    simp only [Option.some_bind]
                    rw [hgsf]
                    simp only [Option.none_bind]
                | some r =>
                  simp only [vecIterHyp] at hyp
                  rw [hlf] at hyp
                  simp only [] at hyp
                  rw [hinfo] at hyp
                  simp only [] at hyp
                  rw [hptr] at hyp
                  simp only [] at hyp
                  exact c5_pointer1_subsidiary_ok blend inst name field a d dd r
                    hlf hinfo hptr hgsf (Nat.pos_iff_ne_zero.mp hyp.1) hyp.2.1 hyp.2.2 l
              | global a d dd =>
                refine c5_both_none blend inst name ?_ ?_ l
                · intro f
                  simp only [get_vec, hlf, Option.bind_eq_bind, Option.some_bind]
                  rw [hinfo]
                  simp only []
                  rw [hptr]
                  rfl
                · intro f
                  simp only [get_iter_list, get_iter_init, hlf, Option.bind_eq_bind,
                    Option.some_bind]
                  rw [hinfo]
                  simp only []
                  rw [hptr]
                  rfl
              | rend =>
                refine c5_both_none blend inst name ?_ ?_ l
                · intro f
                  simp only [get_vec, hlf, Option.bind_eq_bind, Option.some_bind]
                  rw [hinfo]
                  simp only []
                  rw [hptr]
                  rfl
                · intro f
                  simp only [get_iter_list, get_iter_init, hlf, Option.bind_eq_bind,
                    Option.some_bind]
                  rw [hinfo]
                  simp only []
                  rw [hptr]
                  rfl
              | test =>
                refine c5_both_none blend inst name ?_ ?_ l
                · intro f
                  simp only [get_vec, hlf, Option.bind_eq_bind, Option.some_bind]
                  rw [hinfo]
                  simp only []
                  rw [hptr]
                  rfl
                · intro f
                  simp only [get_iter_list, get_iter_init, hlf, Option.bind_eq_bind,
                    Option.some_bind]
                  rw [hinfo]
                  simp only []
                  rw [hptr]
                  rfl
              | dna dn =>
                refine c5_both_none blend inst name ?_ ?_ l
                · intro f
                  simp only [get_vec, hlf, Option.bind_eq_bind, Option.some_bind]
                  rw [hinfo]
                  simp only []
                  rw [hptr]
                  rfl
                · intro f
                  simp only [get_iter_list, get_iter_init, hlf, Option.bind_eq_bind,
                    Option.some_bind]
                  rw [hinfo]
                  simp only []
                  rw [hptr]
                  rfl
    | pointerArray k len dims =>
      cases k with
      | zero =>
        refine c5_both_none blend inst name ?_ ?_ l
        · intro f
          simp only [get_vec, hlf, Option.bind_eq_bind, Option.some_bind]
          rw [hinfo]
          try exact rfl
        · intro f
          simp only [get_iter_list, get_iter_init, hlf, Option.bind_eq_bind, Option.some_bind]
          rw [hinfo]
          try exact rfl
      | succ k1 =>
        cases k1 with
        | succ k2 =>
          refine c5_both_none blend inst name ?_ ?_ l
          · intro f
            simp only [get_vec, hlf, Option.bind_eq_bind, Option.some_bind]
            rw [hinfo]
            try exact rfl
          · intro f
            simp only [get_iter_list, get_iter_init, hlf, Option.bind_eq_bind,
              Option.some_bind]
            rw [hinfo]
            try exact rfl
        | zero =>
          cases hdata : inst.getData field.data_start field.data_len with
          | none =>
            refine c5_both_none blend inst name ?_ ?_ l
            · intro f
              simp only [get_vec, hlf, Option.bind_eq_bind, Option.some_bind]
              rw [hinfo]
              simp only []
              rw [hdata]
              simp only [Option.none_bind]
            · intro f
              simp only [get_iter_list, get_iter_init, hlf, Option.bind_eq_bind,
                Option.some_bind]
              rw [hinfo]
              simp only []
              rw [hdata]
              simp only [Option.none_bind]
          | some data =>
            by_cases hguard : len = data.length / blend.header.pointer_size.bytes_num
            · cases hcol : collectPtrsGo blend data blend.header.pointer_size.bytes_num
                  (List.range (data.length / blend.header.pointer_size.bytes_num)) with
              | none =>
                refine c5_both_none blend inst name ?_ ?_ l
                · intro f
                  simp only [get_vec, hlf, Option.bind_eq_bind, Option.some_bind]
                  rw [hinfo]
                  simp only []
                  rw [hdata]
                  simp only [Option.some_bind]
                  rw [if_pos hguard]
                  exact collect_none_vecArr_none blend field data
                    blend.header.pointer_size.bytes_num _ hcol
                · intro f
                  simp only [get_iter_list, get_iter_init, hlf, Option.bind_eq_bind,
                    Option.some_bind]
                  rw [hinfo]
                  simp only []
                  rw [hdata]
                  simp only [Option.some_bind]
                  rw [if_pos hguard]
                  rw [hcol]
                  rfl
              | some ptrs =>
                exact c5_ptrArr_ok blend inst name field len dims data ptrs
                  hlf hinfo hdata hguard hcol l
            · refine c5_both_none blend inst name ?_ ?_ l
              · intro f
                simp only [get_vec, hlf, Option.bind_eq_bind, Option.some_bind]
                rw [hinfo]
                simp only []
                rw [hdata]
                simp only [Option.some_bind]
                rw [if_neg hguard]
              · intro f
                simp only [get_iter_list, get_iter_init, hlf, Option.bind_eq_bind,
                  Option.some_bind]
                rw [hinfo]
                simp only []
                rw [hdata]
                simp only [Option.some_bind]
                rw [if_neg hguard]
                simp only [Option.none_bind]

/-- C5 counterexample: the two calls disagree on the very same field in
three ways.  (1) On file A (which parses successfully), `Scene.stuff` is a
single pointer to a subsidiary `DATA` block with `count = 2` but 3 data
bytes: `get_vec` slices it into `count = 2` instances (of `3 / 2 = 1` byte
each), while `get_iter` keeps slicing until the running offset reaches the
data length, yielding 3 instances.  (2) On a zero-length value array
(`instV0`), `get_vec`'s loop never runs and it yields the empty sequence,
while `get_iter`'s `next` divides the data length by the zero count and
panics, for every fuel.  (3) On a positive-count value array over empty
data (`instVE`), `get_vec` yields `count = 2` empty instances while
`get_iter` yields the empty sequence. -/
theorem C5_counterexample :
    parseBlend fileA = .ok blendA ∧
    lookupField sceneA "stuff" = some ⟨.pointer 1, 13, "Elem", 16, 8, false⟩ ∧
    (∀ f, (get_vec blendA f sceneA "stuff").map List.length = some 2) ∧
    (get_iter_list blendA 4 sceneA "stuff").map List.length = some 3 ∧
    (∀ f, get_vec blendV f instV0 "arr" = some []) ∧
    (∀ f, get_iter_list blendV f instV0 "arr" = none) ∧
    (∀ f, (get_vec blendV f instVE "arr").map List.length = some 2) ∧
    get_iter_list blendV 1 instVE "arr" = some [] := by
  refine ⟨rfl, rfl, fun f => rfl, rfl, fun f => rfl, ?_, fun f => rfl, rfl⟩
  intro f
  have h : get_iter_list blendV f instV0 "arr" = iterCollect blendV f
      (.valueArray [("a", ⟨.value, 0, "ch", 0, 2, true⟩)] [] 0 "Pair" 0) := rfl
  rw [h]
  exact iterCollect_valueArray_zero blendV _ [] "Pair" 0 f

theorem C5_vec_iter_witness :
    (∃ f, get_vec blendV f instV "arr" = some
      [⟨"Pair", .raw [1, 2], [("a", ⟨.value, 0, "ch", 0, 2, true⟩)]⟩,
       ⟨"Pair", .raw [3, 4], [("a", ⟨.value, 0, "ch", 0, 2, true⟩)]⟩]) ↔
    (∃ f, get_iter_list blendV f instV "arr" = some
      [⟨"Pair", .raw [1, 2], [("a", ⟨.value, 0, "ch", 0, 2, true⟩)]⟩,
       ⟨"Pair", .raw [3, 4], [("a", ⟨.value, 0, "ch", 0, 2, true⟩)]⟩]) :=
  C5_vec_iter blendV instV "arr" ⟨by decide, by decide, by decide⟩
    [⟨"Pair", .raw [1, 2], [("a", ⟨.value, 0, "ch", 0, 2, true⟩)]⟩,
     ⟨"Pair", .raw [3, 4], [("a", ⟨.value, 0, "ch", 0, 2, true⟩)]⟩]

end Blend
